import Mathlib

/-!
Message-port broker and client proxy.

A shallow embedding of the broker daemon of the message-port framework
(`src/daemon/MessagePortService.cpp`, `src/daemon/MessagePortStub.cpp`,
the client context of `src/daemon/MessagePortIpcServer.cpp`) and of the client
proxy (`src/MessagePortProxy.cpp`), followed by theorems about the registry, the
trust check, the dispatch path, the proxy's port tables and the system envelope.

Conventions of the embedding.

* A C string (`char*`) is a `String`; a possibly-NULL `const char*` is an
  `Option String`.  Dereferencing NULL (in `strlen`, `strcat`, `strncmp`) is
  undefined behaviour and is modelled by the result `none` of the enclosing
  function.
* A `GHashTable` with string keys and `int` values is an association list
  `List (String × Int)`; the operations below never leave two entries with the
  same key in a table that had none.
* The `MESSAGEPORT_ERROR_*` constants live in `message-port.h`, which is not
  part of the sources; they are the fields of `ErrorCodes`.
* The platform package manager is the record `PkgMgr` on the broker side and
  the record `PackageManager` on the proxy side.
-/

namespace MessagePort

/-! ## Constants -/

/-- Values of the `MESSAGEPORT_ERROR_*` constants of `message-port.h`. -/
structure ErrorCodes where
  NONE : Int
  IO_ERROR : Int
  OUT_OF_MEMORY : Int
  INVALID_PARAMETER : Int
  MESSAGEPORT_NOT_FOUND : Int
  CERTIFICATE_NOT_MATCH : Int
  MAX_EXCEEDED : Int
deriving DecidableEq, Repr

/-- The sign convention the sources rely on when they test `ret < 0`:
success is zero and every error code is negative. -/
def ErrorCodes.Valid (E : ErrorCodes) : Prop :=
  E.NONE = 0 ∧ E.IO_ERROR < 0 ∧ E.OUT_OF_MEMORY < 0 ∧ E.INVALID_PARAMETER < 0 ∧
  E.MESSAGEPORT_NOT_FOUND < 0 ∧ E.CERTIFICATE_NOT_MATCH < 0 ∧ E.MAX_EXCEEDED < 0

instance (E : ErrorCodes) : Decidable E.Valid := by
  unfold ErrorCodes.Valid; infer_instance

/-- A sample assignment of the error constants, used to evaluate the model on
concrete inputs. -/
def sampleCodes : ErrorCodes :=
  { NONE := 0, IO_ERROR := -1, OUT_OF_MEMORY := -2, INVALID_PARAMETER := -3,
    MESSAGEPORT_NOT_FOUND := -4, CERTIFICATE_NOT_MATCH := -5, MAX_EXCEEDED := -6 }

def MESSAGE_TYPE : String := "MESSAGE_TYPE"

def LOCAL_APPID : String := "LOCAL_APPID"

def LOCAL_PORT : String := "LOCAL_PORT"

def TRUSTED_LOCAL : String := "TRUSTED_LOCAL"

def REMOTE_APPID : String := "REMOTE_APPID"

def REMOTE_PORT : String := "REMOTE_PORT"

def TRUSTED_REMOTE : String := "TRUSTED_REMOTE"

def TRUSTED_MESSAGE : String := "TRUSTED_MESSAGE"

/-! ## Bundles and C strings -/

/-- A bundle: key/value pairs of strings, at most one pair per key. -/
abbrev Bundle := List (String × String)

/-- The call `bundle_get_val(b, key)`: the value stored under `key`, or NULL. -/
def bundle_get_val : Bundle → String → Option String
  | [], _ => none
  | (k, v) :: rest, key => if k = key then some v else bundle_get_val rest key

/-- The call `bundle_add(b, key, val)`: adds the pair unless the key is already
present, in which case the bundle is left as it is. -/
def bundle_add (b : Bundle) (key val : String) : Bundle :=
  match bundle_get_val b key with
  | some _ => b
  | none => b ++ [(key, val)]

/-- The test `strncmp(s1, s2, n) == 0` on NUL-free strings. -/
def strncmp_eq (s1 s2 : String) (n : Nat) : Bool :=
  s1.data.take n == s2.data.take n

/-- The condition `strncmp(trusted, "TRUE", 4) == 0` that selects the trusted map. -/
def isTRUE (trusted : String) : Bool := strncmp_eq trusted "TRUE" 4

/-! ## Hash tables -/

/-- A `GHashTable` from registry key to owning client identifier. -/
abbrev PortTable := List (String × Int)

/-- The call `g_hash_table_lookup(t, key)`. -/
def g_hash_table_lookup : PortTable → String → Option Int
  | [], _ => none
  | (k, v) :: rest, key => if k = key then some v else g_hash_table_lookup rest key

/-- The call `g_hash_table_remove(t, key)`. -/
def g_hash_table_remove (t : PortTable) (key : String) : PortTable :=
  t.filter (fun e => !decide (e.1 = key))

/-- The call `g_hash_table_insert(t, key, value)`: a present key gets the new value. -/
def g_hash_table_insert (t : PortTable) (key : String) (value : Int) : PortTable :=
  (key, value) :: g_hash_table_remove t key

/-- The call `g_hash_table_foreach_remove(t, func, user_data)`: removes the
entries on which `func key value` answers true. -/
def g_hash_table_foreach_remove (t : PortTable) (func : String → Int → Bool) : PortTable :=
  t.filter (fun e => !func e.1 e.2)

/-! ## The package manager -/

/-- The enumeration `pkgmgrinfo_cert_compare_result_type_e`. -/
inductive CertCompare where
  | MATCH
  | MISMATCH
  | LHS_NO_CERT
  | RHS_NO_CERT
  | BOTH_NO_CERT
  | ERROR
deriving DecidableEq, Repr

/-- The package-manager calls the broker makes.  An application identifier
argument may be NULL, hence `Option String`. -/
structure PkgMgr where
  /-- The call `pkgmgrinfo_appinfo_get_appinfo(appId, &handle)`: the handle when
  the call answers `PMINFO_R_OK`, `none` otherwise. -/
  appinfo_get_appinfo : Option String → Option Nat
  /-- The call `pkgmgrinfo_appinfo_is_preload(handle, &preload)`: the flag when
  the call answers `PMINFO_R_OK`, `none` otherwise. -/
  appinfo_is_preload : Nat → Option Bool
  /-- The call `pkgmgrinfo_pkginfo_compare_app_cert_info(lhs, rhs, &res)`:
  the returned status and the value left in `res`. -/
  pkginfo_compare_app_cert_info : Option String → Option String → Int × CertCompare

/-! ## The IPC server context of a request -/

/-- The record `_MessagePortIpcServer::_ClientInfo`; channels are named by numbers. -/
structure ClientInfo where
  clientId : Int
  pReverseChannel : Option Nat
  channels : List Nat
  appId : String
deriving DecidableEq, Repr

/-- The method `_MessagePortIpcServer::GetClientId`, reading `__pCurrentClientInfo`. -/
def GetClientId (pCurrentClientInfo : Option ClientInfo) : Int :=
  match pCurrentClientInfo with
  | some c => c.clientId
  | none => -1

/-- The method `_MessagePortIpcServer::GetClientApplicationId`; no handler of the
broker calls it. -/
def GetClientApplicationId (pCurrentClientInfo : Option ClientInfo) : Option String :=
  match pCurrentClientInfo with
  | some c => some c.appId
  | none => none

/-! ## The service: `_MessagePortService` -/

/-- The two registries of `_MessagePortService`: `__pPorts` and `__pTrustedPorts`. -/
structure Service where
  pPorts : PortTable
  pTrustedPorts : PortTable
deriving DecidableEq, Repr

/-- One call of `_MessagePortStub::SendMessage(clientId, metadata, buffer)`. -/
structure Delivery where
  clientId : Int
  metadata : Bundle
  buffer : Bundle
deriving DecidableEq, Repr

/-- The method `_MessagePortService::GetKey(buffer, local)`: `appId:portName`.
A missing value makes `strlen` read NULL. -/
def GetKey (buffer : Bundle) (isLocal : Bool) : Option String :=
  let pAppId := if isLocal then bundle_get_val buffer LOCAL_APPID
                else bundle_get_val buffer REMOTE_APPID
  let pPortName := if isLocal then bundle_get_val buffer LOCAL_PORT
                   else bundle_get_val buffer REMOTE_PORT
  match pAppId, pPortName with
  | some a, some p => some (a ++ ":" ++ p)
  | _, _ => none

/-- The method `_MessagePortService::RegisterMessagePort(clientId, buffer)`:
the returned code and the registries afterwards. -/
def RegisterMessagePort (E : ErrorCodes) (s : Service) (clientId : Int) (buffer : Bundle) :
    Option (Int × Service) :=
  match GetKey buffer true with
  | none => none
  | some key =>
    match bundle_get_val buffer TRUSTED_LOCAL with
    | none => none
    | some trusted =>
      if isTRUE trusted then
        match g_hash_table_lookup s.pTrustedPorts key with
        | some value =>
          if value = clientId then some (E.IO_ERROR, s)
          else some (E.NONE, ⟨s.pPorts,
            g_hash_table_insert (g_hash_table_remove s.pTrustedPorts key) key clientId⟩)
        | none => some (E.NONE, ⟨s.pPorts, g_hash_table_insert s.pTrustedPorts key clientId⟩)
      else
        match g_hash_table_lookup s.pPorts key with
        | some value =>
          if value = clientId then some (E.IO_ERROR, s)
          else some (E.NONE,
            ⟨g_hash_table_insert (g_hash_table_remove s.pPorts key) key clientId,
              s.pTrustedPorts⟩)
        | none => some (E.NONE, ⟨g_hash_table_insert s.pPorts key clientId, s.pTrustedPorts⟩)

/-- The method `_MessagePortService::IsPreloaded(localAppId, remoteAppId)`. -/
def IsPreloaded (pm : PkgMgr) (localAppId remoteAppId : Option String) : Bool :=
  match pm.appinfo_get_appinfo localAppId with
  | none => false
  | some handle =>
    match pm.appinfo_is_preload handle with
    | none => false
    | some preload_local =>
      match pm.appinfo_get_appinfo remoteAppId with
      | none => false
      | some handle2 =>
        match pm.appinfo_is_preload handle2 with
        | none => false
        | some preload_remote => preload_local && preload_remote

/-- The method `_MessagePortService::CheckCertificate(localAppId, remoteAppId)`. -/
def CheckCertificate (E : ErrorCodes) (pm : PkgMgr) (localAppId remoteAppId : Option String) :
    Int :=
  let r := pm.pkginfo_compare_app_cert_info localAppId remoteAppId
  if r.1 < 0 then E.IO_ERROR
  else if r.2 ≠ CertCompare.MATCH then E.CERTIFICATE_NOT_MATCH
  else E.NONE

/-- The trust check both `CheckRemotePort` and `SendMessage` run on a trusted hit:
`if (!IsPreloaded(l, r)) ret = CheckCertificate(l, r);`, success otherwise. -/
def TrustCheck (E : ErrorCodes) (pm : PkgMgr) (localAppId remoteAppId : Option String) : Int :=
  if !IsPreloaded pm localAppId remoteAppId then CheckCertificate E pm localAppId remoteAppId
  else E.NONE

/-- The method `_MessagePortService::CheckRemotePort(buffer)`. -/
def CheckRemotePort (E : ErrorCodes) (pm : PkgMgr) (s : Service) (buffer : Bundle) :
    Option Int :=
  match GetKey buffer false with
  | none => none
  | some key =>
    match bundle_get_val buffer TRUSTED_REMOTE with
    | none => none
    | some trusted =>
      let out := if isTRUE trusted then (g_hash_table_lookup s.pTrustedPorts key).isSome
                 else (g_hash_table_lookup s.pPorts key).isSome
      if out = false then some E.MESSAGEPORT_NOT_FOUND
      else if isTRUE trusted then
        some (TrustCheck E pm (bundle_get_val buffer LOCAL_APPID)
          (bundle_get_val buffer REMOTE_APPID))
      else some E.NONE

/-- The method `_MessagePortStub::SendMessage(clientId, metadata, buffer)`, given the
status `_MessagePortIpcServer::SendResponse` returns for the write on the reverse
channel. -/
def StubSendMessage (E : ErrorCodes) (SendResponse : Int → Bundle → Bundle → Int)
    (clientId : Int) (metadata buffer : Bundle) : Int :=
  if SendResponse clientId metadata buffer < 0 then E.IO_ERROR else E.NONE

/-- The method `_MessagePortService::SendMessage(metadata, buffer)`: the returned code
and the calls of `_MessagePortStub::SendMessage` it made, in order. -/
def SendMessage (E : ErrorCodes) (pm : PkgMgr) (SendResponse : Int → Bundle → Bundle → Int)
    (s : Service) (metadata buffer : Bundle) : Option (Int × List Delivery) :=
  match GetKey metadata false with
  | none => none
  | some key =>
    match bundle_get_val metadata TRUSTED_MESSAGE with
    | none => none
    | some trustedMessage =>
      let clientId := if isTRUE trustedMessage then g_hash_table_lookup s.pTrustedPorts key
                      else g_hash_table_lookup s.pPorts key
      match clientId with
      | some cid =>
        let localAppId := bundle_get_val metadata LOCAL_APPID
        let remoteAppId := bundle_get_val metadata REMOTE_APPID
        if isTRUE trustedMessage ∧ IsPreloaded pm localAppId remoteAppId = false ∧
            CheckCertificate E pm localAppId remoteAppId < 0 then
          some (CheckCertificate E pm localAppId remoteAppId, [])
        else if StubSendMessage E SendResponse cid metadata buffer < 0 then
          some (E.IO_ERROR, [⟨cid, metadata, buffer⟩])
        else some (E.NONE, [⟨cid, metadata, buffer⟩])
      | none => some (E.MESSAGEPORT_NOT_FOUND, [])

/-- The bytes of a 32-bit `int` at increasing addresses, on the little-endian
targets of the platform. -/
def intBytes (n : Int) : List Nat :=
  let u := (n % 4294967296).toNat
  [u % 256, u / 256 % 256, u / 65536 % 256, u / 16777216 % 256]

/-- The C string that starts at the given memory: the bytes before the first NUL. -/
def cstr (mem : List Nat) : List Nat := mem.takeWhile (fun b => !decide (b = 0))

/-- The callback `unregistermessageport(key, value, user_data)` handed to
`g_hash_table_foreach_remove`: `strcmp((char*) key, (char*) user_data) == 0`.
Here `user_data` is the memory that starts at the address it points to; the
`value` argument is not read. -/
def unregistermessageport (key : String) (_value : Int) (user_data : List Nat) : Bool :=
  cstr (key.data.map Char.toNat) == cstr user_data

/-- The method `_MessagePortService::UnregisterMessagePort(clientId)`.  The
callback receives `&clientId`: the four bytes of the parameter, followed in
memory by `stackAfter`. -/
def UnregisterMessagePort (E : ErrorCodes) (s : Service) (clientId : Int)
    (stackAfter : List Nat) : Int × Service :=
  let user_data := intBytes clientId ++ stackAfter
  (E.NONE,
    ⟨g_hash_table_foreach_remove s.pPorts (fun k v => unregistermessageport k v user_data),
     g_hash_table_foreach_remove s.pTrustedPorts
       (fun k v => unregistermessageport k v user_data)⟩)

/-! ## The stub: `_MessagePortStub` -/

/-- The requests routed by the message map of `_MessagePortStub::OnIpcRequestReceived`. -/
inductive Request where
  | registerPort (buffer : Bundle)
  | checkRemotePort (buffer : Bundle)
  | sendMessage (metadata buffer : Bundle)
deriving DecidableEq, Repr

/-- What handling one request leaves behind: the value written to `*pResult`, the
registries, and the deliveries attempted. -/
structure Outcome where
  result : Int
  service : Service
  delivered : List Delivery
deriving DecidableEq, Repr

/-- The handler `_MessagePortStub::OnRegisterMessagePort(buffer, pResult)`. -/
def OnRegisterMessagePort (E : ErrorCodes) (pCurrentClientInfo : Option ClientInfo)
    (s : Service) (buffer : Bundle) : Option Outcome :=
  let clientId := GetClientId pCurrentClientInfo
  match RegisterMessagePort E s clientId buffer with
  | none => none
  | some (r, s2) => some ⟨r, s2, []⟩

/-- The handler `_MessagePortStub::OnCheckRemotePort(buffer, pResult)`. -/
def OnCheckRemotePort (E : ErrorCodes) (pm : PkgMgr) (s : Service) (buffer : Bundle) :
    Option Outcome :=
  match CheckRemotePort E pm s buffer with
  | none => none
  | some r => some ⟨r, s, []⟩

/-- The handler `_MessagePortStub::OnSendMessage(metadata, buffer, pResult)`. -/
def OnSendMessage (E : ErrorCodes) (pm : PkgMgr) (SendResponse : Int → Bundle → Bundle → Int)
    (s : Service) (metadata buffer : Bundle) : Option Outcome :=
  match SendMessage E pm SendResponse s metadata buffer with
  | none => none
  | some (r, ds) => some ⟨r, s, ds⟩

/-- The method `_MessagePortStub::OnIpcRequestReceived`: one request of the client
recorded in `__pCurrentClientInfo`. -/
def OnIpcRequestReceived (E : ErrorCodes) (pm : PkgMgr)
    (SendResponse : Int → Bundle → Bundle → Int) (pCurrentClientInfo : Option ClientInfo)
    (s : Service) : Request → Option Outcome
  | Request.registerPort buffer => OnRegisterMessagePort E pCurrentClientInfo s buffer
  | Request.checkRemotePort buffer => OnCheckRemotePort E pm s buffer
  | Request.sendMessage metadata buffer => OnSendMessage E pm SendResponse s metadata buffer

/-- The method `_MessagePortStub::OnIpcClientDisconnected(server, clientId)`. -/
def OnIpcClientDisconnected (E : ErrorCodes) (s : Service) (clientId : Int)
    (stackAfter : List Nat) : Service :=
  (UnregisterMessagePort E s clientId stackAfter).2

/-! ## Bundles built by the client proxy: `MessagePortProxy` -/

/-- The bundle `MessagePortProxy::RegisterMessagePort` sends in `RegisterPort`. -/
def proxyRegisterBundle (appId localPort : String) (isTrusted : Bool) : Bundle :=
  let b : Bundle := []
  let b := if !isTrusted then bundle_add b TRUSTED_LOCAL "FALSE"
           else bundle_add b TRUSTED_LOCAL "TRUE"
  let b := bundle_add b LOCAL_APPID appId
  bundle_add b LOCAL_PORT localPort

/-- The bundle `MessagePortProxy::CheckRemotePort` sends in `CheckRemotePort`. -/
def proxyCheckRemoteBundle (remoteAppId remotePort : String) (isTrusted : Bool) : Bundle :=
  let b : Bundle := []
  let b := bundle_add b REMOTE_APPID remoteAppId
  let b := bundle_add b REMOTE_PORT remotePort
  if !isTrusted then bundle_add b TRUSTED_REMOTE "FALSE"
  else bundle_add b TRUSTED_REMOTE "TRUE"

/-- The bundle the unidirectional `MessagePortProxy::SendMessage` hands to
`SendMessageInternal`: the system keys added to the payload `data`. -/
def proxySendBundle (remoteAppId remotePort : String) (trustedMessage : Bool)
    (data : Bundle) : Bundle :=
  let data := bundle_add data MESSAGE_TYPE "UNI-DIR"
  let data := bundle_add data REMOTE_APPID remoteAppId
  let data := bundle_add data REMOTE_PORT remotePort
  if !trustedMessage then bundle_add data TRUSTED_MESSAGE "FALSE"
  else bundle_add data TRUSTED_MESSAGE "TRUE"

/-! ## Sample data for evaluating the model -/

/-- A package manager that knows the applications `A`, `B` and `R`, none of them
preloaded; `A` and `R` are signed with the same certificate, every other pair of
known applications is not, and a NULL identifier is refused. -/
def samplePkgMgr : PkgMgr :=
  { appinfo_get_appinfo := fun a =>
      if a = some "A" then some 1 else if a = some "B" then some 2
      else if a = some "R" then some 3 else none
    appinfo_is_preload := fun _ => some false
    pkginfo_compare_app_cert_info := fun l r =>
      if l = none ∨ r = none then (-2, CertCompare.ERROR)
      else if (l = some "A" ∧ r = some "R") ∨ (l = some "R" ∧ r = some "A") ∨ l = r then
        (0, CertCompare.MATCH)
      else (0, CertCompare.MISMATCH) }

/-- A reverse channel on which every write succeeds. -/
def sampleSendResponse : Int → Bundle → Bundle → Int := fun _ _ _ => 0

/-- The client record of process 1234, whose peer-credential application is `A`. -/
def sampleClientA : ClientInfo :=
  { clientId := 1234, pReverseChannel := some 1, channels := [0], appId := "A" }

/-- The spec's predicate `is_preload(X)`: the package manager finds the
application and reports it preloaded. -/
def PkgMgr.isPreload (pm : PkgMgr) (appId : Option String) : Bool :=
  match pm.appinfo_get_appinfo appId with
  | none => false
  | some handle => pm.appinfo_is_preload handle == some true

/-! ## Auxiliary definitions for the statements -/

/-- The registries after the client of process 1234 (application `A`) has registered
the untrusted port `p` and the trusted port `q` on an empty broker. -/
def registeredPQ : Option Service :=
  match OnRegisterMessagePort sampleCodes (some sampleClientA) ⟨[], []⟩
      (proxyRegisterBundle "A" "p" false) with
  | none => none
  | some o =>
    match OnRegisterMessagePort sampleCodes (some sampleClientA) o.service
        (proxyRegisterBundle "A" "q" true) with
    | none => none
    | some o2 => some o2.service

/-- The registry selected by a `TRUSTED_*` value. -/
def selectedTable (s : Service) (trusted : String) : PortTable :=
  if isTRUE trusted then s.pTrustedPorts else s.pPorts

/-- The registry not selected by a `TRUSTED_*` value. -/
def otherTable (s : Service) (trusted : String) : PortTable :=
  if isTRUE trusted then s.pPorts else s.pTrustedPorts

/-- The code `SendMessage` answers after a hit, once the trust check has let the
message through: the outcome of the write on the reverse channel. -/
def deliveryResult (E : ErrorCodes) (SendResponse : Int → Bundle → Bundle → Int)
    (cid : Int) (metadata buffer : Bundle) : Int :=
  if StubSendMessage E SendResponse cid metadata buffer < 0 then E.IO_ERROR else E.NONE

/-- A broker on which client 77 owns the trusted port `R:q`. -/
def sampleTrustedRQ : Service := ⟨[], [("R:q", 77)]⟩

/-- A trusted `CheckRemotePort` bundle for `R:q` that names `B` as the sender. -/
def sampleCheckFromB : Bundle :=
  [("LOCAL_APPID", "B"), ("REMOTE_APPID", "R"), ("REMOTE_PORT", "q"), ("TRUSTED_REMOTE", "TRUE")]

/-- A trusted `SendMessage` bundle for `R:q` that names `B` as the sender. -/
def sampleSendFromB : Bundle :=
  [("MESSAGE_TYPE", "BI-DIR"), ("LOCAL_APPID", "B"), ("LOCAL_PORT", "r"),
   ("TRUSTED_LOCAL", "FALSE"), ("REMOTE_APPID", "R"), ("REMOTE_PORT", "q"),
   ("TRUSTED_MESSAGE", "TRUE")]

/-- A broker on which the untrusted port `A:p` is bound to a client 77 that is gone. -/
def sampleStaleAP : Service := ⟨[("A:p", 77), ("B:r", 5)], [("A:p", 77)]⟩

/-! ## The client proxy: `MessagePortProxy`

The tables of the proxy are `std::map`s; a map is an association list with one
entry per key.  Two iterators of different maps are never equal (they point to
nodes of different trees), also when one of them is `end()`.  Reading through an
iterator that has run past the last element, constructing a `std::string` from
NULL and incrementing an `int` beyond `INT_MAX` are undefined behaviour and give
`none`. -/

/-- The call `m.find(key)`: the mapped value, or `none` for `end()`. -/
def stdMapFind {κ ν : Type} [DecidableEq κ] : List (κ × ν) → κ → Option ν
  | [], _ => none
  | (k, v) :: rest, key => if k = key then some v else stdMapFind rest key

/-- The assignment `m[key] = val`. -/
def stdMapAssign {κ ν : Type} [DecidableEq κ] : List (κ × ν) → κ → ν → List (κ × ν)
  | [], key, val => [(key, val)]
  | (k, v) :: rest, key, val =>
    if k = key then (k, val) :: rest else (k, v) :: stdMapAssign rest key val

/-- The read `m[key]`: the mapped value; a missing key is inserted with the
value-initialised `dflt`. -/
def stdMapIndex {κ ν : Type} [DecidableEq κ] (m : List (κ × ν)) (key : κ) (dflt : ν) :
    ν × List (κ × ν) :=
  match stdMapFind m key with
  | some v => (v, m)
  | none => (dflt, m ++ [(key, dflt)])

/-- The loop `for (it = m.begin(); it != m.end(); ++it) if (name == it->second) ...`
over a `std::map<int, string>`: the key of the first entry, in increasing key
order, whose value is `name`. -/
def firstIdWithName : List (Int × String) → String → Option Int
  | [], _ => none
  | (k, v) :: rest, name =>
    match firstIdWithName rest name with
    | none => if v = name then some k else none
    | some k2 => if v = name ∧ k < k2 then some k else some k2

/-- The call `bundle_del(b, key)`: removes the pair stored under `key`, if any. -/
def bundle_del (b : Bundle) (key : String) : Bundle :=
  b.filter (fun e => !decide (e.1 = key))

/-- The constant `MAX_MESSAGE_SIZE`. -/
def MAX_MESSAGE_SIZE : Int := 8 * 1024

/-- The enumeration `package_manager_compare_result_type_e`. -/
inductive PackageCompare where
  | MATCH
  | MISMATCH
  | LHS_NO_CERT
  | RHS_NO_CERT
  | BOTH_NO_CERT
deriving DecidableEq, Repr

/-- The package-manager calls the proxy makes. -/
structure PackageManager where
  /-- The call `package_manager_is_preload_package_by_app_id(appId, &preload)`: the
  returned status and the value left in `preload`. -/
  is_preload_package_by_app_id : String → Int × Bool
  /-- The call `package_manager_compare_app_cert_info(lhs, rhs, &res)`: the returned
  status and the value left in `res`. -/
  compare_app_cert_info : String → String → Int × PackageCompare

/-- A call of the package manager made by the proxy. -/
inductive PmQuery where
  | is_preload_package (appId : String)
  | compare_app_cert (lhs rhs : String)
deriving DecidableEq, Repr

/-- The requests the proxy sends with `IpcClient::SendRequest`. -/
inductive ProxyRequest where
  | registerPort (buffer : Bundle)
  | checkRemotePort (buffer : Bundle)
  | sendMessage (buffer : Bundle)
deriving DecidableEq, Repr

/-- One call of a registered `messageport_message_cb`:
`callback(id, remote_app_id, remote_port, trusted_remote_port, data)`. -/
structure Invocation where
  callback : Nat
  id : Int
  remoteAppId : Option String
  remotePort : Option String
  trusted : Bool
  data : Bundle
deriving DecidableEq, Repr

/-- The state of `MessagePortProxy`: `__appId`, the six tables, and the static
`count` of `GetNextId`.  A callback is a number; `none` is the NULL callback. -/
structure ProxyState where
  appId : String
  listeners : List (String × Option Nat)
  trustedListeners : List (String × Option Nat)
  idFromString : List (String × Int)
  trustedIdFromString : List (String × Int)
  ids : List (Int × String)
  trustedIds : List (Int × String)
  count : Int
deriving DecidableEq, Repr

/-- The proxy of application `appId` right after `Construct`. -/
def ProxyState.fresh (appId : String) : ProxyState :=
  { appId := appId, listeners := [], trustedListeners := [], idFromString := [],
    trustedIdFromString := [], ids := [], trustedIds := [], count := 0 }

/-- The method `MessagePortProxy::GetNextId`: `++count; return count;`. -/
def Proxy.GetNextId (p : ProxyState) : Option (Int × ProxyState) :=
  if p.count < 2147483647 then some (p.count + 1, { p with count := p.count + 1 })
  else none

/-- The method `MessagePortProxy::IsLocalPortRegisted(localPort, trusted, id)`: the
returned flag and the value left in `id` (0 on entry).  In the trusted branch the
loop starts at `__ids.begin()` and is bounded by `__trustedIds.end()`: it walks the
untrusted table and, finding no match, runs past its end. -/
def Proxy.IsLocalPortRegisted (p : ProxyState) (localPort : String) (trusted : Bool) :
    Option (Bool × Int) :=
  if !trusted then
    match stdMapFind p.listeners localPort with
    | none => some (false, 0)
    | some _ =>
      match firstIdWithName p.ids localPort with
      | some id => some (true, id)
      | none => some (false, 0)
  else
    match stdMapFind p.trustedListeners localPort with
    | none => some (false, 0)
    | some _ =>
      match firstIdWithName p.ids localPort with
      | some id => some (true, id)
      | none => none

/-- The method `MessagePortProxy::RegisterMessagePort(localPort, isTrusted, callback)`:
the returned value, the proxy afterwards and the requests sent.  `SendRequest`
gives the status `IpcClient::SendRequest` returns for a request and the value the
reply leaves in the request's `out int`. -/
def Proxy.RegisterMessagePort (E : ErrorCodes) (SendRequest : ProxyRequest → Int × Int)
    (p : ProxyState) (localPort : String) (isTrusted : Bool) (callback : Option Nat) :
    Option (Int × ProxyState × List ProxyRequest) :=
  match Proxy.IsLocalPortRegisted p localPort isTrusted with
  | none => none
  | some (true, id) =>
    if !isTrusted then
      some (id, { p with listeners := stdMapAssign p.listeners localPort callback }, [])
    else
      let m := stdMapAssign p.trustedListeners localPort callback
      some (id, { p with trustedListeners := m }, [])
  | some (false, _) =>
    let pMsg := ProxyRequest.registerPort (proxyRegisterBundle p.appId localPort isTrusted)
    let ret := (SendRequest pMsg).1
    if ret ≠ 0 then some (E.IO_ERROR, p, [pMsg])
    else
      match Proxy.GetNextId p with
      | none => none
      | some (id, p1) =>
        if !isTrusted then
          let p2 := { p1 with listeners := stdMapAssign p1.listeners localPort callback }
          let p3 := { p2 with idFromString := stdMapAssign p2.idFromString localPort id }
          let p4 := { p3 with ids := stdMapAssign p3.ids id localPort }
          some (id, p4, [pMsg])
        else
          let m1 := stdMapAssign p1.trustedListeners localPort callback
          let p2 := { p1 with trustedListeners := m1 }
          let m2 := stdMapAssign p2.trustedIdFromString localPort id
          let p3 := { p2 with trustedIdFromString := m2 }
          let p4 := { p3 with trustedIds := stdMapAssign p3.trustedIds id localPort }
          some (id, p4, [pMsg])

/-- The method `MessagePortProxy::IsPreloaded(remoteAppId)`, with the queries made. -/
def Proxy.IsPreloaded (pkg : PackageManager) (appId remoteAppId : String) :
    Bool × List PmQuery :=
  let r1 := pkg.is_preload_package_by_app_id appId
  if r1.1 = 0 then
    let r2 := pkg.is_preload_package_by_app_id remoteAppId
    if r2.1 = 0 then
      (r1.2 && r2.2,
        [PmQuery.is_preload_package appId, PmQuery.is_preload_package remoteAppId])
    else (false, [PmQuery.is_preload_package appId, PmQuery.is_preload_package remoteAppId])
  else (false, [PmQuery.is_preload_package appId])

/-- The method `MessagePortProxy::CheckCertificate(remoteAppId)`, with the query made. -/
def Proxy.CheckCertificate (E : ErrorCodes) (pkg : PackageManager)
    (appId remoteAppId : String) : Int × List PmQuery :=
  let r := pkg.compare_app_cert_info appId remoteAppId
  if r.1 = 0 then
    if r.2 ≠ PackageCompare.MATCH then
      (E.CERTIFICATE_NOT_MATCH, [PmQuery.compare_app_cert appId remoteAppId])
    else (0, [PmQuery.compare_app_cert appId remoteAppId])
  else (E.IO_ERROR, [PmQuery.compare_app_cert appId remoteAppId])

/-- The client-side pre-check that opens `CheckRemotePort` and both `SendMessage`
variants: `if (trusted) { if (!IsPreloaded(r)) { ret = CheckCertificate(r);
if (ret < 0) return ret; } }`.  The first component is the value returned early,
if any. -/
def Proxy.PreCheck (E : ErrorCodes) (pkg : PackageManager) (appId remoteAppId : String)
    (trusted : Bool) : Option Int × List PmQuery :=
  if trusted then
    let pre := Proxy.IsPreloaded pkg appId remoteAppId
    if !pre.1 then
      let c := Proxy.CheckCertificate E pkg appId remoteAppId
      if c.1 < 0 then (some c.1, pre.2 ++ c.2) else (none, pre.2 ++ c.2)
    else (none, pre.2)
  else (none, [])

/-- What a `CheckRemotePort` call of the proxy leaves behind: the returned value,
the value written to `*exist` (if any), the requests sent and the package-manager
queries made. -/
structure CheckOutcome where
  result : Int
  exist : Option Bool
  sent : List ProxyRequest
  queries : List PmQuery
deriving DecidableEq, Repr

/-- The method `MessagePortProxy::CheckRemotePort(remoteAppId, remotePort, isTrusted,
exist)`. -/
def Proxy.CheckRemotePort (E : ErrorCodes) (pkg : PackageManager)
    (SendRequest : ProxyRequest → Int × Int) (p : ProxyState)
    (remoteAppId remotePort : String) (isTrusted : Bool) : CheckOutcome :=
  let pre := Proxy.PreCheck E pkg p.appId remoteAppId isTrusted
  match pre.1 with
  | some ret => ⟨ret, none, [], pre.2⟩
  | none =>
    let pMsg := ProxyRequest.checkRemotePort
      (proxyCheckRemoteBundle remoteAppId remotePort isTrusted)
    let r := SendRequest pMsg
    if r.1 < 0 then ⟨E.IO_ERROR, none, [pMsg], pre.2⟩
    else if r.2 < 0 then
      if r.2 = E.MESSAGEPORT_NOT_FOUND then ⟨0, some false, [pMsg], pre.2⟩
      else ⟨E.IO_ERROR, none, [pMsg], pre.2⟩
    else ⟨0, some true, [pMsg], pre.2⟩

/-- The method `MessagePortProxy::SendMessageInternal(buffer)`: the returned value
and the requests sent.  `bundle_encode_len` is the length `bundle_encode` reports. -/
def Proxy.SendMessageInternal (E : ErrorCodes) (SendRequest : ProxyRequest → Int × Int)
    (bundle_encode_len : Bundle → Int) (buffer : Bundle) : Int × List ProxyRequest :=
  let pMsg := ProxyRequest.sendMessage buffer
  let len := bundle_encode_len buffer
  if len > MAX_MESSAGE_SIZE then (E.MAX_EXCEEDED, [])
  else
    let ret := (SendRequest pMsg).1
    if ret ≠ 0 then (E.IO_ERROR, [pMsg]) else (0, [pMsg])

/-- The bundle the bidirectional `MessagePortProxy::SendMessage` hands to
`SendMessageInternal`: the system keys added to the payload `data`. -/
def proxySendBundleBidir (appId localPort : String) (trustedPort : Bool)
    (remoteAppId remotePort : String) (trustedMessage : Bool) (data : Bundle) : Bundle :=
  let data := bundle_add data MESSAGE_TYPE "BI-DIR"
  let data := bundle_add data LOCAL_APPID appId
  let data := bundle_add data LOCAL_PORT localPort
  let data := if !trustedPort then bundle_add data TRUSTED_LOCAL "FALSE"
              else bundle_add data TRUSTED_LOCAL "TRUE"
  let data := bundle_add data REMOTE_APPID remoteAppId
  let data := bundle_add data REMOTE_PORT remotePort
  if !trustedMessage then bundle_add data TRUSTED_MESSAGE "FALSE"
  else bundle_add data TRUSTED_MESSAGE "TRUE"

/-- What a `SendMessage` call of the proxy leaves behind: the returned value, the
caller's bundle `data` after the call, the requests sent and the package-manager
queries made. -/
structure SendOutcome where
  result : Int
  data : Bundle
  sent : List ProxyRequest
  queries : List PmQuery
deriving DecidableEq, Repr

/-- The unidirectional `MessagePortProxy::SendMessage(remoteAppId, remotePort,
trustedMessage, data)`. -/
def Proxy.SendMessage (E : ErrorCodes) (pkg : PackageManager)
    (SendRequest : ProxyRequest → Int × Int) (bundle_encode_len : Bundle → Int)
    (p : ProxyState) (remoteAppId remotePort : String) (trustedMessage : Bool)
    (data : Bundle) : SendOutcome :=
  let pre := Proxy.PreCheck E pkg p.appId remoteAppId trustedMessage
  match pre.1 with
  | some ret => ⟨ret, data, [], pre.2⟩
  | none =>
    let buffer := proxySendBundle remoteAppId remotePort trustedMessage data
    let r := Proxy.SendMessageInternal E SendRequest bundle_encode_len buffer
    ⟨r.1, buffer, r.2, pre.2⟩

/-- The bidirectional `MessagePortProxy::SendMessage(localPort, trustedPort,
remoteAppId, remotePort, trustedMessage, data)`. -/
def Proxy.SendMessageBidir (E : ErrorCodes) (pkg : PackageManager)
    (SendRequest : ProxyRequest → Int × Int) (bundle_encode_len : Bundle → Int)
    (p : ProxyState) (localPort : String) (trustedPort : Bool)
    (remoteAppId remotePort : String) (trustedMessage : Bool) (data : Bundle) :
    SendOutcome :=
  let pre := Proxy.PreCheck E pkg p.appId remoteAppId trustedMessage
  match pre.1 with
  | some ret => ⟨ret, data, [], pre.2⟩
  | none =>
    let buffer := proxySendBundleBidir p.appId localPort trustedPort remoteAppId remotePort
      trustedMessage data
    let r := Proxy.SendMessageInternal E SendRequest bundle_encode_len buffer
    ⟨r.1, buffer, r.2, pre.2⟩

/-- The method `MessagePortProxy::GetLocalPortNameN(id)`: the returned string (`none`
for NULL) and the proxy afterwards.  On a miss in `__ids` the iterator returned by
`__trustedIds.find(id)` is compared with `__ids.end()`, which it never equals, so
the method goes on to read `__trustedIds[id]`. -/
def Proxy.GetLocalPortNameN (p : ProxyState) (id : Int) : Option String × ProxyState :=
  match stdMapFind p.ids id with
  | none =>
    let r := stdMapIndex p.trustedIds id ""
    (some r.1, { p with trustedIds := r.2 })
  | some _ =>
    let r := stdMapIndex p.ids id ""
    (some r.1, { p with ids := r.2 })

/-- The method `MessagePortProxy::CheckTrustedLocalPort(id, trusted)`: the returned
value and the value written to `*trusted` (if any).  On a miss in `__ids` the
iterator returned by `__trustedIds.find(id)` is compared with `__ids.end()`, which
it never equals. -/
def Proxy.CheckTrustedLocalPort (p : ProxyState) (id : Int) : Int × Option Bool :=
  match stdMapFind p.ids id with
  | none => (0, some true)
  | some _ => (0, some false)

/-- The four keys `OnSendMessageInternal` deletes for every delivery. -/
def stripDestination (b : Bundle) : Bundle :=
  bundle_del (bundle_del (bundle_del (bundle_del b REMOTE_APPID) REMOTE_PORT)
    TRUSTED_MESSAGE) MESSAGE_TYPE

/-- The three keys `OnSendMessageInternal` deletes for a bidirectional delivery. -/
def stripSource (b : Bundle) : Bundle :=
  bundle_del (bundle_del (bundle_del b LOCAL_APPID) LOCAL_PORT) TRUSTED_LOCAL

/-- The method `MessagePortProxy::OnSendMessageInternal(buffer)`: the proxy
afterwards, the bundle afterwards and the callbacks invoked. -/
def Proxy.OnSendMessageInternal (p : ProxyState) (buffer : Bundle) :
    Option (ProxyState × Bundle × List Invocation) :=
  match bundle_get_val buffer REMOTE_PORT, bundle_get_val buffer TRUSTED_MESSAGE,
      bundle_get_val buffer MESSAGE_TYPE with
  | some pRemotePort, some trustedMessage, some messageType =>
    let sel : Option Nat × Int × ProxyState :=
      if trustedMessage = "FALSE" then
        let c := stdMapIndex p.listeners pRemotePort none
        let i := stdMapIndex p.idFromString pRemotePort 0
        (c.1, i.1, { p with listeners := c.2, idFromString := i.2 })
      else
        let c := stdMapIndex p.trustedListeners pRemotePort none
        let i := stdMapIndex p.trustedIdFromString pRemotePort 0
        (c.1, i.1, { p with trustedListeners := c.2, trustedIdFromString := i.2 })
    match sel.1 with
    | some callback =>
      let b := stripDestination buffer
      if messageType = "UNI-DIR" then
        some (sel.2.2, b, [⟨callback, sel.2.1, none, none, false, b⟩])
      else
        match bundle_get_val b LOCAL_APPID, bundle_get_val b LOCAL_PORT,
            bundle_get_val b TRUSTED_LOCAL with
        | some localAppId, some localPort, some trustedLocal =>
          let trustedPort := decide (trustedLocal = "TRUE")
          let b2 := stripSource b
          some (sel.2.2, b2,
            [⟨callback, sel.2.1, some localAppId, some localPort, trustedPort, b2⟩])
        | _, _, _ => none
    | none => some (sel.2.2, buffer, [])
  | _, _, _ => none

/-- A transport on which every request reaches the broker and is answered with
success. -/
def sampleSendRequest : ProxyRequest → Int × Int := fun _ => (0, 0)

/-- A package manager for the proxy: no application is preloaded; `A` and `R`
share a certificate, other distinct applications do not. -/
def samplePackageManager : PackageManager :=
  { is_preload_package_by_app_id := fun _ => (0, false)
    compare_app_cert_info := fun l r =>
      if (l = "A" ∧ r = "R") ∨ (l = "R" ∧ r = "A") ∨ l = r then (0, PackageCompare.MATCH)
      else (0, PackageCompare.MISMATCH) }

/-- An encoder that reports the number of pairs of a bundle as its length. -/
def sampleEncodeLen : Bundle → Int := fun b => b.length

/-- Runs `RegisterMessagePort(name, trusted, callback)` for each entry of a list, in
order: the proxy afterwards and the values returned. -/
def Proxy.registerSeq (E : ErrorCodes) (SendRequest : ProxyRequest → Int × Int) :
    ProxyState → List (String × Bool × Option Nat) → Option (ProxyState × List Int)
  | p, [] => some (p, [])
  | p, (name, trusted, callback) :: rest =>
    match Proxy.RegisterMessagePort E SendRequest p name trusted callback with
    | none => none
    | some (id, p2, _) =>
      match Proxy.registerSeq E SendRequest p2 rest with
      | none => none
      | some (p3, ids) => some (p3, id :: ids)

/-- The proxy of application `A` that has registered the untrusted port `p`. -/
def sampleProxyP : ProxyState :=
  { appId := "A", listeners := [("p", some 1)], trustedListeners := [],
    idFromString := [("p", 1)], trustedIdFromString := [], ids := [(1, "p")],
    trustedIds := [], count := 1 }

/-- The proxy of application `A` that has registered the untrusted port `p` and
then the trusted port `p`, with the trusted callback `cb`. -/
def sampleProxyPP (cb : Nat) : ProxyState :=
  { appId := "A", listeners := [("p", some 1)], trustedListeners := [("p", some cb)],
    idFromString := [("p", 1)], trustedIdFromString := [("p", 2)], ids := [(1, "p")],
    trustedIds := [(2, "p")], count := 2 }

/-- The proxy of application `A` that has registered the trusted port `p` only. -/
def sampleProxyTrustedP : ProxyState :=
  { appId := "A", listeners := [], trustedListeners := [("p", some 1)],
    idFromString := [], trustedIdFromString := [("p", 1)], ids := [],
    trustedIds := [(1, "p")], count := 1 }

/-- The spec's predicate "preloaded" on the proxy side: the package manager
answers the query with status 0 and the flag set. -/
def PackageManager.isPreload (pkg : PackageManager) (appId : String) : Bool :=
  decide ((pkg.is_preload_package_by_app_id appId).1 = 0) &&
    (pkg.is_preload_package_by_app_id appId).2

/-- A transport on which every request reaches the broker and the broker's reply
carries the code `r`. -/
def replyWith (r : Int) : ProxyRequest → Int × Int := fun _ => (0, r)

/-- The callback table `OnSendMessageInternal` reads for a `TRUSTED_MESSAGE` value:
`__listeners` for `"FALSE"`, `__trustedListeners` for anything else. -/
def Proxy.selectedListeners (p : ProxyState) (trustedMessage : String) :
    List (String × Option Nat) :=
  if trustedMessage = "FALSE" then p.listeners else p.trustedListeners

/-- The name-to-identifier table `OnSendMessageInternal` reads for a
`TRUSTED_MESSAGE` value. -/
def Proxy.selectedIdFromString (p : ProxyState) (trustedMessage : String) :
    List (String × Int) :=
  if trustedMessage = "FALSE" then p.idFromString else p.trustedIdFromString

/-- The value `SendMessage` stores for a boolean flag. -/
def flagString (flag : Bool) : String := if flag then "TRUE" else "FALSE"

/-- The system keys a sending proxy merges into a payload. -/
def systemKeys : List String :=
  [MESSAGE_TYPE, LOCAL_APPID, LOCAL_PORT, TRUSTED_LOCAL, REMOTE_APPID, REMOTE_PORT,
   TRUSTED_MESSAGE]

/-! ## The IPC server: `_MessagePortIpcServer`

A byte is a `Nat`, a channel (`_ChannelInfo`) is a number, and a pointer to a
`_ClientInfo` is the key under which `__clients` holds the record.  The function
`IPC::Message::FindNext` of the IPC library is the parameter `FindNext`: given the
bytes of a range, the length of its first complete message, or `none` for NULL.
The call `__pending.assign(pStart, pEnd - pStart)` with `pStart` inside `__pending`
itself leaves the bytes of that range in `__pending`.  Failed allocations are not
modelled. -/

/-- The calls the server makes on its listener. -/
inductive ServerEvent where
  | clientConnected (clientId : Int)
  | clientDisconnected (clientId : Int)
  | requestReceived (clientId : Int) (channel : Nat) (message : List Nat)
deriving DecidableEq, Repr

/-- The state of `_MessagePortIpcServer`: the map `__clients` (an entry may hold
NULL) and the string `__pending`. -/
structure IpcServer where
  clients : List (Int × Option ClientInfo)
  pending : List Nat
deriving DecidableEq, Repr

/-- The record `__clients` holds for a process, if it holds one that is not NULL. -/
def IpcServer.client (s : IpcServer) (pid : Int) : Option ClientInfo :=
  match stdMapFind s.clients pid with
  | some (some ci) => some ci
  | _ => none

/-- The outcome of one `g_io_channel_read_chars` call: the status and, for
`G_IO_STATUS_NORMAL`, the bytes read. -/
inductive ReadResult where
  | normal (bytes : List Nat)
  | again
  | eof
  | error
deriving DecidableEq, Repr

/-- The bits of the `GIOCondition` that `HandleReceivedMessage` tests. -/
structure IOCondition where
  hup : Bool
  input : Bool
deriving DecidableEq, Repr

/-- The inner loop of `HandleReceivedMessage` over the range `[pStart, pEnd)`: the
messages handed to the listener, in order, and the bytes assigned to `__pending`.
A `FindNext` that does not advance, or that points beyond the range, gives no
result; `fuel` bounds the number of iterations. -/
def scanMessages (FindNext : List Nat → Option Nat) :
    Nat → List Nat → Option (List (List Nat) × List Nat)
  | 0, _ => none
  | fuel + 1, range =>
    match FindNext range with
    | none => some ([], range)
    | some n =>
      if n = 0 ∨ range.length < n then none
      else
        match scanMessages FindNext fuel (range.drop n) with
        | none => none
        | some (msgs, rest) => some (range.take n :: msgs, rest)

/-- The block both closing paths of `HandleReceivedMessage` run: erase the channel
from the client's `channels`; when none is left, call `OnIpcClientDisconnected`, set
`__clients[clientId] = NULL` and delete the record. -/
def closeChannel (s : IpcServer) (pClientInfo : Int) (pChannelInfo : Nat) :
    Option (IpcServer × List ServerEvent) :=
  match stdMapFind s.clients pClientInfo with
  | some (some ci) =>
    let channels := ci.channels.erase pChannelInfo
    if channels.length = 0 then
      some ({ s with clients := stdMapAssign s.clients ci.clientId none },
        [ServerEvent.clientDisconnected ci.clientId])
    else
      let ci2 : ClientInfo := { ci with channels := channels }
      some ({ s with clients := stdMapAssign s.clients pClientInfo (some ci2) }, [])
  | _ => none

/-- The read loop of the `G_IO_IN` branch of `HandleReceivedMessage`, given the
outcomes of the successive reads (none left means `G_IO_STATUS_AGAIN`): the
returned flag, the server afterwards and the listener calls made. -/
def readLoop (FindNext : List Nat → Option Nat) (pClientInfo : Int) (clientId : Int)
    (pChannelInfo : Nat) : IpcServer → List ReadResult →
    Option (Bool × IpcServer × List ServerEvent)
  | s, [] => some (true, s, [])
  | s, ReadResult.again :: _ => some (true, s, [])
  | s, ReadResult.eof :: _ =>
    match closeChannel s pClientInfo pChannelInfo with
    | none => none
    | some (s2, ev) => some (false, s2, ev)
  | s, ReadResult.error :: _ =>
    match closeChannel s pClientInfo pChannelInfo with
    | none => none
    | some (s2, ev) => some (false, s2, ev)
  | s, ReadResult.normal bytes :: rest =>
    if bytes.length = 0 then some (true, s, [])
    else
      let range := if s.pending.isEmpty then bytes else s.pending ++ bytes
      match scanMessages FindNext (range.length + 1) range with
      | none => none
      | some (msgs, pend) =>
        match readLoop FindNext pClientInfo clientId pChannelInfo
            { s with pending := pend } rest with
        | none => none
        | some (r, s2, ev) =>
          some (r, s2,
            msgs.map (ServerEvent.requestReceived clientId pChannelInfo) ++ ev)

/-- The method `_MessagePortIpcServer::HandleReceivedMessage(source, condition, data)`
for the channel `pChannelInfo` of the client record `pClientInfo`. -/
def HandleReceivedMessage (FindNext : List Nat → Option Nat) (s : IpcServer)
    (pClientInfo : Int) (pChannelInfo : Nat) (condition : IOCondition)
    (reads : List ReadResult) : Option (Bool × IpcServer × List ServerEvent) :=
  match stdMapFind s.clients pClientInfo with
  | some (some ci) =>
    if condition.hup then
      match closeChannel s pClientInfo pChannelInfo with
      | none => none
      | some (s2, ev) => some (false, s2, ev)
    else if condition.input then
      readLoop FindNext pClientInfo ci.clientId pChannelInfo s reads
    else some (true, s, [])
  | _ => none

/-- The method `_MessagePortIpcServer::OnConnectionRequest` from the point where the
connection is accepted, the hello message read and the peer credentials obtained:
`pid` is `cr.pid`, `reverse` the hello flag, `pChannel` the new channel, and
`aul_app_get_appid_bypid` gives the application identifier when it answers
`AUL_R_OK`. -/
def OnConnectionRequest (aul_app_get_appid_bypid : Int → Option String) (s : IpcServer)
    (pid : Int) (reverse : Int) (pChannel : Nat) : IpcServer × List ServerEvent :=
  let r := stdMapIndex s.clients pid none
  match r.1 with
  | none =>
    match aul_app_get_appid_bypid pid with
    | none => ({ s with clients := r.2 }, [])
    | some appId =>
      let ci : ClientInfo :=
        { clientId := pid, pReverseChannel := none, channels := [], appId := appId }
      let ci2 : ClientInfo :=
        if reverse ≠ 0 then { ci with pReverseChannel := some pChannel }
        else { ci with channels := ci.channels ++ [pChannel] }
      ({ s with clients := stdMapAssign r.2 pid (some ci2) },
        [ServerEvent.clientConnected pid])
  | some ci =>
    let ci2 : ClientInfo :=
      if reverse ≠ 0 then { ci with pReverseChannel := some pChannel }
      else { ci with channels := ci.channels ++ [pChannel] }
    ({ s with clients := stdMapAssign r.2 pid (some ci2) }, [])

/-- A framing for evaluating the model: a message is one length byte `n` followed by
`n` payload bytes. -/
def sampleFindNext : List Nat → Option Nat
  | [] => none
  | n :: rest => if n ≤ rest.length then some (n + 1) else none

/-- A server with two clients, process 100 on channel 1 and process 200 on channel
2, each with a reverse channel, and nothing pending. -/
def sampleServer : IpcServer :=
  { clients :=
      [(100, some { clientId := 100, pReverseChannel := some 11, channels := [1],
                    appId := "A" }),
       (200, some { clientId := 200, pReverseChannel := some 12, channels := [2],
                    appId := "B" })]
    pending := [] }

/-- One dispatch of the watch of a request channel by the main loop: the client
record and the channel of the watch, the condition, and the outcomes of the reads
the handler makes. -/
structure SourceCall where
  pClientInfo : Int
  pChannelInfo : Nat
  condition : IOCondition
  reads : List ReadResult
deriving DecidableEq, Repr

/-- The main loop dispatching a sequence of watches to `HandleReceivedMessage`, on
the one server: the server afterwards and all listener calls, in order. -/
def runCalls (FindNext : List Nat → Option Nat) :
    IpcServer → List SourceCall → Option (IpcServer × List ServerEvent)
  | s, [] => some (s, [])
  | s, call :: rest =>
    match HandleReceivedMessage FindNext s call.pClientInfo call.pChannelInfo
        call.condition call.reads with
    | none => none
    | some (_, s2, ev) =>
      match runCalls FindNext s2 rest with
      | none => none
      | some (s3, ev2) => some (s3, ev ++ ev2)

/-- The dispatch of readable data on a channel: the reads of successive chunks, then
a read that finds nothing more. -/
def readableCall (pClientInfo : Int) (pChannelInfo : Nat) (chunks : List (List Nat)) :
    SourceCall :=
  ⟨pClientInfo, pChannelInfo, ⟨false, true⟩, chunks.map ReadResult.normal⟩

/-- The clients for which a list of listener calls holds `OnIpcClientDisconnected`,
in order. -/
def disconnections : List ServerEvent → List Int
  | [] => []
  | ServerEvent.clientDisconnected c :: rest => c :: disconnections rest
  | _ :: rest => disconnections rest

/-- The messages a list of listener calls hands to `OnIpcRequestReceived`, in order,
each with the client and the channel current at that call. -/
def requests : List ServerEvent → List (Int × Nat × List Nat)
  | [] => []
  | ServerEvent.requestReceived c ch m :: rest => (c, ch, m) :: requests rest
  | _ :: rest => requests rest

/-- The request channels recorded for a process: those of its record, none without
a record. -/
def IpcServer.channelsOf (s : IpcServer) (pid : Int) : List Nat :=
  match s.client pid with
  | some ci => ci.channels
  | none => []

/-- The reverse channel recorded for a process, if it has a record that holds one. -/
def IpcServer.reverseOf (s : IpcServer) (pid : Int) : Option Nat :=
  match s.client pid with
  | some ci => ci.pReverseChannel
  | none => none

/-! ## Lemmas on hash tables -/

theorem lookup_remove_self (t : PortTable) (key : String) :
    g_hash_table_lookup (g_hash_table_remove t key) key = none := by
  induction t with
  | nil => rfl
  | cons e rest ih =>
    obtain ⟨k, v⟩ := e
    by_cases h : k = key
    · simpa [g_hash_table_remove, List.filter, h] using ih
    · simp only [g_hash_table_remove, List.filter, h, decide_False, Bool.not_false,
        g_hash_table_lookup, if_false]
      simpa [g_hash_table_remove] using ih

theorem lookup_remove_ne (t : PortTable) (key other : String) (h : other ≠ key) :
    g_hash_table_lookup (g_hash_table_remove t key) other = g_hash_table_lookup t other := by
  induction t with
  | nil => rfl
  | cons e rest ih =>
    obtain ⟨k, v⟩ := e
    by_cases hk : k = key
    · have hne : ¬ k = other := fun hko => h (hko ▸ hk)
      simp only [g_hash_table_remove, List.filter, hk, decide_True, Bool.not_true,
        g_hash_table_lookup]
      rw [if_neg (hk ▸ hne)]
      simpa [g_hash_table_remove] using ih
    · simp only [g_hash_table_remove, List.filter, hk, decide_False, Bool.not_false,
        g_hash_table_lookup]
      by_cases hko : k = other
      · simp [hko]
      · simp only [hko, if_false]
        simpa [g_hash_table_remove] using ih

theorem mem_remove_iff (t : PortTable) (key : String) (e : String × Int) :
    e ∈ g_hash_table_remove t key ↔ e ∈ t ∧ e.1 ≠ key := by
  simp [g_hash_table_remove, List.mem_filter]

theorem remove_of_lookup_none (t : PortTable) (key : String)
    (h : g_hash_table_lookup t key = none) : g_hash_table_remove t key = t := by
  induction t with
  | nil => rfl
  | cons e rest ih =>
    obtain ⟨k, v⟩ := e
    by_cases hk : k = key
    · simp [g_hash_table_lookup, hk] at h
    · simp only [g_hash_table_lookup, hk, if_false] at h
      simp only [g_hash_table_remove, List.filter, hk, decide_False, Bool.not_false]
      have := ih h
      simp only [g_hash_table_remove] at this
      rw [this]

theorem lookup_insert_self (t : PortTable) (key : String) (value : Int) :
    g_hash_table_lookup (g_hash_table_insert t key value) key = some value := by
  simp [g_hash_table_insert, g_hash_table_lookup]

theorem lookup_insert_ne (t : PortTable) (key other : String) (value : Int)
    (h : other ≠ key) :
    g_hash_table_lookup (g_hash_table_insert t key value) other =
      g_hash_table_lookup t other := by
  simp only [g_hash_table_insert, g_hash_table_lookup]
  rw [if_neg (fun hk => h hk.symm)]
  exact lookup_remove_ne t key other h

theorem mem_insert_iff (t : PortTable) (key : String) (value : Int) (e : String × Int) :
    e ∈ g_hash_table_insert t key value ↔ e = (key, value) ∨ (e ∈ t ∧ e.1 ≠ key) := by
  simp [g_hash_table_insert, mem_remove_iff]

theorem lookup_of_mem_unique (t : PortTable) (key : String) (value : Int)
    (h : g_hash_table_lookup t key = some value) : (key, value) ∈ t := by
  induction t with
  | nil => simp [g_hash_table_lookup] at h
  | cons e rest ih =>
    obtain ⟨k, v⟩ := e
    by_cases hk : k = key
    · simp only [g_hash_table_lookup, hk, if_true, Option.some.injEq] at h
      simp [hk, h]
    · simp only [g_hash_table_lookup, hk, if_false] at h
      exact List.mem_cons_of_mem _ (ih h)

/-! ## Disconnect cleanup -/

theorem cstr_cons_zero (b : Nat) (rest : List Nat) (h : b ≠ 0) :
    cstr (b :: rest) = b :: cstr rest := by
  simp [cstr, List.takeWhile, h]

theorem cstr_zero (rest : List Nat) : cstr (0 :: rest) = [] := by
  simp [cstr, List.takeWhile]

/-- C1 (defect in the code): client 1234 registers the untrusted port `A:p` and the
trusted port `A:q` and then disconnects.  Whatever bytes follow the `clientId`
parameter in memory, `OnIpcClientDisconnected(1234)` leaves both registries as they
were, so both still hold an entry owned by 1234, and a later untrusted
`CheckRemotePort` for `A:p` answers success instead of `MESSAGEPORT_NOT_FOUND`:
the callback compares the registry key, not the owner, with the bytes of the
client identifier. -/
theorem disconnect_keeps_ports_of_client (stackAfter : List Nat) :
    registeredPQ = some ⟨[("A:p", 1234)], [("A:q", 1234)]⟩ ∧
    OnIpcClientDisconnected sampleCodes ⟨[("A:p", 1234)], [("A:q", 1234)]⟩ 1234 stackAfter
      = ⟨[("A:p", 1234)], [("A:q", 1234)]⟩ ∧
    CheckRemotePort sampleCodes samplePkgMgr
      (OnIpcClientDisconnected sampleCodes ⟨[("A:p", 1234)], [("A:q", 1234)]⟩ 1234 stackAfter)
      (proxyCheckRemoteBundle "A" "p" false) = some sampleCodes.NONE ∧
    sampleCodes.NONE ≠ sampleCodes.MESSAGEPORT_NOT_FOUND := by
  have hb : intBytes 1234 = [210, 4, 0, 0] := by decide
  have hc : cstr (intBytes 1234 ++ stackAfter) = [210, 4] := by
    rw [hb]
    show cstr (210 :: 4 :: 0 :: (0 :: stackAfter)) = [210, 4]
    rw [cstr_cons_zero _ _ (by decide), cstr_cons_zero _ _ (by decide), cstr_zero]
  have hd : OnIpcClientDisconnected sampleCodes ⟨[("A:p", 1234)], [("A:q", 1234)]⟩ 1234
      stackAfter = ⟨[("A:p", 1234)], [("A:q", 1234)]⟩ := by
    simp only [OnIpcClientDisconnected, UnregisterMessagePort, g_hash_table_foreach_remove,
      unregistermessageport, hc]
    decide
  refine ⟨by decide, hd, ?_, by decide⟩
  rw [hd]
  decide

/-! ## Registration -/

theorem getKey_local (buffer : Bundle) (appId port : String)
    (hA : bundle_get_val buffer LOCAL_APPID = some appId)
    (hP : bundle_get_val buffer LOCAL_PORT = some port) :
    GetKey buffer true = some (appId ++ ":" ++ port) := by
  simp [GetKey, hA, hP]

theorem getKey_remote (buffer : Bundle) (appId port : String)
    (hA : bundle_get_val buffer REMOTE_APPID = some appId)
    (hP : bundle_get_val buffer REMOTE_PORT = some port) :
    GetKey buffer false = some (appId ++ ":" ++ port) := by
  simp [GetKey, hA, hP]

/-- Registration when the key is bound to the registering client already. -/
theorem register_same_owner (E : ErrorCodes) (s : Service) (clientId : Int) (buffer : Bundle)
    (key trusted : String) (hK : GetKey buffer true = some key)
    (hT : bundle_get_val buffer TRUSTED_LOCAL = some trusted)
    (hL : g_hash_table_lookup (selectedTable s trusted) key = some clientId) :
    RegisterMessagePort E s clientId buffer = some (E.IO_ERROR, s) := by
  unfold selectedTable at hL
  by_cases ht : isTRUE trusted = true
  · rw [if_pos ht] at hL
    simp [RegisterMessagePort, hK, hT, ht, hL]
  · rw [if_neg ht] at hL
    simp [RegisterMessagePort, hK, hT, ht, hL]

/-- Registration when the key is free or bound to another client. -/
theorem register_fresh_or_stale (E : ErrorCodes) (s : Service) (clientId : Int)
    (buffer : Bundle) (key trusted : String) (hK : GetKey buffer true = some key)
    (hT : bundle_get_val buffer TRUSTED_LOCAL = some trusted)
    (hL : g_hash_table_lookup (selectedTable s trusted) key ≠ some clientId) :
    RegisterMessagePort E s clientId buffer =
      some (E.NONE,
        if isTRUE trusted then ⟨s.pPorts, g_hash_table_insert s.pTrustedPorts key clientId⟩
        else ⟨g_hash_table_insert s.pPorts key clientId, s.pTrustedPorts⟩) := by
  have hrr : ∀ t : PortTable, g_hash_table_insert (g_hash_table_remove t key) key clientId =
      g_hash_table_insert t key clientId := by
    intro t
    simp [g_hash_table_insert, g_hash_table_remove, List.filter_filter]
  unfold selectedTable at hL
  by_cases ht : isTRUE trusted = true
  · rw [if_pos ht] at hL
    cases hv : g_hash_table_lookup s.pTrustedPorts key with
    | none => simp [RegisterMessagePort, hK, hT, ht, hv]
    | some v =>
      have hne : ¬ v = clientId := fun h => hL (by rw [hv, h])
      simp [RegisterMessagePort, hK, hT, ht, hv, hne, hrr]
  · rw [if_neg ht] at hL
    cases hv : g_hash_table_lookup s.pPorts key with
    | none => simp [RegisterMessagePort, hK, hT, ht, hv]
    | some v =>
      have hne : ¬ v = clientId := fun h => hL (by rw [hv, h])
      simp [RegisterMessagePort, hK, hT, ht, hv, hne, hrr]

/-- C2 (counterexample): the client of process 1234, whose peer-credential
application is `A`, sends two `RegisterPort` frames that differ only in
`LOCAL_APPID` (`A` and `B`).  They leave different registries, and the second one
stores the port under `B:p`, whose application part is not the client's. -/
theorem register_key_follows_forged_appid :
    GetClientApplicationId (some sampleClientA) = some "A" ∧
    OnIpcRequestReceived sampleCodes samplePkgMgr sampleSendResponse (some sampleClientA)
      ⟨[], []⟩ (Request.registerPort (proxyRegisterBundle "A" "p" false))
      = some ⟨0, ⟨[("A:p", 1234)], []⟩, []⟩ ∧
    OnIpcRequestReceived sampleCodes samplePkgMgr sampleSendResponse (some sampleClientA)
      ⟨[], []⟩ (Request.registerPort (proxyRegisterBundle "B" "p" false))
      = some ⟨0, ⟨[("B:p", 1234)], []⟩, []⟩ := by
  decide

/-- C2 (amended): for every client record `c` and every `RegisterPort` frame that
carries `LOCAL_APPID`, `LOCAL_PORT` and `TRUSTED_LOCAL`, the request is answered,
afterwards the selected registry binds the key `LOCAL_APPID:LOCAL_PORT` built from
the bundle to the client identifier of `c`, and the outcome is the same for a
client record with the same identifier and any other peer-credential application
identifier. -/
theorem register_key_from_bundle (E : ErrorCodes) (pm : PkgMgr)
    (SendResponse : Int → Bundle → Bundle → Int) (c : ClientInfo) (s : Service)
    (buffer : Bundle) (appId port trusted : String)
    (hA : bundle_get_val buffer LOCAL_APPID = some appId)
    (hP : bundle_get_val buffer LOCAL_PORT = some port)
    (hT : bundle_get_val buffer TRUSTED_LOCAL = some trusted) :
    ∃ o, OnIpcRequestReceived E pm SendResponse (some c) s (Request.registerPort buffer)
        = some o ∧
      g_hash_table_lookup (selectedTable o.service trusted) (appId ++ ":" ++ port)
        = some c.clientId ∧
      ∀ peerAppId : String,
        OnIpcRequestReceived E pm SendResponse
          (some ⟨c.clientId, c.pReverseChannel, c.channels, peerAppId⟩) s
          (Request.registerPort buffer) = some o := by
  have hK := getKey_local buffer appId port hA hP
  by_cases hL : g_hash_table_lookup (selectedTable s trusted) (appId ++ ":" ++ port)
      = some c.clientId
  · refine ⟨⟨E.IO_ERROR, s, []⟩, ?_, hL, ?_⟩
    · simp [OnIpcRequestReceived, OnRegisterMessagePort, GetClientId,
        register_same_owner E s c.clientId buffer _ trusted hK hT hL]
    · intro peerAppId
      simp [OnIpcRequestReceived, OnRegisterMessagePort, GetClientId,
        register_same_owner E s c.clientId buffer _ trusted hK hT hL]
  · have hR := register_fresh_or_stale E s c.clientId buffer _ trusted hK hT hL
    have hO : ∀ ci : ClientInfo, ci.clientId = c.clientId →
        OnIpcRequestReceived E pm SendResponse (some ci) s (Request.registerPort buffer) =
          some ⟨E.NONE,
            if isTRUE trusted then
              ⟨s.pPorts, g_hash_table_insert s.pTrustedPorts (appId ++ ":" ++ port) c.clientId⟩
            else ⟨g_hash_table_insert s.pPorts (appId ++ ":" ++ port) c.clientId,
              s.pTrustedPorts⟩, []⟩ := by
      intro ci hci
      simp only [OnIpcRequestReceived, OnRegisterMessagePort, GetClientId, hci, hR]
    refine ⟨_, hO c rfl, ?_, fun peerAppId => hO _ rfl⟩
    by_cases ht : isTRUE trusted = true
    · simp [selectedTable, ht, lookup_insert_self]
    · simp [selectedTable, ht, lookup_insert_self]

/-- Witness for `register_key_from_bundle`: client 1234 (application `A`) sending a
frame with `LOCAL_APPID = B`. -/
theorem register_key_from_bundle_witness :
    ∃ o, OnIpcRequestReceived sampleCodes samplePkgMgr sampleSendResponse
          (some sampleClientA) ⟨[], []⟩ (Request.registerPort (proxyRegisterBundle "B" "p" false))
        = some o ∧
      g_hash_table_lookup (selectedTable o.service "FALSE") ("B" ++ ":" ++ "p")
        = some sampleClientA.clientId ∧
      ∀ peerAppId : String,
        OnIpcRequestReceived sampleCodes samplePkgMgr sampleSendResponse
          (some ⟨sampleClientA.clientId, sampleClientA.pReverseChannel,
            sampleClientA.channels, peerAppId⟩) ⟨[], []⟩
          (Request.registerPort (proxyRegisterBundle "B" "p" false)) = some o :=
  register_key_from_bundle sampleCodes samplePkgMgr sampleSendResponse sampleClientA
    ⟨[], []⟩ (proxyRegisterBundle "B" "p" false) "B" "p" "FALSE"
    (by decide) (by decide) (by decide)

/-! ## The trust check -/

theorem isPreloaded_eq (pm : PkgMgr) (l r : Option String) :
    IsPreloaded pm l r = (pm.isPreload l && pm.isPreload r) := by
  cases h1 : pm.appinfo_get_appinfo l with
  | none => simp [IsPreloaded, PkgMgr.isPreload, h1]
  | some handle =>
    cases h2 : pm.appinfo_is_preload handle with
    | none => simp [IsPreloaded, PkgMgr.isPreload, h1, h2]
    | some pl =>
      cases h3 : pm.appinfo_get_appinfo r with
      | none => simp [IsPreloaded, PkgMgr.isPreload, h1, h2, h3]
      | some handle2 =>
        cases h4 : pm.appinfo_is_preload handle2 with
        | none => simp [IsPreloaded, PkgMgr.isPreload, h1, h2, h3, h4]
        | some pr =>
          cases pl <;> cases pr <;> simp [IsPreloaded, PkgMgr.isPreload, h1, h2, h3, h4]

/-- The trust check answers one of three codes. -/
theorem trustCheck_range (E : ErrorCodes) (pm : PkgMgr) (l r : Option String) :
    TrustCheck E pm l r = E.NONE ∨ TrustCheck E pm l r = E.CERTIFICATE_NOT_MATCH ∨
      TrustCheck E pm l r = E.IO_ERROR := by
  unfold TrustCheck CheckCertificate
  by_cases hp : IsPreloaded pm l r = true
  · simp [hp]
  · by_cases hneg : (pm.pkginfo_compare_app_cert_info l r).1 < 0
    · simp [hp, hneg]
    · by_cases hm : (pm.pkginfo_compare_app_cert_info l r).2 = CertCompare.MATCH
      · simp [hp, hneg, hm]
      · simp [hp, hneg, hm]

/-- With the sign convention of the error codes, a negative trust-check result is
one that is not success. -/
theorem trustCheck_neg_iff (E : ErrorCodes) (hE : E.Valid) (pm : PkgMgr)
    (l r : Option String) : TrustCheck E pm l r < 0 ↔ TrustCheck E pm l r ≠ E.NONE := by
  obtain ⟨h0, hio, _, _, _, hc, _⟩ := hE
  rcases trustCheck_range E pm l r with h | h | h
  · rw [h, h0]; simp
  · rw [h, h0]; constructor
    · intro _; exact ne_of_lt hc
    · intro _; exact hc
  · rw [h, h0]; constructor
    · intro _; exact ne_of_lt hio
    · intro _; exact hio

/-- C4: the broker trust check between sender `S` and receiver `R` allows when the
package manager reports both preloaded; otherwise it allows exactly when the
certificate comparison succeeds (non-negative status) with the result `MATCH`,
answers `CERTIFICATE_NOT_MATCH` when the comparison succeeds with any other result,
and answers `IO_ERROR` when the comparison fails (negative status). -/
theorem trustCheck_cases (E : ErrorCodes) (hE : E.Valid) (pm : PkgMgr)
    (S R : Option String) :
    (pm.isPreload S = true ∧ pm.isPreload R = true → TrustCheck E pm S R = E.NONE) ∧
    (¬ (pm.isPreload S = true ∧ pm.isPreload R = true) →
      (TrustCheck E pm S R = E.NONE ↔
        0 ≤ (pm.pkginfo_compare_app_cert_info S R).1 ∧
          (pm.pkginfo_compare_app_cert_info S R).2 = CertCompare.MATCH) ∧
      (0 ≤ (pm.pkginfo_compare_app_cert_info S R).1 ∧
          (pm.pkginfo_compare_app_cert_info S R).2 ≠ CertCompare.MATCH →
        TrustCheck E pm S R = E.CERTIFICATE_NOT_MATCH) ∧
      ((pm.pkginfo_compare_app_cert_info S R).1 < 0 → TrustCheck E pm S R = E.IO_ERROR)) := by
  obtain ⟨h0, hio, _, _, _, hc, _⟩ := hE
  have hio0 : E.IO_ERROR ≠ E.NONE := by rw [h0]; exact ne_of_lt hio
  have hc0 : E.CERTIFICATE_NOT_MATCH ≠ E.NONE := by rw [h0]; exact ne_of_lt hc
  constructor
  · rintro ⟨hS, hR⟩
    simp [TrustCheck, isPreloaded_eq, hS, hR]
  · intro hnot
    have hP : IsPreloaded pm S R = false := by
      rw [isPreloaded_eq]
      cases hS : pm.isPreload S <;> cases hR : pm.isPreload R <;> simp_all
    have hT : TrustCheck E pm S R = CheckCertificate E pm S R := by
      simp [TrustCheck, hP]
    rw [hT]
    unfold CheckCertificate
    by_cases hneg : (pm.pkginfo_compare_app_cert_info S R).1 < 0
    · have hnn : ¬ 0 ≤ (pm.pkginfo_compare_app_cert_info S R).1 := not_le.mpr hneg
      simp [hneg, hio0, hnn]
    · have hnn : 0 ≤ (pm.pkginfo_compare_app_cert_info S R).1 := not_lt.mp hneg
      by_cases hm : (pm.pkginfo_compare_app_cert_info S R).2 = CertCompare.MATCH
      · simp [hneg, hm, hnn]
      · simp [hneg, hm, hnn, hc0]

/-- Witness for `trustCheck_cases`: the sample codes and package manager, sender `B`,
receiver `R`. -/
theorem trustCheck_cases_witness :
    (samplePkgMgr.isPreload (some "B") = true ∧ samplePkgMgr.isPreload (some "R") = true →
      TrustCheck sampleCodes samplePkgMgr (some "B") (some "R") = sampleCodes.NONE) ∧
    (¬ (samplePkgMgr.isPreload (some "B") = true ∧ samplePkgMgr.isPreload (some "R") = true) →
      (TrustCheck sampleCodes samplePkgMgr (some "B") (some "R") = sampleCodes.NONE ↔
        0 ≤ (samplePkgMgr.pkginfo_compare_app_cert_info (some "B") (some "R")).1 ∧
          (samplePkgMgr.pkginfo_compare_app_cert_info (some "B") (some "R")).2
            = CertCompare.MATCH) ∧
      (0 ≤ (samplePkgMgr.pkginfo_compare_app_cert_info (some "B") (some "R")).1 ∧
          (samplePkgMgr.pkginfo_compare_app_cert_info (some "B") (some "R")).2
            ≠ CertCompare.MATCH →
        TrustCheck sampleCodes samplePkgMgr (some "B") (some "R")
          = sampleCodes.CERTIFICATE_NOT_MATCH) ∧
      ((samplePkgMgr.pkginfo_compare_app_cert_info (some "B") (some "R")).1 < 0 →
        TrustCheck sampleCodes samplePkgMgr (some "B") (some "R") = sampleCodes.IO_ERROR)) :=
  trustCheck_cases sampleCodes (by decide) samplePkgMgr (some "B") (some "R")

/-! ## Lookup and delivery -/

theorem selectedTable_lookup (s : Service) (t key : String) :
    g_hash_table_lookup (selectedTable s t) key =
      if isTRUE t then g_hash_table_lookup s.pTrustedPorts key
      else g_hash_table_lookup s.pPorts key := by
  unfold selectedTable
  split <;> rfl

/-- The method `SendMessage` on a lookup miss. -/
theorem sendMessage_miss (E : ErrorCodes) (pm : PkgMgr)
    (SendResponse : Int → Bundle → Bundle → Int) (s : Service) (metadata buffer : Bundle)
    (key t : String) (hK : GetKey metadata false = some key)
    (hT : bundle_get_val metadata TRUSTED_MESSAGE = some t)
    (hL : g_hash_table_lookup (selectedTable s t) key = none) :
    SendMessage E pm SendResponse s metadata buffer = some (E.MESSAGEPORT_NOT_FOUND, []) := by
  rw [selectedTable_lookup] at hL
  unfold SendMessage
  simp only [hK, hT, hL]

/-- The method `SendMessage` on a lookup hit, in terms of the trust check. -/
theorem sendMessage_hit (E : ErrorCodes) (hE : E.Valid) (pm : PkgMgr)
    (SendResponse : Int → Bundle → Bundle → Int) (s : Service) (metadata buffer : Bundle)
    (key t : String) (cid : Int) (hK : GetKey metadata false = some key)
    (hT : bundle_get_val metadata TRUSTED_MESSAGE = some t)
    (hL : g_hash_table_lookup (selectedTable s t) key = some cid) :
    SendMessage E pm SendResponse s metadata buffer =
      if isTRUE t = true ∧
          TrustCheck E pm (bundle_get_val metadata LOCAL_APPID)
            (bundle_get_val metadata REMOTE_APPID) ≠ E.NONE then
        some (TrustCheck E pm (bundle_get_val metadata LOCAL_APPID)
            (bundle_get_val metadata REMOTE_APPID), [])
      else some (deliveryResult E SendResponse cid metadata buffer,
        [⟨cid, metadata, buffer⟩]) := by
  have hneg := trustCheck_neg_iff E hE pm (bundle_get_val metadata LOCAL_APPID)
    (bundle_get_val metadata REMOTE_APPID)
  have hsend : (if StubSendMessage E SendResponse cid metadata buffer < 0 then
        some (E.IO_ERROR, [(⟨cid, metadata, buffer⟩ : Delivery)])
      else some (E.NONE, [⟨cid, metadata, buffer⟩])) =
      some (deliveryResult E SendResponse cid metadata buffer, [⟨cid, metadata, buffer⟩]) := by
    unfold deliveryResult
    split <;> rfl
  rw [selectedTable_lookup] at hL
  unfold SendMessage
  simp only [hK, hT, hL, hsend]
  by_cases ht : isTRUE t = true
  · by_cases hp : IsPreloaded pm (bundle_get_val metadata LOCAL_APPID)
        (bundle_get_val metadata REMOTE_APPID) = true
    · have hTC : TrustCheck E pm (bundle_get_val metadata LOCAL_APPID)
          (bundle_get_val metadata REMOTE_APPID) = E.NONE := by
        simp [TrustCheck, hp]
      simp [hp, hTC]
    · have hpf : IsPreloaded pm (bundle_get_val metadata LOCAL_APPID)
          (bundle_get_val metadata REMOTE_APPID) = false := by
        simpa using hp
      have hTC : TrustCheck E pm (bundle_get_val metadata LOCAL_APPID)
          (bundle_get_val metadata REMOTE_APPID) =
          CheckCertificate E pm (bundle_get_val metadata LOCAL_APPID)
            (bundle_get_val metadata REMOTE_APPID) := by
        simp [TrustCheck, hpf]
      rw [hTC] at hneg ⊢
      by_cases hc : CheckCertificate E pm (bundle_get_val metadata LOCAL_APPID)
          (bundle_get_val metadata REMOTE_APPID) < 0
      · have hne := hneg.mp hc
        simp [ht, hpf, hc, hne]
      · have hne : ¬ CheckCertificate E pm (bundle_get_val metadata LOCAL_APPID)
            (bundle_get_val metadata REMOTE_APPID) ≠ E.NONE := fun h => hc (hneg.mpr h)
        simp only [hc, and_false, if_false, hne]
  · simp [ht]

/-- The method `CheckRemotePort` on a lookup miss. -/
theorem checkRemotePort_miss (E : ErrorCodes) (pm : PkgMgr) (s : Service) (buffer : Bundle)
    (key t : String) (hK : GetKey buffer false = some key)
    (hT : bundle_get_val buffer TRUSTED_REMOTE = some t)
    (hL : g_hash_table_lookup (selectedTable s t) key = none) :
    CheckRemotePort E pm s buffer = some E.MESSAGEPORT_NOT_FOUND := by
  rw [selectedTable_lookup] at hL
  unfold CheckRemotePort
  simp only [hK, hT]
  by_cases ht : isTRUE t = true
  · simp only [ht, if_true] at hL ⊢
    simp [hL]
  · have hf : isTRUE t = false := by simpa using ht
    simp only [hf] at hL ⊢
    simp at hL
    simp [hL]

/-- The method `CheckRemotePort` on a lookup hit. -/
theorem checkRemotePort_hit (E : ErrorCodes) (pm : PkgMgr) (s : Service) (buffer : Bundle)
    (key t : String) (cid : Int) (hK : GetKey buffer false = some key)
    (hT : bundle_get_val buffer TRUSTED_REMOTE = some t)
    (hL : g_hash_table_lookup (selectedTable s t) key = some cid) :
    CheckRemotePort E pm s buffer =
      if isTRUE t = true then
        some (TrustCheck E pm (bundle_get_val buffer LOCAL_APPID)
          (bundle_get_val buffer REMOTE_APPID))
      else some E.NONE := by
  rw [selectedTable_lookup] at hL
  unfold CheckRemotePort
  simp only [hK, hT]
  by_cases ht : isTRUE t = true
  · simp only [ht, if_true] at hL ⊢
    simp [hL]
  · have hf : isTRUE t = false := by simpa using ht
    simp only [hf] at hL ⊢
    simp at hL
    simp [hL]

/-! ## Who the sender is -/

/-- C3 (counterexample): the client of process 1234 has the peer-credential
application `A`, which shares its certificate with `R`, so a trust check with
sender `A` allows.  Yet the trusted `CheckRemotePort` and the unidirectional trusted
`SendMessage` bundles the proxy builds (no `LOCAL_APPID`) are answered `IO_ERROR`
with nothing delivered, because the broker hands NULL to the trust check, and a
frame of the same client that carries `LOCAL_APPID = B` is answered
`CERTIFICATE_NOT_MATCH`, because the broker hands `B` to it. -/
theorem trust_check_sender_is_not_peer_credential :
    TrustCheck sampleCodes samplePkgMgr (GetClientApplicationId (some sampleClientA))
      (some "R") = 0 ∧
    OnIpcRequestReceived sampleCodes samplePkgMgr sampleSendResponse (some sampleClientA)
      sampleTrustedRQ (Request.checkRemotePort (proxyCheckRemoteBundle "R" "q" true))
      = some ⟨-1, sampleTrustedRQ, []⟩ ∧
    OnIpcRequestReceived sampleCodes samplePkgMgr sampleSendResponse (some sampleClientA)
      sampleTrustedRQ
      (Request.sendMessage (proxySendBundle "R" "q" true [("k", "hello")]) [])
      = some ⟨-1, sampleTrustedRQ, []⟩ ∧
    OnIpcRequestReceived sampleCodes samplePkgMgr sampleSendResponse (some sampleClientA)
      sampleTrustedRQ (Request.checkRemotePort sampleCheckFromB)
      = some ⟨-5, sampleTrustedRQ, []⟩ := by
  decide

/-- C3 (amended): for every trusted `CheckRemotePort` frame and every trusted
`SendMessage` frame that carries `LOCAL_APPID` and hits the trusted registry, and
for every client context the frame arrives in, the sender identity of the trust
check is the `LOCAL_APPID` value of the frame's bundle: the answer is that of the
trust check between that value and `REMOTE_APPID`, and `SendMessage` delivers
exactly when that trust check allows. -/
theorem trust_check_sender_from_bundle (E : ErrorCodes) (hE : E.Valid) (pm : PkgMgr)
    (SendResponse : Int → Bundle → Bundle → Int) (cur : Option ClientInfo) (s : Service)
    (check metadata buffer : Bundle) (S1 key1 t1 S2 key2 t2 : String) (cid1 cid2 : Int)
    (hS1 : bundle_get_val check LOCAL_APPID = some S1)
    (hK1 : GetKey check false = some key1)
    (hT1 : bundle_get_val check TRUSTED_REMOTE = some t1) (ht1 : isTRUE t1 = true)
    (hL1 : g_hash_table_lookup s.pTrustedPorts key1 = some cid1)
    (hS2 : bundle_get_val metadata LOCAL_APPID = some S2)
    (hK2 : GetKey metadata false = some key2)
    (hT2 : bundle_get_val metadata TRUSTED_MESSAGE = some t2) (ht2 : isTRUE t2 = true)
    (hL2 : g_hash_table_lookup s.pTrustedPorts key2 = some cid2) :
    OnIpcRequestReceived E pm SendResponse cur s (Request.checkRemotePort check) =
      some ⟨TrustCheck E pm (some S1) (bundle_get_val check REMOTE_APPID), s, []⟩ ∧
    OnIpcRequestReceived E pm SendResponse cur s (Request.sendMessage metadata buffer) =
      if TrustCheck E pm (some S2) (bundle_get_val metadata REMOTE_APPID) ≠ E.NONE then
        some ⟨TrustCheck E pm (some S2) (bundle_get_val metadata REMOTE_APPID), s, []⟩
      else some ⟨deliveryResult E SendResponse cid2 metadata buffer, s,
        [⟨cid2, metadata, buffer⟩]⟩ := by
  have hL1s : g_hash_table_lookup (selectedTable s t1) key1 = some cid1 := by
    simp [selectedTable, ht1, hL1]
  have hL2s : g_hash_table_lookup (selectedTable s t2) key2 = some cid2 := by
    simp [selectedTable, ht2, hL2]
  constructor
  · simp only [OnIpcRequestReceived, OnCheckRemotePort,
      checkRemotePort_hit E pm s check key1 t1 cid1 hK1 hT1 hL1s, ht1, if_true, hS1]
  · by_cases hc : TrustCheck E pm (some S2) (bundle_get_val metadata REMOTE_APPID) = E.NONE
    · simp [OnIpcRequestReceived, OnSendMessage,
        sendMessage_hit E hE pm SendResponse s metadata buffer key2 t2 cid2 hK2 hT2 hL2s,
        ht2, hS2, hc]
    · simp [OnIpcRequestReceived, OnSendMessage,
        sendMessage_hit E hE pm SendResponse s metadata buffer key2 t2 cid2 hK2 hT2 hL2s,
        ht2, hS2, hc]

/-- Witness for `trust_check_sender_from_bundle`: client 1234 (application `A`) sends
frames naming `B` as the sender to the trusted port `R:q`. -/
theorem trust_check_sender_from_bundle_witness :
    OnIpcRequestReceived sampleCodes samplePkgMgr sampleSendResponse (some sampleClientA)
        sampleTrustedRQ (Request.checkRemotePort sampleCheckFromB) =
      some ⟨TrustCheck sampleCodes samplePkgMgr (some "B")
        (bundle_get_val sampleCheckFromB REMOTE_APPID), sampleTrustedRQ, []⟩ ∧
    OnIpcRequestReceived sampleCodes samplePkgMgr sampleSendResponse (some sampleClientA)
        sampleTrustedRQ (Request.sendMessage sampleSendFromB [("k", "hello")]) =
      if TrustCheck sampleCodes samplePkgMgr (some "B")
          (bundle_get_val sampleSendFromB REMOTE_APPID) ≠ sampleCodes.NONE then
        some ⟨TrustCheck sampleCodes samplePkgMgr (some "B")
          (bundle_get_val sampleSendFromB REMOTE_APPID), sampleTrustedRQ, []⟩
      else some ⟨deliveryResult sampleCodes sampleSendResponse 77 sampleSendFromB
          [("k", "hello")], sampleTrustedRQ,
        [⟨77, sampleSendFromB, [("k", "hello")]⟩]⟩ :=
  trust_check_sender_from_bundle sampleCodes (by decide) samplePkgMgr sampleSendResponse
    (some sampleClientA) sampleTrustedRQ sampleCheckFromB sampleSendFromB [("k", "hello")]
    "B" "R:q" "TRUE" "B" "R:q" "TRUE" 77 77
    (by decide) (by decide) (by decide) (by decide) (by decide)
    (by decide) (by decide) (by decide) (by decide) (by decide)

/-! ## Sending -/

/-- C5: a broker `SendMessage` whose `TRUSTED_MESSAGE` is `"TRUE"` and whose
destination key is in the trusted registry, when sender and receiver are not both
preloaded and the certificate comparison succeeds with a result other than `MATCH`,
is answered `CERTIFICATE_NOT_MATCH`; the stub's `SendMessage` is not called and the
registries stay as they were. -/
theorem send_trusted_certificate_mismatch (E : ErrorCodes) (hE : E.Valid) (pm : PkgMgr)
    (SendResponse : Int → Bundle → Bundle → Int) (cur : Option ClientInfo) (s : Service)
    (metadata buffer : Bundle) (key : String) (cid : Int)
    (hK : GetKey metadata false = some key)
    (hT : bundle_get_val metadata TRUSTED_MESSAGE = some "TRUE")
    (hL : g_hash_table_lookup s.pTrustedPorts key = some cid)
    (hNP : ¬ (pm.isPreload (bundle_get_val metadata LOCAL_APPID) = true ∧
      pm.isPreload (bundle_get_val metadata REMOTE_APPID) = true))
    (hOk : 0 ≤ (pm.pkginfo_compare_app_cert_info (bundle_get_val metadata LOCAL_APPID)
      (bundle_get_val metadata REMOTE_APPID)).1)
    (hDiff : (pm.pkginfo_compare_app_cert_info (bundle_get_val metadata LOCAL_APPID)
      (bundle_get_val metadata REMOTE_APPID)).2 ≠ CertCompare.MATCH) :
    OnIpcRequestReceived E pm SendResponse cur s (Request.sendMessage metadata buffer) =
      some ⟨E.CERTIFICATE_NOT_MATCH, s, []⟩ := by
  have hP : IsPreloaded pm (bundle_get_val metadata LOCAL_APPID)
      (bundle_get_val metadata REMOTE_APPID) = false := by
    rw [isPreloaded_eq]
    cases hS : pm.isPreload (bundle_get_val metadata LOCAL_APPID) <;>
      cases hR : pm.isPreload (bundle_get_val metadata REMOTE_APPID) <;> simp_all
  have hnl : ¬ (pm.pkginfo_compare_app_cert_info (bundle_get_val metadata LOCAL_APPID)
      (bundle_get_val metadata REMOTE_APPID)).1 < 0 := not_lt.mpr hOk
  have hTC : TrustCheck E pm (bundle_get_val metadata LOCAL_APPID)
      (bundle_get_val metadata REMOTE_APPID) = E.CERTIFICATE_NOT_MATCH := by
    simp [TrustCheck, hP, CheckCertificate, hnl, hDiff]
  have hne : E.CERTIFICATE_NOT_MATCH ≠ E.NONE := by
    obtain ⟨h0, _, _, _, _, hc, _⟩ := hE
    rw [h0]; exact ne_of_lt hc
  have hTrue : isTRUE "TRUE" = true := by decide
  have hLs : g_hash_table_lookup (selectedTable s "TRUE") key = some cid := by
    simp [selectedTable, hTrue, hL]
  simp [OnIpcRequestReceived, OnSendMessage,
    sendMessage_hit E hE pm SendResponse s metadata buffer key "TRUE" cid hK hT hLs,
    hTrue, hTC, hne]

/-- Witness for `send_trusted_certificate_mismatch`: `B` sends to the trusted port
`R:q`; the two are not preloaded and their certificates differ. -/
theorem send_trusted_certificate_mismatch_witness :
    OnIpcRequestReceived sampleCodes samplePkgMgr sampleSendResponse (some sampleClientA)
        sampleTrustedRQ (Request.sendMessage sampleSendFromB [("k", "hello")]) =
      some ⟨sampleCodes.CERTIFICATE_NOT_MATCH, sampleTrustedRQ, []⟩ :=
  send_trusted_certificate_mismatch sampleCodes (by decide) samplePkgMgr sampleSendResponse
    (some sampleClientA) sampleTrustedRQ sampleSendFromB [("k", "hello")] "R:q" 77
    (by decide) (by decide) (by decide) (by decide) (by decide) (by decide)

/-- C6: for every registry state and every broker `SendMessage` frame that carries
`REMOTE_APPID`, `REMOTE_PORT` and `TRUSTED_MESSAGE`, the request is answered and a
delivery is attempted exactly when the key is in the registry selected by
`TRUSTED_MESSAGE` and the message is untrusted or the trust check allows; then
exactly one delivery is made, addressed to the client identifier stored under the
key in that registry; on a miss the answer is `MESSAGEPORT_NOT_FOUND` and nothing is
delivered. -/
theorem send_delivers_exactly_on_hit (E : ErrorCodes) (hE : E.Valid) (pm : PkgMgr)
    (SendResponse : Int → Bundle → Bundle → Int) (cur : Option ClientInfo) (s : Service)
    (metadata buffer : Bundle) (key t : String)
    (hK : GetKey metadata false = some key)
    (hT : bundle_get_val metadata TRUSTED_MESSAGE = some t) :
    ∃ o, OnIpcRequestReceived E pm SendResponse cur s (Request.sendMessage metadata buffer)
        = some o ∧
      (o.delivered ≠ [] ↔
        (g_hash_table_lookup (selectedTable s t) key).isSome = true ∧
          (isTRUE t = false ∨
            TrustCheck E pm (bundle_get_val metadata LOCAL_APPID)
              (bundle_get_val metadata REMOTE_APPID) = E.NONE)) ∧
      (∀ cid, g_hash_table_lookup (selectedTable s t) key = some cid →
        (isTRUE t = false ∨
          TrustCheck E pm (bundle_get_val metadata LOCAL_APPID)
            (bundle_get_val metadata REMOTE_APPID) = E.NONE) →
        o.delivered = [⟨cid, metadata, buffer⟩]) ∧
      (g_hash_table_lookup (selectedTable s t) key = none →
        o.result = E.MESSAGEPORT_NOT_FOUND ∧ o.delivered = []) := by
  cases hL : g_hash_table_lookup (selectedTable s t) key with
  | none =>
    refine ⟨⟨E.MESSAGEPORT_NOT_FOUND, s, []⟩, ?_, ?_, ?_, ?_⟩
    · simp [OnIpcRequestReceived, OnSendMessage,
        sendMessage_miss E pm SendResponse s metadata buffer key t hK hT hL]
    · simp
    · intro cid h; cases h
    · intro _; exact ⟨rfl, rfl⟩
  | some cid =>
    have hS := sendMessage_hit E hE pm SendResponse s metadata buffer key t cid hK hT hL
    by_cases hc : isTRUE t = true ∧
        TrustCheck E pm (bundle_get_val metadata LOCAL_APPID)
          (bundle_get_val metadata REMOTE_APPID) ≠ E.NONE
    · rw [if_pos hc] at hS
      refine ⟨⟨TrustCheck E pm (bundle_get_val metadata LOCAL_APPID)
        (bundle_get_val metadata REMOTE_APPID), s, []⟩, ?_, ?_, ?_, ?_⟩
      · simp [OnIpcRequestReceived, OnSendMessage, hS]
      · simp [hc.1, hc.2]
      · intro cid2 _ h
        rcases h with h | h
        · rw [hc.1] at h; cases h
        · exact absurd h hc.2
      · intro h; cases h
    · rw [if_neg hc] at hS
      have hallow : isTRUE t = false ∨
          TrustCheck E pm (bundle_get_val metadata LOCAL_APPID)
            (bundle_get_val metadata REMOTE_APPID) = E.NONE := by
        by_cases ht : isTRUE t = true
        · right
          by_contra hne
          exact hc ⟨ht, hne⟩
        · left
          simpa using ht
      refine ⟨⟨deliveryResult E SendResponse cid metadata buffer, s,
        [⟨cid, metadata, buffer⟩]⟩, ?_, ?_, ?_, ?_⟩
      · simp [OnIpcRequestReceived, OnSendMessage, hS]
      · simp [hallow]
      · intro cid2 h _
        cases h
        rfl
      · intro h; cases h

/-- Witness for `send_delivers_exactly_on_hit`: an untrusted unidirectional message
built by the proxy for the port `A:p`. -/
theorem send_delivers_exactly_on_hit_witness :
    ∃ o, OnIpcRequestReceived sampleCodes samplePkgMgr sampleSendResponse
          (some sampleClientA) ⟨[("A:p", 1234)], []⟩
          (Request.sendMessage (proxySendBundle "A" "p" false []) [("k", "hello")])
        = some o ∧
      (o.delivered ≠ [] ↔
        (g_hash_table_lookup (selectedTable ⟨[("A:p", 1234)], []⟩ "FALSE") "A:p").isSome
            = true ∧
          (isTRUE "FALSE" = false ∨
            TrustCheck sampleCodes samplePkgMgr
              (bundle_get_val (proxySendBundle "A" "p" false []) LOCAL_APPID)
              (bundle_get_val (proxySendBundle "A" "p" false []) REMOTE_APPID)
              = sampleCodes.NONE)) ∧
      (∀ cid, g_hash_table_lookup (selectedTable ⟨[("A:p", 1234)], []⟩ "FALSE") "A:p"
          = some cid →
        (isTRUE "FALSE" = false ∨
          TrustCheck sampleCodes samplePkgMgr
            (bundle_get_val (proxySendBundle "A" "p" false []) LOCAL_APPID)
            (bundle_get_val (proxySendBundle "A" "p" false []) REMOTE_APPID)
            = sampleCodes.NONE) →
        o.delivered = [⟨cid, proxySendBundle "A" "p" false [], [("k", "hello")]⟩]) ∧
      (g_hash_table_lookup (selectedTable ⟨[("A:p", 1234)], []⟩ "FALSE") "A:p" = none →
        o.result = sampleCodes.MESSAGEPORT_NOT_FOUND ∧ o.delivered = []) :=
  send_delivers_exactly_on_hit sampleCodes (by decide) samplePkgMgr sampleSendResponse
    (some sampleClientA) ⟨[("A:p", 1234)], []⟩ (proxySendBundle "A" "p" false [])
    [("k", "hello")] "A:p" "FALSE" (by decide) (by decide)

/-! ## Checking a remote port -/

/-- C7: for every registry state and every `CheckRemotePort` bundle that carries
`REMOTE_APPID`, `REMOTE_PORT` and `TRUSTED_REMOTE`, the request is answered; the
answer is `MESSAGEPORT_NOT_FOUND` when the key is absent from the registry selected
by `TRUSTED_REMOTE`, success when the key is present and the untrusted registry is
selected (whatever the package manager says), and the trust-check result, one of
success, `CERTIFICATE_NOT_MATCH` and `IO_ERROR`, when the key is present in the
trusted registry.  The registries are unchanged and nothing is delivered. -/
theorem check_remote_port_cases (E : ErrorCodes) (pm : PkgMgr)
    (SendResponse : Int → Bundle → Bundle → Int) (cur : Option ClientInfo) (s : Service)
    (buffer : Bundle) (key t : String)
    (hK : GetKey buffer false = some key)
    (hT : bundle_get_val buffer TRUSTED_REMOTE = some t) :
    ∃ o, OnIpcRequestReceived E pm SendResponse cur s (Request.checkRemotePort buffer)
        = some o ∧
      o.service = s ∧ o.delivered = [] ∧
      (g_hash_table_lookup (selectedTable s t) key = none →
        o.result = E.MESSAGEPORT_NOT_FOUND) ∧
      ((g_hash_table_lookup (selectedTable s t) key).isSome = true → isTRUE t = false →
        o.result = E.NONE) ∧
      ((g_hash_table_lookup (selectedTable s t) key).isSome = true → isTRUE t = true →
        o.result = TrustCheck E pm (bundle_get_val buffer LOCAL_APPID)
            (bundle_get_val buffer REMOTE_APPID) ∧
          (o.result = E.NONE ∨ o.result = E.CERTIFICATE_NOT_MATCH ∨
            o.result = E.IO_ERROR)) := by
  cases hL : g_hash_table_lookup (selectedTable s t) key with
  | none =>
    refine ⟨⟨E.MESSAGEPORT_NOT_FOUND, s, []⟩, ?_, rfl, rfl, fun _ => rfl, ?_, ?_⟩
    · simp [OnIpcRequestReceived, OnCheckRemotePort,
        checkRemotePort_miss E pm s buffer key t hK hT hL]
    · intro h; simp at h
    · intro h; simp at h
  | some cid =>
    have hC := checkRemotePort_hit E pm s buffer key t cid hK hT hL
    by_cases ht : isTRUE t = true
    · rw [if_pos ht] at hC
      refine ⟨⟨TrustCheck E pm (bundle_get_val buffer LOCAL_APPID)
        (bundle_get_val buffer REMOTE_APPID), s, []⟩, ?_, rfl, rfl, ?_, ?_, ?_⟩
      · simp [OnIpcRequestReceived, OnCheckRemotePort, hC]
      · intro h; cases h
      · intro _ hf; rw [ht] at hf; cases hf
      · intro _ _
        exact ⟨rfl, trustCheck_range E pm _ _⟩
    · rw [if_neg ht] at hC
      refine ⟨⟨E.NONE, s, []⟩, ?_, rfl, rfl, ?_, ?_, ?_⟩
      · simp [OnIpcRequestReceived, OnCheckRemotePort, hC]
      · intro h; cases h
      · intro _ _; rfl
      · intro _ h; exact absurd h ht

/-- Witness for `check_remote_port_cases`: the trusted check the frame
`sampleCheckFromB` asks for on a broker that holds `R:q`. -/
theorem check_remote_port_cases_witness :
    ∃ o, OnIpcRequestReceived sampleCodes samplePkgMgr sampleSendResponse
          (some sampleClientA) sampleTrustedRQ (Request.checkRemotePort sampleCheckFromB)
        = some o ∧
      o.service = sampleTrustedRQ ∧ o.delivered = [] ∧
      (g_hash_table_lookup (selectedTable sampleTrustedRQ "TRUE") "R:q" = none →
        o.result = sampleCodes.MESSAGEPORT_NOT_FOUND) ∧
      ((g_hash_table_lookup (selectedTable sampleTrustedRQ "TRUE") "R:q").isSome = true →
        isTRUE "TRUE" = false → o.result = sampleCodes.NONE) ∧
      ((g_hash_table_lookup (selectedTable sampleTrustedRQ "TRUE") "R:q").isSome = true →
        isTRUE "TRUE" = true →
        o.result = TrustCheck sampleCodes samplePkgMgr
            (bundle_get_val sampleCheckFromB LOCAL_APPID)
            (bundle_get_val sampleCheckFromB REMOTE_APPID) ∧
          (o.result = sampleCodes.NONE ∨ o.result = sampleCodes.CERTIFICATE_NOT_MATCH ∨
            o.result = sampleCodes.IO_ERROR)) :=
  check_remote_port_cases sampleCodes samplePkgMgr sampleSendResponse (some sampleClientA)
    sampleTrustedRQ sampleCheckFromB "R:q" "TRUE" (by decide) (by decide)

/-! ## Registration: duplicates, replacement, namespaces -/

/-- C8: for every registry state, client `c` and `RegisterPort` bundle whose key is
present in the selected registry with owner `c`, registration answers `IO_ERROR`
and leaves both registries exactly as they were. -/
theorem register_duplicate_is_io_error (E : ErrorCodes) (pm : PkgMgr)
    (SendResponse : Int → Bundle → Bundle → Int) (c : ClientInfo) (s : Service)
    (buffer : Bundle) (key trusted : String)
    (hK : GetKey buffer true = some key)
    (hT : bundle_get_val buffer TRUSTED_LOCAL = some trusted)
    (hL : g_hash_table_lookup (selectedTable s trusted) key = some c.clientId) :
    RegisterMessagePort E s c.clientId buffer = some (E.IO_ERROR, s) ∧
    OnIpcRequestReceived E pm SendResponse (some c) s (Request.registerPort buffer) =
      some ⟨E.IO_ERROR, s, []⟩ := by
  have h := register_same_owner E s c.clientId buffer key trusted hK hT hL
  exact ⟨h, by simp [OnIpcRequestReceived, OnRegisterMessagePort, GetClientId, h]⟩

/-- Witness for `register_duplicate_is_io_error`: client 1234 registers the untrusted
port `A:p` a second time. -/
theorem register_duplicate_is_io_error_witness :
    RegisterMessagePort sampleCodes ⟨[("A:p", 1234)], [("A:q", 1234)]⟩
        sampleClientA.clientId (proxyRegisterBundle "A" "p" false) =
      some (sampleCodes.IO_ERROR, ⟨[("A:p", 1234)], [("A:q", 1234)]⟩) ∧
    OnIpcRequestReceived sampleCodes samplePkgMgr sampleSendResponse (some sampleClientA)
        ⟨[("A:p", 1234)], [("A:q", 1234)]⟩
        (Request.registerPort (proxyRegisterBundle "A" "p" false)) =
      some ⟨sampleCodes.IO_ERROR, ⟨[("A:p", 1234)], [("A:q", 1234)]⟩, []⟩ :=
  register_duplicate_is_io_error sampleCodes samplePkgMgr sampleSendResponse sampleClientA
    ⟨[("A:p", 1234)], [("A:q", 1234)]⟩ (proxyRegisterBundle "A" "p" false) "A:p" "FALSE"
    (by decide) (by decide) (by decide)

theorem selectedTable_after_register (s : Service) (trusted key : String) (clientId : Int) :
    selectedTable
      (if isTRUE trusted then ⟨s.pPorts, g_hash_table_insert s.pTrustedPorts key clientId⟩
       else ⟨g_hash_table_insert s.pPorts key clientId, s.pTrustedPorts⟩) trusted =
      g_hash_table_insert (selectedTable s trusted) key clientId := by
  by_cases ht : isTRUE trusted = true <;> simp [selectedTable, ht]

theorem otherTable_after_register (s : Service) (trusted key : String) (clientId : Int) :
    otherTable
      (if isTRUE trusted then ⟨s.pPorts, g_hash_table_insert s.pTrustedPorts key clientId⟩
       else ⟨g_hash_table_insert s.pPorts key clientId, s.pTrustedPorts⟩) trusted =
      otherTable s trusted := by
  by_cases ht : isTRUE trusted = true <;> simp [otherTable, ht]

/-- C9: for every registry state, client `c` and `RegisterPort` bundle whose key is
absent from the selected registry or present there with an owner other than `c`,
registration answers success (zero); afterwards the selected registry binds the key
to `c` and to no other owner, and every other key of that registry has the entries
it had before. -/
theorem register_binds_key_to_client (E : ErrorCodes) (hE : E.Valid) (pm : PkgMgr)
    (SendResponse : Int → Bundle → Bundle → Int) (c : ClientInfo) (s : Service)
    (buffer : Bundle) (key trusted : String)
    (hK : GetKey buffer true = some key)
    (hT : bundle_get_val buffer TRUSTED_LOCAL = some trusted)
    (hL : g_hash_table_lookup (selectedTable s trusted) key = none ∨
      ∃ owner, g_hash_table_lookup (selectedTable s trusted) key = some owner ∧
        owner ≠ c.clientId) :
    ∃ o, OnIpcRequestReceived E pm SendResponse (some c) s (Request.registerPort buffer)
        = some o ∧
      o.result = E.NONE ∧ o.result = 0 ∧
      g_hash_table_lookup (selectedTable o.service trusted) key = some c.clientId ∧
      (∀ owner, (key, owner) ∈ selectedTable o.service trusted → owner = c.clientId) ∧
      (∀ k, k ≠ key → g_hash_table_lookup (selectedTable o.service trusted) k =
        g_hash_table_lookup (selectedTable s trusted) k) ∧
      (∀ k owner, k ≠ key → ((k, owner) ∈ selectedTable o.service trusted ↔
        (k, owner) ∈ selectedTable s trusted)) := by
  have hne : g_hash_table_lookup (selectedTable s trusted) key ≠ some c.clientId := by
    rcases hL with h | ⟨owner, h, ho⟩
    · rw [h]; simp
    · rw [h]; intro hc; exact ho (Option.some.inj hc)
  have hR := register_fresh_or_stale E s c.clientId buffer key trusted hK hT hne
  have hO : OnIpcRequestReceived E pm SendResponse (some c) s (Request.registerPort buffer) =
      some ⟨E.NONE,
        if isTRUE trusted then ⟨s.pPorts, g_hash_table_insert s.pTrustedPorts key c.clientId⟩
        else ⟨g_hash_table_insert s.pPorts key c.clientId, s.pTrustedPorts⟩, []⟩ := by
    simp only [OnIpcRequestReceived, OnRegisterMessagePort, GetClientId, hR]
  refine ⟨_, hO, rfl, hE.1, ?_, ?_, ?_, ?_⟩
  · show g_hash_table_lookup (selectedTable _ trusted) key = some c.clientId
    rw [selectedTable_after_register]
    exact lookup_insert_self _ _ _
  · intro owner hmem
    change (key, owner) ∈ selectedTable _ trusted at hmem
    rw [selectedTable_after_register, mem_insert_iff] at hmem
    rcases hmem with h | ⟨_, h⟩
    · exact (Prod.mk.inj h).2
    · exact absurd rfl h
  · intro k hk
    show g_hash_table_lookup (selectedTable _ trusted) k = _
    rw [selectedTable_after_register]
    exact lookup_insert_ne _ _ _ _ hk
  · intro k owner hk
    show (k, owner) ∈ selectedTable _ trusted ↔ _
    rw [selectedTable_after_register, mem_insert_iff]
    constructor
    · rintro (h | ⟨h, _⟩)
      · exact absurd (Prod.mk.inj h).1 hk
      · exact h
    · intro h
      exact Or.inr ⟨h, hk⟩

/-- Witness for `register_binds_key_to_client`: client 1234 registers the untrusted
port `A:p`, which is still bound to client 77. -/
theorem register_binds_key_to_client_witness :
    ∃ o, OnIpcRequestReceived sampleCodes samplePkgMgr sampleSendResponse
          (some sampleClientA) sampleStaleAP
          (Request.registerPort (proxyRegisterBundle "A" "p" false)) = some o ∧
      o.result = sampleCodes.NONE ∧ o.result = 0 ∧
      g_hash_table_lookup (selectedTable o.service "FALSE") "A:p"
        = some sampleClientA.clientId ∧
      (∀ owner, ("A:p", owner) ∈ selectedTable o.service "FALSE" →
        owner = sampleClientA.clientId) ∧
      (∀ k, k ≠ "A:p" → g_hash_table_lookup (selectedTable o.service "FALSE") k =
        g_hash_table_lookup (selectedTable sampleStaleAP "FALSE") k) ∧
      (∀ k owner, k ≠ "A:p" → ((k, owner) ∈ selectedTable o.service "FALSE" ↔
        (k, owner) ∈ selectedTable sampleStaleAP "FALSE")) :=
  register_binds_key_to_client sampleCodes (by decide) samplePkgMgr sampleSendResponse
    sampleClientA sampleStaleAP (proxyRegisterBundle "A" "p" false) "A:p" "FALSE"
    (by decide) (by decide) (Or.inr ⟨77, by decide, by decide⟩)

/-- The method `CheckRemotePort` reads only the registry its bundle selects. -/
theorem checkRemotePort_congr (E : ErrorCodes) (pm : PkgMgr) (s s2 : Service)
    (check : Bundle) (t : String) (hT : bundle_get_val check TRUSTED_REMOTE = some t)
    (hSame : selectedTable s t = selectedTable s2 t) :
    CheckRemotePort E pm s check = CheckRemotePort E pm s2 check := by
  unfold CheckRemotePort
  cases hK : GetKey check false with
  | none => rfl
  | some key =>
    simp only [hT]
    by_cases ht : isTRUE t = true
    · have h : s.pTrustedPorts = s2.pTrustedPorts := by
        simpa [selectedTable, ht] using hSame
      simp only [ht, if_true, h]
    · have hf : isTRUE t = false := by simpa using ht
      have h : s.pPorts = s2.pPorts := by
        simpa [selectedTable, ht] using hSame
      simp [hf, h]

/-- C10: the trusted and the untrusted registry are independent.  A `RegisterPort`
frame (carrying `LOCAL_APPID`, `LOCAL_PORT`, `TRUSTED_LOCAL`) is answered and leaves
the registry it does not select exactly as it was; a `CheckRemotePort` gives the
same answer on two brokers that agree on the registry it selects, whatever the
other registry holds; and the same key can be bound in both registries at once to
different owners: on a broker where client 1234 owns the untrusted `A:p`, client 77
registers the trusted `A:p` and both bindings stand. -/
theorem registries_are_independent (E : ErrorCodes) (pm : PkgMgr)
    (SendResponse : Int → Bundle → Bundle → Int) (cur : Option ClientInfo)
    (s s2 : Service) (buffer check : Bundle) (key trusted t : String)
    (hK : GetKey buffer true = some key)
    (hT : bundle_get_val buffer TRUSTED_LOCAL = some trusted)
    (hTR : bundle_get_val check TRUSTED_REMOTE = some t)
    (hSame : selectedTable s t = selectedTable s2 t) :
    (∃ o, OnIpcRequestReceived E pm SendResponse cur s (Request.registerPort buffer)
        = some o ∧ otherTable o.service trusted = otherTable s trusted) ∧
    CheckRemotePort E pm s check = CheckRemotePort E pm s2 check ∧
    RegisterMessagePort sampleCodes ⟨[("A:p", 1234)], []⟩ 77
        (proxyRegisterBundle "A" "p" true) =
      some (0, ⟨[("A:p", 1234)], [("A:p", 77)]⟩) := by
  refine ⟨?_, checkRemotePort_congr E pm s s2 check t hTR hSame, by decide⟩
  by_cases hL : g_hash_table_lookup (selectedTable s trusted) key = some (GetClientId cur)
  · refine ⟨⟨E.IO_ERROR, s, []⟩, ?_, rfl⟩
    simp [OnIpcRequestReceived, OnRegisterMessagePort,
      register_same_owner E s (GetClientId cur) buffer key trusted hK hT hL]
  · have hR := register_fresh_or_stale E s (GetClientId cur) buffer key trusted hK hT hL
    have hO : OnIpcRequestReceived E pm SendResponse cur s (Request.registerPort buffer) =
        some ⟨E.NONE,
          if isTRUE trusted then
            ⟨s.pPorts, g_hash_table_insert s.pTrustedPorts key (GetClientId cur)⟩
          else ⟨g_hash_table_insert s.pPorts key (GetClientId cur), s.pTrustedPorts⟩,
          []⟩ := by
      simp only [OnIpcRequestReceived, OnRegisterMessagePort, hR]
    exact ⟨_, hO, otherTable_after_register s trusted key (GetClientId cur)⟩

/-- Witness for `registries_are_independent`: client 1234 registers the trusted port
`A:p` on a broker that holds the untrusted `A:p`, and an untrusted check of `A:p`
on two brokers that differ in the trusted registry only. -/
theorem registries_are_independent_witness :
    (∃ o, OnIpcRequestReceived sampleCodes samplePkgMgr sampleSendResponse
          (some sampleClientA) sampleStaleAP
          (Request.registerPort (proxyRegisterBundle "A" "p" true)) = some o ∧
        otherTable o.service "TRUE" = otherTable sampleStaleAP "TRUE") ∧
    CheckRemotePort sampleCodes samplePkgMgr sampleStaleAP
        (proxyCheckRemoteBundle "A" "p" false) =
      CheckRemotePort sampleCodes samplePkgMgr ⟨[("A:p", 77), ("B:r", 5)], []⟩
        (proxyCheckRemoteBundle "A" "p" false) ∧
    RegisterMessagePort sampleCodes ⟨[("A:p", 1234)], []⟩ 77
        (proxyRegisterBundle "A" "p" true) =
      some (0, ⟨[("A:p", 1234)], [("A:p", 77)]⟩) :=
  registries_are_independent sampleCodes samplePkgMgr sampleSendResponse
    (some sampleClientA) sampleStaleAP ⟨[("A:p", 77), ("B:r", 5)], []⟩
    (proxyRegisterBundle "A" "p" true) (proxyCheckRemoteBundle "A" "p" false)
    "A:p" "TRUE" "FALSE" (by decide) (by decide) (by decide) (by decide)

/-! ## The proxy: identifiers of local ports -/

/-- C11 (defect in the code): a proxy registers the untrusted port `p` (identifier
1) and the trusted port `p` (identifier 2), then registers the trusted port `p`
again.  The re-registration succeeds and returns 1, the identifier of the untrusted
port, because `IsLocalPortRegisted` searches `__ids` in its trusted branch; for that
identifier `GetLocalPortNameN` gives `p` but `CheckTrustedLocalPort` writes `false`,
not the flag `true` that was passed. -/
theorem reregistered_trusted_port_reports_untrusted :
    Proxy.registerSeq sampleCodes sampleSendRequest (ProxyState.fresh "A")
        [("p", false, some 1), ("p", true, some 2)] = some (sampleProxyPP 2, [1, 2]) ∧
    Proxy.RegisterMessagePort sampleCodes sampleSendRequest (sampleProxyPP 2) "p" true
        (some 3) = some (1, sampleProxyPP 3, []) ∧
    Proxy.GetLocalPortNameN (sampleProxyPP 3) 1 = (some "p", sampleProxyPP 3) ∧
    Proxy.CheckTrustedLocalPort (sampleProxyPP 3) 1 = (0, some false) := by
  decide

/-- C12 (defect in the code): on a proxy that holds the untrusted port `p`
(identifier 1), `RegisterMessagePort("p", trusted, cb2)` returns 2 and the later
`RegisterMessagePort("p", trusted, cb3)` returns 1: the two calls do not return the
same identifier.  On a proxy that holds the trusted port `p` only, the second
registration walks past the end of `__ids` and has no defined result. -/
theorem reregistered_trusted_port_changes_identifier :
    Proxy.RegisterMessagePort sampleCodes sampleSendRequest sampleProxyP "p" true (some 2)
      = some (2, sampleProxyPP 2,
          [ProxyRequest.registerPort (proxyRegisterBundle "A" "p" true)]) ∧
    Proxy.RegisterMessagePort sampleCodes sampleSendRequest (sampleProxyPP 2) "p" true
        (some 3) = some (1, sampleProxyPP 3, []) ∧
    Proxy.registerSeq sampleCodes sampleSendRequest (ProxyState.fresh "A")
        [("p", true, some 1)] = some (sampleProxyTrustedP, [1]) ∧
    Proxy.RegisterMessagePort sampleCodes sampleSendRequest sampleProxyTrustedP "p" true
        (some 2) = none := by
  decide

/-- What a `RegisterMessagePort` call that returns does to the counter and the
identifier tables: it leaves them alone (re-registration, failed send), or it mints
`count + 1` and binds it to the name in the table of the chosen namespace. -/
theorem register_id_tables (E : ErrorCodes) (SendRequest : ProxyRequest → Int × Int)
    (p p2 : ProxyState) (name : String) (t : Bool) (cb : Option Nat) (r : Int)
    (sent : List ProxyRequest)
    (h : Proxy.RegisterMessagePort E SendRequest p name t cb = some (r, p2, sent)) :
    (p2.count = p.count ∧ p2.ids = p.ids ∧ p2.trustedIds = p.trustedIds) ∨
    (r = p.count + 1 ∧ p2.count = p.count + 1 ∧
      ((t = false ∧ p2.ids = stdMapAssign p.ids r name ∧ p2.trustedIds = p.trustedIds) ∨
        (t = true ∧ p2.trustedIds = stdMapAssign p.trustedIds r name ∧ p2.ids = p.ids))) := by
  unfold Proxy.RegisterMessagePort at h
  cases hreg : Proxy.IsLocalPortRegisted p name t with
  | none => simp [hreg] at h
  | some res =>
    obtain ⟨found, id⟩ := res
    cases found with
    | true =>
      cases t with
      | false =>
        simp only [hreg, Bool.not_false, if_true, Option.some.injEq, Prod.mk.injEq] at h
        obtain ⟨_, hp, _⟩ := h
        subst hp
        exact Or.inl ⟨rfl, rfl, rfl⟩
      | true =>
        simp only [hreg, Bool.not_true, Bool.false_eq_true, if_false, Option.some.injEq,
          Prod.mk.injEq] at h
        obtain ⟨_, hp, _⟩ := h
        subst hp
        exact Or.inl ⟨rfl, rfl, rfl⟩
    | false =>
      simp only [hreg] at h
      by_cases hs : (SendRequest (ProxyRequest.registerPort
          (proxyRegisterBundle p.appId name t))).1 = 0
      · by_cases hc : p.count < 2147483647
        · cases t with
          | false =>
            simp [hs, Proxy.GetNextId, hc] at h
            obtain ⟨hr, hp, _⟩ := h
            subst hp
            exact Or.inr ⟨hr.symm, rfl, Or.inl ⟨rfl, by rw [← hr], rfl⟩⟩
          | true =>
            simp [hs, Proxy.GetNextId, hc] at h
            obtain ⟨hr, hp, _⟩ := h
            subst hp
            exact Or.inr ⟨hr.symm, rfl, Or.inr ⟨rfl, by rw [← hr], rfl⟩⟩
        · simp [hs, Proxy.GetNextId, hc] at h
      · simp [hs] at h
        obtain ⟨_, hp, _⟩ := h
        subst hp
        exact Or.inl ⟨rfl, rfl, rfl⟩

/-- C13 (defect in the code): on a fresh proxy `GetLocalPortNameN(1)` misses in both
tables, compares the iterator of `__trustedIds` with `__ids.end()` and so reads
`__trustedIds[1]`, which inserts identifier 1 there.  The first registration then
mints identifier 1 for the untrusted port `p`, and identifier 1 occurs in both the
untrusted and the trusted id table. -/
theorem identifier_in_both_id_tables :
    (Proxy.GetLocalPortNameN (ProxyState.fresh "A") 1).1 = some "" ∧
    (Proxy.GetLocalPortNameN (ProxyState.fresh "A") 1).2.trustedIds = [(1, "")] ∧
    (Proxy.RegisterMessagePort sampleCodes sampleSendRequest
        (Proxy.GetLocalPortNameN (ProxyState.fresh "A") 1).2 "p" false (some 1)).map
      (fun r => (r.1, r.2.1.ids, r.2.1.trustedIds)) = some (1, [(1, "p")], [(1, "")]) := by
  decide

/-! ## The proxy: size limit -/

/-- C14: for every bundle handed to `SendMessageInternal`, an encoded length above
8192 makes the call return `MAX_EXCEEDED` with no request sent; an encoded length of
at most 8192 (8192 included) makes it send exactly one `SendMessage` request with
that bundle and return from the transport status (0, or `IO_ERROR` on a failed
send). -/
theorem send_internal_size_limit (E : ErrorCodes) (SendRequest : ProxyRequest → Int × Int)
    (bundle_encode_len : Bundle → Int) (buffer : Bundle) :
    (8192 < bundle_encode_len buffer →
      Proxy.SendMessageInternal E SendRequest bundle_encode_len buffer
        = (E.MAX_EXCEEDED, [])) ∧
    (bundle_encode_len buffer ≤ 8192 →
      Proxy.SendMessageInternal E SendRequest bundle_encode_len buffer
        = (if (SendRequest (ProxyRequest.sendMessage buffer)).1 ≠ 0 then E.IO_ERROR else 0,
            [ProxyRequest.sendMessage buffer])) := by
  constructor
  · intro h
    have h2 : bundle_encode_len buffer > MAX_MESSAGE_SIZE := by
      simpa [MAX_MESSAGE_SIZE] using h
    simp [Proxy.SendMessageInternal, h2]
  · intro h
    have h2 : ¬ bundle_encode_len buffer > MAX_MESSAGE_SIZE := by
      simpa [MAX_MESSAGE_SIZE] using h
    simp only [Proxy.SendMessageInternal, h2, if_false]
    split <;> rfl

/-- Witness for `send_internal_size_limit`: an encoder that reports 8192 for the
bundle at hand and a transport that succeeds. -/
theorem send_internal_size_limit_witness :
    Proxy.SendMessageInternal sampleCodes sampleSendRequest (fun _ => 8192)
        [("k", "hello")] = (0, [ProxyRequest.sendMessage [("k", "hello")]]) ∧
    Proxy.SendMessageInternal sampleCodes sampleSendRequest (fun _ => 8193)
        [("k", "hello")] = (sampleCodes.MAX_EXCEEDED, []) :=
  ⟨((send_internal_size_limit sampleCodes sampleSendRequest (fun _ => 8192)
      [("k", "hello")]).2 (by decide)).trans (by decide),
   (send_internal_size_limit sampleCodes sampleSendRequest (fun _ => 8193)
      [("k", "hello")]).1 (by decide)⟩

/-! ## The proxy: what the caller gets back -/

/-- C15 (counterexample): every request reaches the broker, yet the proxy does not
hand the broker's code on.  A `CheckRemotePort` whose reply carries
`CERTIFICATE_NOT_MATCH` (-5) returns `IO_ERROR` (-1); a `SendMessage` whose reply
carries `MESSAGEPORT_NOT_FOUND` (-4) returns 0; a `RegisterMessagePort` whose reply
carries `IO_ERROR` (-1) returns the new identifier 1. -/
theorem proxy_does_not_return_broker_code :
    (Proxy.CheckRemotePort sampleCodes samplePackageManager (replyWith (-5))
      (ProxyState.fresh "B") "R" "q" false).result = -1 ∧
    (Proxy.SendMessage sampleCodes samplePackageManager (replyWith (-4)) sampleEncodeLen
      (ProxyState.fresh "B") "R" "q" false [("k", "hello")]).result = 0 ∧
    (Proxy.RegisterMessagePort sampleCodes (replyWith (-1)) (ProxyState.fresh "B") "q" false
      (some 1)).map (fun r => r.1) = some 1 := by
  decide

/-- C15 (amended): for the proxy operation `CheckRemotePort`, whenever the request is
sent, the transport succeeds and the broker's reply carries a negative code `r`:
the request was sent once; if `r` is `MESSAGEPORT_NOT_FOUND` the operation returns 0
and writes `false` to `*exist`; for every other `r` it returns `IO_ERROR` and
leaves `*exist` alone. -/
theorem check_remote_port_reply_mapping (E : ErrorCodes) (pkg : PackageManager)
    (SendRequest : ProxyRequest → Int × Int) (p : ProxyState)
    (remoteAppId remotePort : String) (isTrusted : Bool)
    (hPre : (Proxy.PreCheck E pkg p.appId remoteAppId isTrusted).1 = none)
    (hT : 0 ≤ (SendRequest (ProxyRequest.checkRemotePort
      (proxyCheckRemoteBundle remoteAppId remotePort isTrusted))).1)
    (hR : (SendRequest (ProxyRequest.checkRemotePort
      (proxyCheckRemoteBundle remoteAppId remotePort isTrusted))).2 < 0) :
    (Proxy.CheckRemotePort E pkg SendRequest p remoteAppId remotePort isTrusted).sent =
      [ProxyRequest.checkRemotePort
        (proxyCheckRemoteBundle remoteAppId remotePort isTrusted)] ∧
    ((SendRequest (ProxyRequest.checkRemotePort
        (proxyCheckRemoteBundle remoteAppId remotePort isTrusted))).2
        = E.MESSAGEPORT_NOT_FOUND →
      (Proxy.CheckRemotePort E pkg SendRequest p remoteAppId remotePort isTrusted).result
          = 0 ∧
        (Proxy.CheckRemotePort E pkg SendRequest p remoteAppId remotePort isTrusted).exist
          = some false) ∧
    ((SendRequest (ProxyRequest.checkRemotePort
        (proxyCheckRemoteBundle remoteAppId remotePort isTrusted))).2
        ≠ E.MESSAGEPORT_NOT_FOUND →
      (Proxy.CheckRemotePort E pkg SendRequest p remoteAppId remotePort isTrusted).result
          = E.IO_ERROR ∧
        (Proxy.CheckRemotePort E pkg SendRequest p remoteAppId remotePort isTrusted).exist
          = none) := by
  have hT2 : ¬ (SendRequest (ProxyRequest.checkRemotePort
      (proxyCheckRemoteBundle remoteAppId remotePort isTrusted))).1 < 0 := not_lt.mpr hT
  refine ⟨?_, ?_, ?_⟩
  · simp only [Proxy.CheckRemotePort, hPre, hT2, hR, if_true, if_false]
    split <;> rfl
  · intro h
    have hR2 : E.MESSAGEPORT_NOT_FOUND < 0 := by rw [← h]; exact hR
    simp [Proxy.CheckRemotePort, hPre, hT2, h, hR2]
  · intro h
    simp [Proxy.CheckRemotePort, hPre, hT2, hR, h]

/-- Witness for `check_remote_port_reply_mapping`: an untrusted check whose reply
carries `MESSAGEPORT_NOT_FOUND`. -/
theorem check_remote_port_reply_mapping_witness :
    (Proxy.CheckRemotePort sampleCodes samplePackageManager (replyWith (-4))
        (ProxyState.fresh "B") "R" "q" false).sent =
      [ProxyRequest.checkRemotePort (proxyCheckRemoteBundle "R" "q" false)] ∧
    ((replyWith (-4) (ProxyRequest.checkRemotePort
        (proxyCheckRemoteBundle "R" "q" false))).2 = sampleCodes.MESSAGEPORT_NOT_FOUND →
      (Proxy.CheckRemotePort sampleCodes samplePackageManager (replyWith (-4))
          (ProxyState.fresh "B") "R" "q" false).result = 0 ∧
        (Proxy.CheckRemotePort sampleCodes samplePackageManager (replyWith (-4))
          (ProxyState.fresh "B") "R" "q" false).exist = some false) ∧
    ((replyWith (-4) (ProxyRequest.checkRemotePort
        (proxyCheckRemoteBundle "R" "q" false))).2 ≠ sampleCodes.MESSAGEPORT_NOT_FOUND →
      (Proxy.CheckRemotePort sampleCodes samplePackageManager (replyWith (-4))
          (ProxyState.fresh "B") "R" "q" false).result = sampleCodes.IO_ERROR ∧
        (Proxy.CheckRemotePort sampleCodes samplePackageManager (replyWith (-4))
          (ProxyState.fresh "B") "R" "q" false).exist = none) :=
  check_remote_port_reply_mapping sampleCodes samplePackageManager (replyWith (-4))
    (ProxyState.fresh "B") "R" "q" false (by decide) (by decide) (by decide)

/-! ## The proxy: client-side pre-check -/

theorem proxy_isPreloaded_eq (pkg : PackageManager) (appId remoteAppId : String) :
    (Proxy.IsPreloaded pkg appId remoteAppId).1 =
      (pkg.isPreload appId && pkg.isPreload remoteAppId) := by
  unfold Proxy.IsPreloaded PackageManager.isPreload
  by_cases h1 : (pkg.is_preload_package_by_app_id appId).1 = 0
  · by_cases h2 : (pkg.is_preload_package_by_app_id remoteAppId).1 = 0
    · simp [h1, h2]
    · simp [h1, h2]
  · simp [h1]

/-- The pre-check of an untrusted operation asks nothing and lets it through. -/
theorem preCheck_untrusted (E : ErrorCodes) (pkg : PackageManager)
    (appId remoteAppId : String) :
    Proxy.PreCheck E pkg appId remoteAppId false = (none, []) := by
  simp [Proxy.PreCheck]

/-- The pre-check of a trusted operation stops on a certificate mismatch. -/
theorem preCheck_mismatch (E : ErrorCodes) (hE : E.Valid) (pkg : PackageManager)
    (appId remoteAppId : String)
    (hNP : ¬ (pkg.isPreload appId = true ∧ pkg.isPreload remoteAppId = true))
    (hS : (pkg.compare_app_cert_info appId remoteAppId).1 = 0)
    (hM : (pkg.compare_app_cert_info appId remoteAppId).2 ≠ PackageCompare.MATCH) :
    (Proxy.PreCheck E pkg appId remoteAppId true).1 = some E.CERTIFICATE_NOT_MATCH := by
  have hc : E.CERTIFICATE_NOT_MATCH < 0 := hE.2.2.2.2.2.1
  have hP : (Proxy.IsPreloaded pkg appId remoteAppId).1 = false := by
    rw [proxy_isPreloaded_eq]
    cases h1 : pkg.isPreload appId <;> cases h2 : pkg.isPreload remoteAppId <;> simp_all
  have hC : (Proxy.CheckCertificate E pkg appId remoteAppId).1 = E.CERTIFICATE_NOT_MATCH := by
    simp [Proxy.CheckCertificate, hS, hM]
  simp [Proxy.PreCheck, hP, hC, hc]

/-- C16: for both `SendMessage` variants with `trustedMessage = true`, when the
local and the remote application are not both preloaded and the local certificate
comparison succeeds with a result other than `MATCH`, the call returns
`CERTIFICATE_NOT_MATCH`, sends no request and leaves the caller's bundle as it was;
with `trustedMessage = false` neither variant makes any package-manager query. -/
theorem send_precheck_mismatch (E : ErrorCodes) (hE : E.Valid) (pkg : PackageManager)
    (SendRequest : ProxyRequest → Int × Int) (bundle_encode_len : Bundle → Int)
    (p : ProxyState) (localPort : String) (trustedPort : Bool)
    (remoteAppId remotePort : String) (data : Bundle)
    (hNP : ¬ (pkg.isPreload p.appId = true ∧ pkg.isPreload remoteAppId = true))
    (hS : (pkg.compare_app_cert_info p.appId remoteAppId).1 = 0)
    (hM : (pkg.compare_app_cert_info p.appId remoteAppId).2 ≠ PackageCompare.MATCH) :
    ((Proxy.SendMessage E pkg SendRequest bundle_encode_len p remoteAppId remotePort true
        data).result = E.CERTIFICATE_NOT_MATCH ∧
      (Proxy.SendMessage E pkg SendRequest bundle_encode_len p remoteAppId remotePort true
        data).sent = [] ∧
      (Proxy.SendMessage E pkg SendRequest bundle_encode_len p remoteAppId remotePort true
        data).data = data) ∧
    ((Proxy.SendMessageBidir E pkg SendRequest bundle_encode_len p localPort trustedPort
        remoteAppId remotePort true data).result = E.CERTIFICATE_NOT_MATCH ∧
      (Proxy.SendMessageBidir E pkg SendRequest bundle_encode_len p localPort trustedPort
        remoteAppId remotePort true data).sent = [] ∧
      (Proxy.SendMessageBidir E pkg SendRequest bundle_encode_len p localPort trustedPort
        remoteAppId remotePort true data).data = data) ∧
    (Proxy.SendMessage E pkg SendRequest bundle_encode_len p remoteAppId remotePort false
      data).queries = [] ∧
    (Proxy.SendMessageBidir E pkg SendRequest bundle_encode_len p localPort trustedPort
      remoteAppId remotePort false data).queries = [] := by
  have h := preCheck_mismatch E hE pkg p.appId remoteAppId hNP hS hM
  have hu := preCheck_untrusted E pkg p.appId remoteAppId
  refine ⟨?_, ?_, ?_, ?_⟩
  · simp [Proxy.SendMessage, h]
  · simp [Proxy.SendMessageBidir, h]
  · simp [Proxy.SendMessage, hu]
  · simp [Proxy.SendMessageBidir, hu]

/-- Witness for `send_precheck_mismatch`: application `B` sends to `R`; neither is
preloaded and their certificates differ. -/
theorem send_precheck_mismatch_witness :
    ((Proxy.SendMessage sampleCodes samplePackageManager sampleSendRequest sampleEncodeLen
        (ProxyState.fresh "B") "R" "q" true [("k", "hello")]).result
          = sampleCodes.CERTIFICATE_NOT_MATCH ∧
      (Proxy.SendMessage sampleCodes samplePackageManager sampleSendRequest sampleEncodeLen
        (ProxyState.fresh "B") "R" "q" true [("k", "hello")]).sent = [] ∧
      (Proxy.SendMessage sampleCodes samplePackageManager sampleSendRequest sampleEncodeLen
        (ProxyState.fresh "B") "R" "q" true [("k", "hello")]).data = [("k", "hello")]) ∧
    ((Proxy.SendMessageBidir sampleCodes samplePackageManager sampleSendRequest
        sampleEncodeLen (ProxyState.fresh "B") "r" false "R" "q" true
        [("k", "hello")]).result = sampleCodes.CERTIFICATE_NOT_MATCH ∧
      (Proxy.SendMessageBidir sampleCodes samplePackageManager sampleSendRequest
        sampleEncodeLen (ProxyState.fresh "B") "r" false "R" "q" true
        [("k", "hello")]).sent = [] ∧
      (Proxy.SendMessageBidir sampleCodes samplePackageManager sampleSendRequest
        sampleEncodeLen (ProxyState.fresh "B") "r" false "R" "q" true
        [("k", "hello")]).data = [("k", "hello")]) ∧
    (Proxy.SendMessage sampleCodes samplePackageManager sampleSendRequest sampleEncodeLen
      (ProxyState.fresh "B") "R" "q" false [("k", "hello")]).queries = [] ∧
    (Proxy.SendMessageBidir sampleCodes samplePackageManager sampleSendRequest
      sampleEncodeLen (ProxyState.fresh "B") "r" false "R" "q" false
      [("k", "hello")]).queries = [] :=
  send_precheck_mismatch sampleCodes (by decide) samplePackageManager sampleSendRequest
    sampleEncodeLen (ProxyState.fresh "B") "r" false "R" "q" [("k", "hello")]
    (by decide) (by decide) (by decide)

/-! ## Lemmas on bundles -/

theorem get_none_iff (b : Bundle) (key : String) :
    bundle_get_val b key = none ↔ ∀ e ∈ b, e.1 ≠ key := by
  induction b with
  | nil => simp [bundle_get_val]
  | cons e rest ih =>
    obtain ⟨k, v⟩ := e
    by_cases hk : k = key
    · simp [bundle_get_val, hk]
    · simp [bundle_get_val, hk, ih]

theorem get_append_none (b c : Bundle) (key : String) (h : bundle_get_val b key = none) :
    bundle_get_val (b ++ c) key = bundle_get_val c key := by
  induction b with
  | nil => rfl
  | cons e rest ih =>
    obtain ⟨k, v⟩ := e
    by_cases hk : k = key
    · simp [bundle_get_val, hk] at h
    · simp only [bundle_get_val, hk, if_false] at h
      simp only [List.cons_append, bundle_get_val, hk, if_false]
      exact ih h

theorem bundle_add_absent (b : Bundle) (key val : String)
    (h : bundle_get_val b key = none) : bundle_add b key val = b ++ [(key, val)] := by
  simp [bundle_add, h]

theorem bundle_del_absent (b : Bundle) (key : String) (h : bundle_get_val b key = none) :
    bundle_del b key = b := by
  rw [get_none_iff] at h
  unfold bundle_del
  rw [List.filter_eq_self]
  intro e he
  simpa using h e he

theorem bundle_del_append (b c : Bundle) (key : String) :
    bundle_del (b ++ c) key = bundle_del b key ++ bundle_del c key := by
  simp [bundle_del]

theorem mem_del_iff (b : Bundle) (key : String) (e : String × String) :
    e ∈ bundle_del b key ↔ e ∈ b ∧ e.1 ≠ key := by
  simp [bundle_del, List.mem_filter]

theorem get_del_self (b : Bundle) (key : String) :
    bundle_get_val (bundle_del b key) key = none := by
  rw [get_none_iff]
  intro e he
  exact ((mem_del_iff b key e).mp he).2

theorem get_del_ne (b : Bundle) (key other : String) (h : other ≠ key) :
    bundle_get_val (bundle_del b key) other = bundle_get_val b other := by
  induction b with
  | nil => rfl
  | cons e rest ih =>
    obtain ⟨k, v⟩ := e
    by_cases hk : k = key
    · have hko : ¬ k = other := fun hko => h (hko ▸ hk)
      have : bundle_del ((k, v) :: rest) key = bundle_del rest key := by
        simp [bundle_del, List.filter, hk]
      rw [this, ih]
      simp [bundle_get_val, hko]
    · have : bundle_del ((k, v) :: rest) key = (k, v) :: bundle_del rest key := by
        simp [bundle_del, List.filter, hk]
      rw [this]
      by_cases hko : k = other
      · simp [bundle_get_val, hko]
      · simp [bundle_get_val, hko, ih]

/-! ## Merging and stripping the system keys -/

theorem mem_stripDestination (b : Bundle) (e : String × String) :
    e ∈ stripDestination b ↔
      e ∈ b ∧ e.1 ≠ REMOTE_APPID ∧ e.1 ≠ REMOTE_PORT ∧ e.1 ≠ TRUSTED_MESSAGE ∧
        e.1 ≠ MESSAGE_TYPE := by
  simp only [stripDestination, mem_del_iff]
  tauto

theorem mem_stripSource (b : Bundle) (e : String × String) :
    e ∈ stripSource b ↔
      e ∈ b ∧ e.1 ≠ LOCAL_APPID ∧ e.1 ≠ LOCAL_PORT ∧ e.1 ≠ TRUSTED_LOCAL := by
  simp only [stripSource, mem_del_iff]
  tauto

theorem get_stripDestination (b : Bundle) (key : String) :
    bundle_get_val (stripDestination b) key =
      if key = REMOTE_APPID ∨ key = REMOTE_PORT ∨ key = TRUSTED_MESSAGE ∨ key = MESSAGE_TYPE
      then none else bundle_get_val b key := by
  by_cases h : key = REMOTE_APPID ∨ key = REMOTE_PORT ∨ key = TRUSTED_MESSAGE ∨
      key = MESSAGE_TYPE
  · rw [if_pos h, get_none_iff]
    intro e he
    rw [mem_stripDestination] at he
    rcases h with h | h | h | h
    · rw [h]; exact he.2.1
    · rw [h]; exact he.2.2.1
    · rw [h]; exact he.2.2.2.1
    · rw [h]; exact he.2.2.2.2
  · rw [if_neg h]
    push_neg at h
    simp only [stripDestination]
    rw [get_del_ne _ _ _ h.2.2.2, get_del_ne _ _ _ h.2.2.1, get_del_ne _ _ _ h.2.1,
      get_del_ne _ _ _ h.1]

theorem get_stripSource (b : Bundle) (key : String) :
    bundle_get_val (stripSource b) key =
      if key = LOCAL_APPID ∨ key = LOCAL_PORT ∨ key = TRUSTED_LOCAL
      then none else bundle_get_val b key := by
  by_cases h : key = LOCAL_APPID ∨ key = LOCAL_PORT ∨ key = TRUSTED_LOCAL
  · rw [if_pos h, get_none_iff]
    intro e he
    rw [mem_stripSource] at he
    rcases h with h | h | h
    · rw [h]; exact he.2.1
    · rw [h]; exact he.2.2.1
    · rw [h]; exact he.2.2.2
  · rw [if_neg h]
    push_neg at h
    simp only [stripSource]
    rw [get_del_ne _ _ _ h.2.2, get_del_ne _ _ _ h.2.1, get_del_ne _ _ _ h.1]

theorem stripDestination_absent (b : Bundle)
    (h1 : bundle_get_val b REMOTE_APPID = none) (h2 : bundle_get_val b REMOTE_PORT = none)
    (h3 : bundle_get_val b TRUSTED_MESSAGE = none)
    (h4 : bundle_get_val b MESSAGE_TYPE = none) : stripDestination b = b := by
  unfold stripDestination
  rw [bundle_del_absent b _ h1, bundle_del_absent b _ h2, bundle_del_absent b _ h3,
    bundle_del_absent b _ h4]

theorem stripSource_absent (b : Bundle)
    (h1 : bundle_get_val b LOCAL_APPID = none) (h2 : bundle_get_val b LOCAL_PORT = none)
    (h3 : bundle_get_val b TRUSTED_LOCAL = none) : stripSource b = b := by
  unfold stripSource
  rw [bundle_del_absent b _ h1, bundle_del_absent b _ h2, bundle_del_absent b _ h3]

theorem stripDestination_append (b c : Bundle) :
    stripDestination (b ++ c) = stripDestination b ++ stripDestination c := by
  simp [stripDestination, bundle_del_append]

theorem stripSource_append (b c : Bundle) :
    stripSource (b ++ c) = stripSource b ++ stripSource c := by
  simp [stripSource, bundle_del_append]

/-- Adding a key that neither part of a bundle holds appends it. -/
theorem bundle_add_append (b extras : Bundle) (key val : String)
    (h1 : bundle_get_val b key = none) (h2 : bundle_get_val extras key = none) :
    bundle_add (b ++ extras) key val = b ++ (extras ++ [(key, val)]) := by
  rw [bundle_add_absent, List.append_assoc]
  rw [get_append_none b extras key h1]
  exact h2

/-- The unidirectional merge on a payload without destination keys. -/
theorem proxySendBundle_clean (remoteAppId remotePort : String) (trustedMessage : Bool)
    (data : Bundle) (h1 : bundle_get_val data MESSAGE_TYPE = none)
    (h2 : bundle_get_val data REMOTE_APPID = none)
    (h3 : bundle_get_val data REMOTE_PORT = none)
    (h4 : bundle_get_val data TRUSTED_MESSAGE = none) :
    proxySendBundle remoteAppId remotePort trustedMessage data =
      data ++ [(MESSAGE_TYPE, "UNI-DIR"), (REMOTE_APPID, remoteAppId),
        (REMOTE_PORT, remotePort), (TRUSTED_MESSAGE, flagString trustedMessage)] := by
  have e1 : bundle_add data MESSAGE_TYPE "UNI-DIR" = data ++ [(MESSAGE_TYPE, "UNI-DIR")] :=
    bundle_add_absent data _ _ h1
  have e2 := bundle_add_append data [(MESSAGE_TYPE, "UNI-DIR")] REMOTE_APPID remoteAppId h2
    (by decide)
  have e3 := bundle_add_append data [(MESSAGE_TYPE, "UNI-DIR"), (REMOTE_APPID, remoteAppId)]
    REMOTE_PORT remotePort h3 (by simp [bundle_get_val, MESSAGE_TYPE, REMOTE_APPID, REMOTE_PORT])
  have e4 : ∀ v, bundle_add (data ++ [(MESSAGE_TYPE, "UNI-DIR"), (REMOTE_APPID, remoteAppId),
      (REMOTE_PORT, remotePort)]) TRUSTED_MESSAGE v =
      data ++ ([(MESSAGE_TYPE, "UNI-DIR"), (REMOTE_APPID, remoteAppId),
        (REMOTE_PORT, remotePort)] ++ [(TRUSTED_MESSAGE, v)]) := fun v =>
    bundle_add_append data _ TRUSTED_MESSAGE v h4
      (by simp [bundle_get_val, MESSAGE_TYPE, REMOTE_APPID, REMOTE_PORT, TRUSTED_MESSAGE])
  unfold proxySendBundle
  simp only [e1, e2, e3, List.singleton_append, List.cons_append, List.nil_append]
  cases trustedMessage <;> simp [e4, flagString]

/-- The bidirectional merge on a payload without system keys. -/
theorem proxySendBundleBidir_clean (appId localPort : String) (trustedPort : Bool)
    (remoteAppId remotePort : String) (trustedMessage : Bool) (data : Bundle)
    (h : ∀ k ∈ systemKeys, bundle_get_val data k = none) :
    proxySendBundleBidir appId localPort trustedPort remoteAppId remotePort trustedMessage
        data =
      data ++ [(MESSAGE_TYPE, "BI-DIR"), (LOCAL_APPID, appId), (LOCAL_PORT, localPort),
        (TRUSTED_LOCAL, flagString trustedPort), (REMOTE_APPID, remoteAppId),
        (REMOTE_PORT, remotePort), (TRUSTED_MESSAGE, flagString trustedMessage)] := by
  have h1 : bundle_get_val data MESSAGE_TYPE = none := h _ (by simp [systemKeys])
  have h2 : bundle_get_val data LOCAL_APPID = none := h _ (by simp [systemKeys])
  have h3 : bundle_get_val data LOCAL_PORT = none := h _ (by simp [systemKeys])
  have h4 : bundle_get_val data TRUSTED_LOCAL = none := h _ (by simp [systemKeys])
  have h5 : bundle_get_val data REMOTE_APPID = none := h _ (by simp [systemKeys])
  have h6 : bundle_get_val data REMOTE_PORT = none := h _ (by simp [systemKeys])
  have h7 : bundle_get_val data TRUSTED_MESSAGE = none := h _ (by simp [systemKeys])
  have e1 : bundle_add data MESSAGE_TYPE "BI-DIR" = data ++ [(MESSAGE_TYPE, "BI-DIR")] :=
    bundle_add_absent data _ _ h1
  have e2 := bundle_add_append data [(MESSAGE_TYPE, "BI-DIR")] LOCAL_APPID appId h2
    (by decide)
  have e3 := bundle_add_append data [(MESSAGE_TYPE, "BI-DIR"), (LOCAL_APPID, appId)]
    LOCAL_PORT localPort h3 (by simp [bundle_get_val, MESSAGE_TYPE, LOCAL_APPID, LOCAL_PORT])
  have e4 : ∀ v, bundle_add (data ++ [(MESSAGE_TYPE, "BI-DIR"), (LOCAL_APPID, appId),
      (LOCAL_PORT, localPort)]) TRUSTED_LOCAL v =
      data ++ ([(MESSAGE_TYPE, "BI-DIR"), (LOCAL_APPID, appId), (LOCAL_PORT, localPort)]
        ++ [(TRUSTED_LOCAL, v)]) := fun v =>
    bundle_add_append data _ TRUSTED_LOCAL v h4
      (by simp [bundle_get_val, MESSAGE_TYPE, LOCAL_APPID, LOCAL_PORT, TRUSTED_LOCAL])
  have e5 : ∀ v, bundle_add (data ++ [(MESSAGE_TYPE, "BI-DIR"), (LOCAL_APPID, appId),
      (LOCAL_PORT, localPort), (TRUSTED_LOCAL, v)]) REMOTE_APPID remoteAppId =
      data ++ ([(MESSAGE_TYPE, "BI-DIR"), (LOCAL_APPID, appId), (LOCAL_PORT, localPort),
        (TRUSTED_LOCAL, v)] ++ [(REMOTE_APPID, remoteAppId)]) := fun v =>
    bundle_add_append data _ REMOTE_APPID remoteAppId h5
      (by simp [bundle_get_val, MESSAGE_TYPE, LOCAL_APPID, LOCAL_PORT, TRUSTED_LOCAL,
        REMOTE_APPID])
  have e6 : ∀ v, bundle_add (data ++ [(MESSAGE_TYPE, "BI-DIR"), (LOCAL_APPID, appId),
      (LOCAL_PORT, localPort), (TRUSTED_LOCAL, v), (REMOTE_APPID, remoteAppId)])
      REMOTE_PORT remotePort =
      data ++ ([(MESSAGE_TYPE, "BI-DIR"), (LOCAL_APPID, appId), (LOCAL_PORT, localPort),
        (TRUSTED_LOCAL, v), (REMOTE_APPID, remoteAppId)] ++ [(REMOTE_PORT, remotePort)]) :=
    fun v => bundle_add_append data _ REMOTE_PORT remotePort h6
      (by simp [bundle_get_val, MESSAGE_TYPE, LOCAL_APPID, LOCAL_PORT, TRUSTED_LOCAL,
        REMOTE_APPID, REMOTE_PORT])
  have e7 : ∀ v w, bundle_add (data ++ [(MESSAGE_TYPE, "BI-DIR"), (LOCAL_APPID, appId),
      (LOCAL_PORT, localPort), (TRUSTED_LOCAL, v), (REMOTE_APPID, remoteAppId),
      (REMOTE_PORT, remotePort)]) TRUSTED_MESSAGE w =
      data ++ ([(MESSAGE_TYPE, "BI-DIR"), (LOCAL_APPID, appId), (LOCAL_PORT, localPort),
        (TRUSTED_LOCAL, v), (REMOTE_APPID, remoteAppId), (REMOTE_PORT, remotePort)]
        ++ [(TRUSTED_MESSAGE, w)]) :=
    fun v w => bundle_add_append data _ TRUSTED_MESSAGE w h7
      (by simp [bundle_get_val, MESSAGE_TYPE, LOCAL_APPID, LOCAL_PORT, TRUSTED_LOCAL,
        REMOTE_APPID, REMOTE_PORT, TRUSTED_MESSAGE])
  unfold proxySendBundleBidir
  simp only [e1, e2, e3, List.singleton_append, List.cons_append, List.nil_append]
  cases trustedPort <;> cases trustedMessage <;> simp [e4, e5, e6, e7, flagString]

/-! ## Inbound delivery -/

/-- A delivery of type `UNI-DIR` to a port with a callback. -/
theorem onSend_uni (p : ProxyState) (buffer : Bundle) (port tm : String) (cb : Nat)
    (id : Int) (hP : bundle_get_val buffer REMOTE_PORT = some port)
    (hT : bundle_get_val buffer TRUSTED_MESSAGE = some tm)
    (hM : bundle_get_val buffer MESSAGE_TYPE = some "UNI-DIR")
    (hC : stdMapFind (Proxy.selectedListeners p tm) port = some (some cb))
    (hI : stdMapFind (Proxy.selectedIdFromString p tm) port = some id) :
    Proxy.OnSendMessageInternal p buffer =
      some (p, stripDestination buffer,
        [⟨cb, id, none, none, false, stripDestination buffer⟩]) := by
  unfold Proxy.OnSendMessageInternal
  simp only [hP, hT, hM]
  by_cases htm : tm = "FALSE"
  · simp only [Proxy.selectedListeners, Proxy.selectedIdFromString, htm, if_true] at hC hI
    simp [htm, stdMapIndex, hC, hI]
  · simp only [Proxy.selectedListeners, Proxy.selectedIdFromString, htm, if_false] at hC hI
    simp [htm, stdMapIndex, hC, hI]

/-- A delivery of a type other than `UNI-DIR` to a port with a callback. -/
theorem onSend_bidir (p : ProxyState) (buffer : Bundle) (port tm mt : String) (cb : Nat)
    (id : Int) (la lp tl : String)
    (hP : bundle_get_val buffer REMOTE_PORT = some port)
    (hT : bundle_get_val buffer TRUSTED_MESSAGE = some tm)
    (hM : bundle_get_val buffer MESSAGE_TYPE = some mt) (hmt : mt ≠ "UNI-DIR")
    (hC : stdMapFind (Proxy.selectedListeners p tm) port = some (some cb))
    (hI : stdMapFind (Proxy.selectedIdFromString p tm) port = some id)
    (hLA : bundle_get_val buffer LOCAL_APPID = some la)
    (hLP : bundle_get_val buffer LOCAL_PORT = some lp)
    (hTL : bundle_get_val buffer TRUSTED_LOCAL = some tl) :
    Proxy.OnSendMessageInternal p buffer =
      some (p, stripSource (stripDestination buffer),
        [⟨cb, id, some la, some lp, decide (tl = "TRUE"),
          stripSource (stripDestination buffer)⟩]) := by
  have g1 : bundle_get_val (stripDestination buffer) LOCAL_APPID = some la := by
    rw [get_stripDestination, if_neg (by decide), hLA]
  have g2 : bundle_get_val (stripDestination buffer) LOCAL_PORT = some lp := by
    rw [get_stripDestination, if_neg (by decide), hLP]
  have g3 : bundle_get_val (stripDestination buffer) TRUSTED_LOCAL = some tl := by
    rw [get_stripDestination, if_neg (by decide), hTL]
  unfold Proxy.OnSendMessageInternal
  simp only [hP, hT, hM]
  by_cases htm : tm = "FALSE"
  · simp only [Proxy.selectedListeners, Proxy.selectedIdFromString, htm, if_true] at hC hI
    simp [htm, stdMapIndex, hC, hI, hmt, g1, g2, g3]
  · simp only [Proxy.selectedListeners, Proxy.selectedIdFromString, htm, if_false] at hC hI
    simp [htm, stdMapIndex, hC, hI, hmt, g1, g2, g3]

theorem stripDestination_eq_filter (b : Bundle) :
    stripDestination b = b.filter (fun e =>
      decide (e.1 ∉ [REMOTE_APPID, REMOTE_PORT, TRUSTED_MESSAGE, MESSAGE_TYPE])) := by
  simp only [stripDestination, bundle_del, List.filter_filter]
  apply List.filter_congr
  intro e _
  by_cases h1 : e.1 = REMOTE_APPID <;> by_cases h2 : e.1 = REMOTE_PORT <;>
    by_cases h3 : e.1 = TRUSTED_MESSAGE <;> by_cases h4 : e.1 = MESSAGE_TYPE <;>
    simp [h1, h2, h3, h4]

theorem stripSource_stripDestination_eq_filter (b : Bundle) :
    stripSource (stripDestination b) = b.filter (fun e => decide (e.1 ∉ systemKeys)) := by
  simp only [stripSource, stripDestination, bundle_del, List.filter_filter, systemKeys]
  apply List.filter_congr
  intro e _
  by_cases h1 : e.1 = REMOTE_APPID <;> by_cases h2 : e.1 = REMOTE_PORT <;>
    by_cases h3 : e.1 = TRUSTED_MESSAGE <;> by_cases h4 : e.1 = MESSAGE_TYPE <;>
    by_cases h5 : e.1 = LOCAL_APPID <;> by_cases h6 : e.1 = LOCAL_PORT <;>
    by_cases h7 : e.1 = TRUSTED_LOCAL <;>
    simp [h1, h2, h3, h4, h5, h6, h7]

/-- C17 (defect in the code): `bundle_add` leaves a key that is already present as
it is, and `SendMessage` does not look at its result.  A unidirectional send to
`R:q` of a payload that carries `REMOTE_APPID = X` puts `REMOTE_APPID = X` into the
frame, and a bidirectional send with `trustedMessage = true` of a payload that
carries `MESSAGE_TYPE = UNI-DIR` and `TRUSTED_MESSAGE = FALSE` puts those two values
into the frame. -/
theorem payload_system_key_survives_merge :
    (Proxy.SendMessage sampleCodes samplePackageManager sampleSendRequest sampleEncodeLen
        (ProxyState.fresh "B") "R" "q" false [("REMOTE_APPID", "X")]).sent =
      [ProxyRequest.sendMessage [("REMOTE_APPID", "X"), ("MESSAGE_TYPE", "UNI-DIR"),
        ("REMOTE_PORT", "q"), ("TRUSTED_MESSAGE", "FALSE")]] ∧
    (Proxy.SendMessageBidir sampleCodes samplePackageManager sampleSendRequest
        sampleEncodeLen (ProxyState.fresh "A") "r" false "R" "q" true
        [("MESSAGE_TYPE", "UNI-DIR"), ("TRUSTED_MESSAGE", "FALSE")]).sent =
      [ProxyRequest.sendMessage [("MESSAGE_TYPE", "UNI-DIR"), ("TRUSTED_MESSAGE", "FALSE"),
        ("LOCAL_APPID", "A"), ("LOCAL_PORT", "r"), ("TRUSTED_LOCAL", "FALSE"),
        ("REMOTE_APPID", "R"), ("REMOTE_PORT", "q")]] := by
  decide

/-- C18: for every inbound bundle with `MESSAGE_TYPE = "UNI-DIR"` whose
`REMOTE_PORT` has a callback in the callback table selected by `TRUSTED_MESSAGE`
and an identifier in that namespace's name table, the proxy invokes exactly that
callback, once, with that identifier, NULL remote application, NULL remote port,
the flag `false`, and the bundle from which exactly the entries of `REMOTE_APPID`,
`REMOTE_PORT`, `TRUSTED_MESSAGE` and `MESSAGE_TYPE` have been removed; the tables of
the proxy stay as they were. -/
theorem deliver_unidirectional (p : ProxyState) (buffer : Bundle) (port tm : String)
    (cb : Nat) (id : Int) (hP : bundle_get_val buffer REMOTE_PORT = some port)
    (hT : bundle_get_val buffer TRUSTED_MESSAGE = some tm)
    (hM : bundle_get_val buffer MESSAGE_TYPE = some "UNI-DIR")
    (hC : stdMapFind (Proxy.selectedListeners p tm) port = some (some cb))
    (hI : stdMapFind (Proxy.selectedIdFromString p tm) port = some id) :
    ∃ data, Proxy.OnSendMessageInternal p buffer =
        some (p, data, [⟨cb, id, none, none, false, data⟩]) ∧
      data = buffer.filter (fun e =>
        decide (e.1 ∉ [REMOTE_APPID, REMOTE_PORT, TRUSTED_MESSAGE, MESSAGE_TYPE])) ∧
      (∀ k ∈ [REMOTE_APPID, REMOTE_PORT, TRUSTED_MESSAGE, MESSAGE_TYPE],
        bundle_get_val data k = none) ∧
      (∀ k, k ∉ [REMOTE_APPID, REMOTE_PORT, TRUSTED_MESSAGE, MESSAGE_TYPE] →
        bundle_get_val data k = bundle_get_val buffer k) := by
  refine ⟨stripDestination buffer, onSend_uni p buffer port tm cb id hP hT hM hC hI,
    stripDestination_eq_filter buffer, ?_, ?_⟩
  · intro k hk
    rw [get_stripDestination, if_pos]
    simpa using hk
  · intro k hk
    rw [get_stripDestination, if_neg]
    simpa using hk

/-- Witness for `deliver_unidirectional`: the frame of scenario 1 arrives at the proxy
that registered the untrusted port `p`. -/
theorem deliver_unidirectional_witness :
    ∃ data, Proxy.OnSendMessageInternal sampleProxyP
          (proxySendBundle "A" "p" false [("k", "hello")]) =
        some (sampleProxyP, data, [⟨1, 1, none, none, false, data⟩]) ∧
      data = (proxySendBundle "A" "p" false [("k", "hello")]).filter (fun e =>
        decide (e.1 ∉ [REMOTE_APPID, REMOTE_PORT, TRUSTED_MESSAGE, MESSAGE_TYPE])) ∧
      (∀ k ∈ [REMOTE_APPID, REMOTE_PORT, TRUSTED_MESSAGE, MESSAGE_TYPE],
        bundle_get_val data k = none) ∧
      (∀ k, k ∉ [REMOTE_APPID, REMOTE_PORT, TRUSTED_MESSAGE, MESSAGE_TYPE] →
        bundle_get_val data k =
          bundle_get_val (proxySendBundle "A" "p" false [("k", "hello")]) k) :=
  deliver_unidirectional sampleProxyP (proxySendBundle "A" "p" false [("k", "hello")])
    "p" "FALSE" 1 1 (by decide) (by decide) (by decide) (by decide) (by decide)

/-- C19: for every inbound bundle with `MESSAGE_TYPE = "BI-DIR"` that carries
`LOCAL_APPID`, `LOCAL_PORT` and `TRUSTED_LOCAL` and whose `REMOTE_PORT` has a
callback in the callback table selected by `TRUSTED_MESSAGE` and an identifier in
that namespace's name table, the proxy invokes that callback once with that
identifier, the bundle's `LOCAL_APPID`, its `LOCAL_PORT`, the boolean
`TRUSTED_LOCAL == "TRUE"`, and the bundle from which exactly the entries of the
seven system keys have been removed. -/
theorem deliver_bidirectional (p : ProxyState) (buffer : Bundle) (port tm : String)
    (cb : Nat) (id : Int) (la lp tl : String)
    (hP : bundle_get_val buffer REMOTE_PORT = some port)
    (hT : bundle_get_val buffer TRUSTED_MESSAGE = some tm)
    (hM : bundle_get_val buffer MESSAGE_TYPE = some "BI-DIR")
    (hC : stdMapFind (Proxy.selectedListeners p tm) port = some (some cb))
    (hI : stdMapFind (Proxy.selectedIdFromString p tm) port = some id)
    (hLA : bundle_get_val buffer LOCAL_APPID = some la)
    (hLP : bundle_get_val buffer LOCAL_PORT = some lp)
    (hTL : bundle_get_val buffer TRUSTED_LOCAL = some tl) :
    ∃ data, Proxy.OnSendMessageInternal p buffer =
        some (p, data, [⟨cb, id, some la, some lp, decide (tl = "TRUE"), data⟩]) ∧
      data = buffer.filter (fun e => decide (e.1 ∉ systemKeys)) ∧
      (∀ k ∈ systemKeys, bundle_get_val data k = none) ∧
      (∀ k, k ∉ systemKeys → bundle_get_val data k = bundle_get_val buffer k) := by
  refine ⟨stripSource (stripDestination buffer),
    onSend_bidir p buffer port tm "BI-DIR" cb id la lp tl hP hT hM (by decide) hC hI
      hLA hLP hTL,
    stripSource_stripDestination_eq_filter buffer, ?_, ?_⟩
  · intro k hk
    simp only [systemKeys, List.mem_cons, List.mem_singleton, List.not_mem_nil,
      or_false] at hk
    rw [get_stripSource, get_stripDestination]
    rcases hk with h | h | h | h | h | h | h <;> simp [h]
  · intro k hk
    simp only [systemKeys, List.mem_cons, List.mem_singleton, List.not_mem_nil,
      or_false, not_or] at hk
    rw [get_stripSource, get_stripDestination]
    simp [hk]

/-- Witness for `deliver_bidirectional`: the frame of scenario 2 (sender `B`, local
port `q`, trusted) arrives at the proxy that registered the trusted port `p`. -/
theorem deliver_bidirectional_witness :
    ∃ data, Proxy.OnSendMessageInternal (sampleProxyPP 2)
          (proxySendBundleBidir "B" "q" true "A" "p" true [("k", "hello")]) =
        some (sampleProxyPP 2, data,
          [⟨2, 2, some "B", some "q", decide ("TRUE" = "TRUE"), data⟩]) ∧
      data = (proxySendBundleBidir "B" "q" true "A" "p" true [("k", "hello")]).filter
        (fun e => decide (e.1 ∉ systemKeys)) ∧
      (∀ k ∈ systemKeys, bundle_get_val data k = none) ∧
      (∀ k, k ∉ systemKeys → bundle_get_val data k =
        bundle_get_val (proxySendBundleBidir "B" "q" true "A" "p" true [("k", "hello")]) k) :=
  deliver_bidirectional (sampleProxyPP 2)
    (proxySendBundleBidir "B" "q" true "A" "p" true [("k", "hello")]) "p" "TRUE" 2 2
    "B" "q" "TRUE" (by decide) (by decide) (by decide) (by decide) (by decide)
    (by decide) (by decide) (by decide)

/-! ## Round trip of the envelope -/

theorem selected_of_flag (p : ProxyState) (flag : Bool) :
    Proxy.selectedListeners p (flagString flag) =
        (if flag then p.trustedListeners else p.listeners) ∧
      Proxy.selectedIdFromString p (flagString flag) =
        (if flag then p.trustedIdFromString else p.idFromString) := by
  cases flag
  · exact ⟨by simp [Proxy.selectedListeners, flagString],
      by simp [Proxy.selectedIdFromString, flagString]⟩
  · have h : ¬ ("TRUE" = "FALSE") := by decide
    exact ⟨by simp [Proxy.selectedListeners, flagString, h],
      by simp [Proxy.selectedIdFromString, flagString, h]⟩

/-- C20: for every payload that contains none of the system keys and every
receiving proxy that holds a callback and an identifier for the destination port in
the namespace of `trustedMessage`, the bundle the sending proxy's merge produces,
handed to the receiver's `OnSendMessageInternal`, reaches that callback as a bundle
equal to the payload, for the unidirectional and for the bidirectional variant
(which also passes on the sender's application, local port and trust flag). -/
theorem envelope_round_trip (p : ProxyState) (payload : Bundle) (appId localPort : String)
    (trustedPort : Bool) (remoteAppId remotePort : String) (trustedMessage : Bool)
    (cb : Nat) (id : Int)
    (hNo : ∀ k ∈ systemKeys, bundle_get_val payload k = none)
    (hC : stdMapFind (if trustedMessage then p.trustedListeners else p.listeners)
      remotePort = some (some cb))
    (hI : stdMapFind (if trustedMessage then p.trustedIdFromString else p.idFromString)
      remotePort = some id) :
    Proxy.OnSendMessageInternal p
        (proxySendBundle remoteAppId remotePort trustedMessage payload) =
      some (p, payload, [⟨cb, id, none, none, false, payload⟩]) ∧
    Proxy.OnSendMessageInternal p
        (proxySendBundleBidir appId localPort trustedPort remoteAppId remotePort
          trustedMessage payload) =
      some (p, payload, [⟨cb, id, some appId, some localPort, trustedPort, payload⟩]) := by
  have h1 : bundle_get_val payload MESSAGE_TYPE = none := hNo _ (by simp [systemKeys])
  have h2 : bundle_get_val payload LOCAL_APPID = none := hNo _ (by simp [systemKeys])
  have h3 : bundle_get_val payload LOCAL_PORT = none := hNo _ (by simp [systemKeys])
  have h4 : bundle_get_val payload TRUSTED_LOCAL = none := hNo _ (by simp [systemKeys])
  have h5 : bundle_get_val payload REMOTE_APPID = none := hNo _ (by simp [systemKeys])
  have h6 : bundle_get_val payload REMOTE_PORT = none := hNo _ (by simp [systemKeys])
  have h7 : bundle_get_val payload TRUSTED_MESSAGE = none := hNo _ (by simp [systemKeys])
  have hsel := selected_of_flag p trustedMessage
  have hC2 : stdMapFind (Proxy.selectedListeners p (flagString trustedMessage)) remotePort
      = some (some cb) := by rw [hsel.1]; exact hC
  have hI2 : stdMapFind (Proxy.selectedIdFromString p (flagString trustedMessage))
      remotePort = some id := by rw [hsel.2]; exact hI
  have hd : stripDestination payload = payload := stripDestination_absent payload h5 h6 h7 h1
  have hs : stripSource payload = payload := stripSource_absent payload h2 h3 h4
  constructor
  · have hU := proxySendBundle_clean remoteAppId remotePort trustedMessage payload h1 h5 h6 h7
    have hr := onSend_uni p (proxySendBundle remoteAppId remotePort trustedMessage payload)
      remotePort (flagString trustedMessage) cb id
      (by rw [hU, get_append_none _ _ _ h6]
          simp [bundle_get_val, MESSAGE_TYPE, REMOTE_APPID, REMOTE_PORT])
      (by rw [hU, get_append_none _ _ _ h7]
          simp [bundle_get_val, MESSAGE_TYPE, REMOTE_APPID, REMOTE_PORT, TRUSTED_MESSAGE])
      (by rw [hU, get_append_none _ _ _ h1]
          simp [bundle_get_val])
      hC2 hI2
    have hstrip : stripDestination
        (proxySendBundle remoteAppId remotePort trustedMessage payload) = payload := by
      rw [hU, stripDestination_append, hd]
      simp [stripDestination, bundle_del, MESSAGE_TYPE, REMOTE_APPID, REMOTE_PORT,
        TRUSTED_MESSAGE]
    rw [hr, hstrip]
  · have hB := proxySendBundleBidir_clean appId localPort trustedPort remoteAppId remotePort
      trustedMessage payload hNo
    have hr := onSend_bidir p
      (proxySendBundleBidir appId localPort trustedPort remoteAppId remotePort
        trustedMessage payload)
      remotePort (flagString trustedMessage) "BI-DIR" cb id appId localPort
      (flagString trustedPort)
      (by rw [hB, get_append_none _ _ _ h6]
          simp [bundle_get_val, MESSAGE_TYPE, LOCAL_APPID, LOCAL_PORT, TRUSTED_LOCAL,
            REMOTE_APPID, REMOTE_PORT])
      (by rw [hB, get_append_none _ _ _ h7]
          simp [bundle_get_val, MESSAGE_TYPE, LOCAL_APPID, LOCAL_PORT, TRUSTED_LOCAL,
            REMOTE_APPID, REMOTE_PORT, TRUSTED_MESSAGE])
      (by rw [hB, get_append_none _ _ _ h1]
          simp [bundle_get_val])
      (by decide) hC2 hI2
      (by rw [hB, get_append_none _ _ _ h2]
          simp [bundle_get_val, MESSAGE_TYPE, LOCAL_APPID])
      (by rw [hB, get_append_none _ _ _ h3]
          simp [bundle_get_val, MESSAGE_TYPE, LOCAL_APPID, LOCAL_PORT])
      (by rw [hB, get_append_none _ _ _ h4]
          simp [bundle_get_val, MESSAGE_TYPE, LOCAL_APPID, LOCAL_PORT, TRUSTED_LOCAL])
    have hstrip : stripSource (stripDestination
        (proxySendBundleBidir appId localPort trustedPort remoteAppId remotePort
          trustedMessage payload)) = payload := by
      rw [hB, stripDestination_append, stripSource_append, hd, hs]
      simp [stripSource, stripDestination, bundle_del, MESSAGE_TYPE, LOCAL_APPID,
        LOCAL_PORT, TRUSTED_LOCAL, REMOTE_APPID, REMOTE_PORT, TRUSTED_MESSAGE]
    have hflag : decide (flagString trustedPort = "TRUE") = trustedPort := by
      cases trustedPort <;> decide
    rw [hr, hstrip, hflag]

/-- Witness for `envelope_round_trip`: the payload `{k: hello}` sent to the port `p`
that the receiving proxy registered in both namespaces, as a trusted message. -/
theorem envelope_round_trip_witness :
    Proxy.OnSendMessageInternal (sampleProxyPP 2)
        (proxySendBundle "A" "p" true [("k", "hello")]) =
      some (sampleProxyPP 2, [("k", "hello")],
        [⟨2, 2, none, none, false, [("k", "hello")]⟩]) ∧
    Proxy.OnSendMessageInternal (sampleProxyPP 2)
        (proxySendBundleBidir "B" "q" true "A" "p" true [("k", "hello")]) =
      some (sampleProxyPP 2, [("k", "hello")],
        [⟨2, 2, some "B", some "q", true, [("k", "hello")]⟩]) :=
  envelope_round_trip (sampleProxyPP 2) [("k", "hello")] "B" "q" true "A" "p" true 2 2
    (by decide) (by decide) (by decide)

/-! ## Deliveries without a callback -/

/-- C21 (defect in the code): the proxy of `A` has registered the untrusted port `p`
only.  A delivery for the port name `zz`, which has no callback in either namespace,
runs no callback and leaves the bundle as it was, but the reads `__listeners[zz]`
and `__idFromString[zz]` (for a trusted message the trusted pair of tables) insert
the name with a NULL callback and the identifier 0, so the port tables are not as
before the delivery. -/
theorem delivery_without_callback_grows_tables :
    stdMapFind sampleProxyP.listeners "zz" = none ∧
    stdMapFind sampleProxyP.trustedListeners "zz" = none ∧
    Proxy.OnSendMessageInternal sampleProxyP
        (proxySendBundle "A" "zz" false [("k", "hello")]) =
      some ({ appId := "A", listeners := [("p", some 1), ("zz", none)],
              trustedListeners := [], idFromString := [("p", 1), ("zz", 0)],
              trustedIdFromString := [], ids := [(1, "p")], trustedIds := [], count := 1 },
        proxySendBundle "A" "zz" false [("k", "hello")], []) ∧
    Proxy.OnSendMessageInternal sampleProxyP
        (proxySendBundle "A" "zz" true [("k", "hello")]) =
      some ({ appId := "A", listeners := [("p", some 1)],
              trustedListeners := [("zz", none)], idFromString := [("p", 1)],
              trustedIdFromString := [("zz", 0)], ids := [(1, "p")], trustedIds := [],
              count := 1 },
        proxySendBundle "A" "zz" true [("k", "hello")], []) ∧
    sampleProxyP.listeners ≠ [("p", some 1), ("zz", none)] ∧
    sampleProxyP.trustedIdFromString ≠ [("zz", 0)] := by
  refine ⟨by decide, by decide, by decide, by decide, by decide, by decide⟩

/-! ## Disconnection and foreign entries -/

/-- C27 (defect in the code): client 77 registers the untrusted port `0` of
application `A`, so the registry holds the key `A:0` with owner 77.  When the
process 3160641, whose identifier has the bytes `41 3A 30 00`, disconnects,
`UnregisterMessagePort(3160641)` removes that entry although its owner is 77; in the
same way the disconnection of process 14913 (bytes `41 3A 00 00`) removes the key
`A:` from both registries whoever owns it.  The callback compares the key, not the
owner, with the bytes of the client identifier. -/
theorem disconnect_removes_entry_of_other_owner (stackAfter : List Nat) :
    RegisterMessagePort sampleCodes ⟨[], []⟩ 77 (proxyRegisterBundle "A" "0" false) =
      some (0, ⟨[("A:0", 77)], []⟩) ∧
    UnregisterMessagePort sampleCodes ⟨[("A:0", 77), ("B:q", 5)], []⟩ 3160641 stackAfter =
      (0, ⟨[("B:q", 5)], []⟩) ∧
    UnregisterMessagePort sampleCodes ⟨[("A:", 77), ("B:q", 5)], [("A:", 78)]⟩ 14913
      stackAfter = (0, ⟨[("B:q", 5)], []⟩) := by
  have hb : intBytes 3160641 = [65, 58, 48, 0] := by decide
  have hc : cstr (intBytes 3160641 ++ stackAfter) = [65, 58, 48] := by
    rw [hb]
    show cstr (65 :: 58 :: 48 :: 0 :: stackAfter) = [65, 58, 48]
    rw [cstr_cons_zero _ _ (by decide), cstr_cons_zero _ _ (by decide),
      cstr_cons_zero _ _ (by decide), cstr_zero]
  have hb2 : intBytes 14913 = [65, 58, 0, 0] := by decide
  have hc2 : cstr (intBytes 14913 ++ stackAfter) = [65, 58] := by
    rw [hb2]
    show cstr (65 :: 58 :: 0 :: (0 :: stackAfter)) = [65, 58]
    rw [cstr_cons_zero _ _ (by decide), cstr_cons_zero _ _ (by decide), cstr_zero]
  refine ⟨by decide, ?_, ?_⟩
  · simp only [UnregisterMessagePort, g_hash_table_foreach_remove, unregistermessageport, hc]
    decide
  · simp only [UnregisterMessagePort, g_hash_table_foreach_remove, unregistermessageport, hc2]
    decide

/-! ## The two readings of `TRUSTED_MESSAGE` -/

/-- C28 (defect in the code): application `B`, whose certificate does not match
that of `A`, calls the bidirectional `SendMessage` with `trustedMessage = false` and
a payload that already carries `TRUSTED_MESSAGE = "X"`; the merge keeps that value.
The broker reads it with `strncmp(.., "TRUE", 4)`: not trusted, so it resolves `A:p`
in the untrusted map and delivers without a trust check (a genuine trusted send of
`B` is refused with `CERTIFICATE_NOT_MATCH`).  The proxy of `A` reads the same value
with `compare("FALSE")`: not `"FALSE"`, so it runs the callback of the trusted port
`p`. -/
theorem untrusted_message_reaches_trusted_callback (buffer : Bundle) :
    (Proxy.SendMessageBidir sampleCodes samplePackageManager sampleSendRequest
        sampleEncodeLen (ProxyState.fresh "B") "q" false "A" "p" false
        [("TRUSTED_MESSAGE", "X")]).sent =
      [ProxyRequest.sendMessage
        (proxySendBundleBidir "B" "q" false "A" "p" false [("TRUSTED_MESSAGE", "X")])] ∧
    bundle_get_val (proxySendBundleBidir "B" "q" false "A" "p" false
        [("TRUSTED_MESSAGE", "X")]) TRUSTED_MESSAGE = some "X" ∧
    SendMessage sampleCodes samplePkgMgr sampleSendResponse
        ⟨[("A:p", 1234)], [("A:p", 1234)]⟩
        (proxySendBundleBidir "B" "q" false "A" "p" false [("TRUSTED_MESSAGE", "X")])
        buffer =
      some (0, [⟨1234,
        proxySendBundleBidir "B" "q" false "A" "p" false [("TRUSTED_MESSAGE", "X")],
        buffer⟩]) ∧
    SendMessage sampleCodes samplePkgMgr sampleSendResponse ⟨[("A:p", 1234)], []⟩
        (proxySendBundleBidir "B" "q" false "A" "p" false [("TRUSTED_MESSAGE", "X")])
        buffer =
      some (0, [⟨1234,
        proxySendBundleBidir "B" "q" false "A" "p" false [("TRUSTED_MESSAGE", "X")],
        buffer⟩]) ∧
    TrustCheck sampleCodes samplePkgMgr (some "B") (some "A") =
      sampleCodes.CERTIFICATE_NOT_MATCH ∧
    SendMessage sampleCodes samplePkgMgr sampleSendResponse
        ⟨[("A:p", 1234)], [("A:p", 1234)]⟩
        (proxySendBundleBidir "B" "q" false "A" "p" true []) buffer =
      some (sampleCodes.CERTIFICATE_NOT_MATCH, []) ∧
    Proxy.OnSendMessageInternal (sampleProxyPP 2)
        (proxySendBundleBidir "B" "q" false "A" "p" false [("TRUSTED_MESSAGE", "X")]) =
      some (sampleProxyPP 2, [], [⟨2, 2, some "B", some "q", false, []⟩]) ∧
    stdMapFind (sampleProxyPP 2).trustedListeners "p" = some (some 2) ∧
    stdMapFind (sampleProxyPP 2).listeners "p" = some (some 1) := by
  have hv : sampleCodes.Valid := by decide
  have hd : ∀ m : Bundle, deliveryResult sampleCodes sampleSendResponse 1234 m buffer = 0 := by
    intro m
    simp [deliveryResult, StubSendMessage, sampleSendResponse, sampleCodes]
  refine ⟨by decide, by decide, ?_, ?_, by decide, ?_, by decide, by decide, by decide⟩
  · rw [sendMessage_hit sampleCodes hv samplePkgMgr sampleSendResponse _ _ buffer "A:p" "X"
      1234 (by decide) (by decide) (by decide), hd]
    have hX : isTRUE "X" = false := by decide
    simp [hX]
  · rw [sendMessage_hit sampleCodes hv samplePkgMgr sampleSendResponse _ _ buffer "A:p" "X"
      1234 (by decide) (by decide) (by decide), hd]
    have hX : isTRUE "X" = false := by decide
    simp [hX]
  · rw [sendMessage_hit sampleCodes hv samplePkgMgr sampleSendResponse _ _ buffer "A:p"
      "TRUE" 1234 (by decide) (by decide) (by decide)]
    have hT : TrustCheck sampleCodes samplePkgMgr
        (bundle_get_val (proxySendBundleBidir "B" "q" false "A" "p" true []) LOCAL_APPID)
        (bundle_get_val (proxySendBundleBidir "B" "q" false "A" "p" true []) REMOTE_APPID)
        = sampleCodes.CERTIFICATE_NOT_MATCH := by decide
    have hX : isTRUE "TRUE" = true := by decide
    have hne : sampleCodes.CERTIFICATE_NOT_MATCH ≠ sampleCodes.NONE := by decide
    rw [hT, if_pos ⟨hX, hne⟩]

/-! ## The registry key -/

theorem colon_split (x y u v : List Char) (hx : ':' ∉ x) (hu : ':' ∉ u)
    (h : x ++ ':' :: y = u ++ ':' :: v) : x = u ∧ y = v := by
  induction x generalizing u with
  | nil =>
    cases u with
    | nil => simpa using h
    | cons c u =>
      simp only [List.nil_append, List.cons_append, List.cons.injEq] at h
      exact absurd h.1 (by intro hc; exact hu (by simp [← hc]))
  | cons a x ih =>
    cases u with
    | nil =>
      simp only [List.nil_append, List.cons_append, List.cons.injEq] at h
      exact absurd h.1 (by intro hc; exact hx (by simp [hc]))
    | cons c u =>
      simp only [List.cons_append, List.cons.injEq] at h
      have hx2 : ':' ∉ x := fun hm => hx (List.mem_cons_of_mem _ hm)
      have hu2 : ':' ∉ u := fun hm => hu (List.mem_cons_of_mem _ hm)
      obtain ⟨h1, h2⟩ := ih u hx2 hu2 h.2
      exact ⟨by rw [h.1, h1], h2⟩

/-- C29: for two bundles whose application identifiers contain no `:`, `GetKey`
(for the local as for the remote pair of keys) returns equal keys only if the
application identifiers are equal and the port names are equal. -/
theorem getKey_injective (b1 b2 : Bundle) (isLocal : Bool) (a1 p1 a2 p2 : String)
    (hA1 : bundle_get_val b1 (if isLocal then LOCAL_APPID else REMOTE_APPID) = some a1)
    (hP1 : bundle_get_val b1 (if isLocal then LOCAL_PORT else REMOTE_PORT) = some p1)
    (hA2 : bundle_get_val b2 (if isLocal then LOCAL_APPID else REMOTE_APPID) = some a2)
    (hP2 : bundle_get_val b2 (if isLocal then LOCAL_PORT else REMOTE_PORT) = some p2)
    (hN1 : ':' ∉ a1.data) (hN2 : ':' ∉ a2.data)
    (hEq : GetKey b1 isLocal = GetKey b2 isLocal) :
    GetKey b1 isLocal = some (a1 ++ ":" ++ p1) ∧ a1 = a2 ∧ p1 = p2 := by
  have h1 : GetKey b1 isLocal = some (a1 ++ ":" ++ p1) := by
    cases isLocal
    · simp only [Bool.false_eq_true, if_false] at hA1 hP1
      simp [GetKey, hA1, hP1]
    · simp only [if_true] at hA1 hP1
      simp [GetKey, hA1, hP1]
  have h2 : GetKey b2 isLocal = some (a2 ++ ":" ++ p2) := by
    cases isLocal
    · simp only [Bool.false_eq_true, if_false] at hA2 hP2
      simp [GetKey, hA2, hP2]
    · simp only [if_true] at hA2 hP2
      simp [GetKey, hA2, hP2]
  rw [h1, h2] at hEq
  have hk : a1 ++ ":" ++ p1 = a2 ++ ":" ++ p2 := Option.some.inj hEq
  have hd : a1.data ++ ':' :: p1.data = a2.data ++ ':' :: p2.data := by
    have := congrArg String.data hk
    simpa [String.data_append] using this
  obtain ⟨ha, hp⟩ := colon_split _ _ _ _ hN1 hN2 hd
  exact ⟨h1, String.ext ha, String.ext hp⟩

theorem getKey_injective_witness :
    GetKey (proxyRegisterBundle "A" "p" false) true = some ("A" ++ ":" ++ "p") ∧
      "A" = "A" ∧ "p" = "p" :=
  getKey_injective (proxyRegisterBundle "A" "p" false) (proxyRegisterBundle "A" "p" true)
    true "A" "p" "A" "p" (by decide) (by decide) (by decide) (by decide) (by decide)
    (by decide) (by decide)

/-! ## Identifiers bound in neither table -/

/-- C30 (defect in the code): on the proxy that has registered the untrusted port
`p` with identifier 1, the identifier 7 is bound in neither id table.
`CheckTrustedLocalPort(7)` returns 0, not `INVALID_PARAMETER`, and writes `true` to
`*trusted`; `GetLocalPortNameN(7)` returns the empty string, not NULL, and inserts
identifier 7 into `__trustedIds`.  Both methods compare the iterator returned by
`__trustedIds.find(id)` with `__ids.end()`. -/
theorem unbound_identifier_is_accepted :
    stdMapFind sampleProxyP.ids 7 = none ∧
    stdMapFind sampleProxyP.trustedIds 7 = none ∧
    Proxy.CheckTrustedLocalPort sampleProxyP 7 = (0, some true) ∧
    sampleCodes.INVALID_PARAMETER ≠ 0 ∧
    (Proxy.GetLocalPortNameN sampleProxyP 7).1 = some "" ∧
    (Proxy.GetLocalPortNameN sampleProxyP 7).2.ids = sampleProxyP.ids ∧
    (Proxy.GetLocalPortNameN sampleProxyP 7).2.trustedIds = [(7, "")] ∧
    sampleProxyP.trustedIds = [] := by
  refine ⟨by decide, by decide, by decide, by decide, by decide, by decide, by decide,
    by decide⟩

/-! ## Lemmas on `std::map` -/

theorem stdMapFind_assign_self {κ ν : Type} [DecidableEq κ] (m : List (κ × ν)) (k : κ)
    (v : ν) : stdMapFind (stdMapAssign m k v) k = some v := by
  induction m with
  | nil => simp [stdMapAssign, stdMapFind]
  | cons e m ih =>
    obtain ⟨k0, v0⟩ := e
    by_cases h : k0 = k
    · simp [stdMapAssign, stdMapFind, h]
    · simp [stdMapAssign, stdMapFind, h, ih]

theorem stdMapFind_assign_ne {κ ν : Type} [DecidableEq κ] (m : List (κ × ν)) (k k2 : κ)
    (v : ν) (h : k2 ≠ k) : stdMapFind (stdMapAssign m k v) k2 = stdMapFind m k2 := by
  induction m with
  | nil =>
    have h2 : ¬ k = k2 := fun e => h e.symm
    simp [stdMapAssign, stdMapFind, h2]
  | cons e m ih =>
    obtain ⟨k0, v0⟩ := e
    have hk : ¬ k = k2 := fun e => h e.symm
    by_cases h0 : k0 = k
    · subst h0
      simp [stdMapAssign, stdMapFind, hk]
    · by_cases h1 : k0 = k2
      · subst h1
        simp [stdMapAssign, stdMapFind, h0]
      · simp [stdMapAssign, stdMapFind, h0, h1, ih]

theorem stdMapFind_append_ne {κ ν : Type} [DecidableEq κ] (m : List (κ × ν)) (k k2 : κ)
    (d : ν) (h : k2 ≠ k) : stdMapFind (m ++ [(k, d)]) k2 = stdMapFind m k2 := by
  induction m with
  | nil =>
    have h2 : ¬ k = k2 := fun e => h e.symm
    simp [stdMapFind, h2]
  | cons e m ih =>
    obtain ⟨k0, v0⟩ := e
    by_cases h1 : k0 = k2
    · simp [stdMapFind, h1]
    · simp [stdMapFind, h1, ih]

theorem stdMapFind_index_ne {κ ν : Type} [DecidableEq κ] (m : List (κ × ν)) (k k2 : κ)
    (d : ν) (h : k2 ≠ k) : stdMapFind (stdMapIndex m k d).2 k2 = stdMapFind m k2 := by
  unfold stdMapIndex
  cases hf : stdMapFind m k with
  | none => exact stdMapFind_append_ne m k k2 d h
  | some v => rfl

/-! ## Lemmas on the IPC server -/

/-- The closing block on a channel of a client whose record is in `__clients`. -/
theorem closeChannel_eq (s : IpcServer) (c : Int) (ci : ClientInfo) (ch : Nat)
    (hC : stdMapFind s.clients c = some (some ci)) (hId : ci.clientId = c) :
    closeChannel s c ch =
      some (if ci.channels.erase ch = [] then
          (⟨stdMapAssign s.clients c none, s.pending⟩, [ServerEvent.clientDisconnected c])
        else
          (⟨stdMapAssign s.clients c
              (some ⟨ci.clientId, ci.pReverseChannel, ci.channels.erase ch, ci.appId⟩),
            s.pending⟩, [])) := by
  unfold closeChannel
  simp only [hC]
  by_cases h : ci.channels.erase ch = []
  · simp [h, hId]
  · simp [h]

/-- With a `FindNext` that advances and stays inside the range, the inner loop
returns. -/
theorem scanMessages_total (FindNext : List Nat → Option Nat)
    (hFN : ∀ r n, FindNext r = some n → 0 < n ∧ n ≤ r.length) :
    ∀ (fuel : Nat) (range : List Nat), range.length < fuel →
      ∃ r, scanMessages FindNext fuel range = some r := by
  intro fuel
  induction fuel with
  | zero => intro range h; exact absurd h (Nat.not_lt_zero _)
  | succ fuel ih =>
    intro range h
    cases hf : FindNext range with
    | none => exact ⟨([], range), by simp [scanMessages, hf]⟩
    | some n =>
      obtain ⟨h0, hn⟩ := hFN range n hf
      have hlen : (range.drop n).length < fuel := by
        rw [List.length_drop]
        omega
      obtain ⟨r, hr⟩ := ih (range.drop n) hlen
      have hg : ¬ (n = 0 ∨ range.length < n) := by omega
      exact ⟨(range.take n :: r.1, r.2), by simp [scanMessages, hf, hg, hr]⟩

/-- The read loop over successful non-empty reads followed by further outcomes: the
messages of the successful reads are dispatched, then the loop goes on with the
further outcomes on the same clients and some pending bytes. -/
theorem readLoop_normal_prefix (FindNext : List Nat → Option Nat)
    (hFN : ∀ r n, FindNext r = some n → 0 < n ∧ n ≤ r.length) (c cid : Int) (ch : Nat)
    (tail : List ReadResult) :
    ∀ (pre : List (List Nat)) (s : IpcServer), (∀ b ∈ pre, b ≠ []) →
      ∃ (pend : List Nat) (msgs : List (List Nat)),
        readLoop FindNext c cid ch s (pre.map ReadResult.normal ++ tail) =
          match readLoop FindNext c cid ch ⟨s.clients, pend⟩ tail with
          | none => none
          | some (r, s2, ev) =>
            some (r, s2, msgs.map (ServerEvent.requestReceived cid ch) ++ ev) := by
  intro pre
  induction pre with
  | nil =>
    intro s _
    refine ⟨s.pending, [], ?_⟩
    cases h : readLoop FindNext c cid ch s tail with
    | none => simp [h]
    | some r => simp [h]
  | cons b pre ih =>
    intro s hne
    have hb : b ≠ [] := hne b (List.mem_cons_self _ _)
    have hb2 : ¬ b.length = 0 := by
      intro h0
      exact hb (List.length_eq_zero.mp h0)
    obtain ⟨r1, hr1⟩ := scanMessages_total FindNext hFN
      ((if s.pending.isEmpty then b else s.pending ++ b).length + 1)
      (if s.pending.isEmpty then b else s.pending ++ b) (Nat.lt_succ_self _)
    obtain ⟨pend, msgs, hrest⟩ := ih ⟨s.clients, r1.2⟩
      (fun x hx => hne x (List.mem_cons_of_mem _ hx))
    refine ⟨pend, r1.1 ++ msgs, ?_⟩
    simp only [List.map_cons, List.cons_append, readLoop, hb2, if_false, hr1]
    rw [show (List.map ReadResult.normal pre).append tail =
      List.map ReadResult.normal pre ++ tail from rfl, hrest]
    cases h : readLoop FindNext c cid ch ⟨s.clients, pend⟩ tail with
    | none => simp
    | some r => simp

theorem disconnections_requests (cid : Int) (ch : Nat) (msgs : List (List Nat))
    (ev : List ServerEvent) :
    disconnections (msgs.map (ServerEvent.requestReceived cid ch) ++ ev) =
      disconnections ev := by
  induction msgs with
  | nil => rfl
  | cons m msgs ih => simpa [disconnections] using ih

/-- A hang-up, or an end-of-file or error after successful non-empty reads, on a
channel of a client whose record is in `__clients`: the handler returns FALSE; the
channel is erased from the record, or the record is replaced by NULL and
`OnIpcClientDisconnected` is called when no channel is left. -/
theorem handle_close (FindNext : List Nat → Option Nat)
    (hFN : ∀ r n, FindNext r = some n → 0 < n ∧ n ≤ r.length) (s : IpcServer) (c : Int)
    (ci : ClientInfo) (ch : Nat) (condition : IOCondition) (reads : List ReadResult)
    (pre : List (List Nat)) (closing : ReadResult) (tail : List ReadResult)
    (hC : stdMapFind s.clients c = some (some ci)) (hId : ci.clientId = c)
    (hTrig : condition.hup = true ∨
      (condition.hup = false ∧ condition.input = true ∧
        reads = pre.map ReadResult.normal ++ closing :: tail ∧ (∀ b ∈ pre, b ≠ []) ∧
        (closing = ReadResult.eof ∨ closing = ReadResult.error))) :
    ∃ (pend : List Nat) (msgs : List (List Nat)),
      HandleReceivedMessage FindNext s c ch condition reads =
        some (false,
          (if ci.channels.erase ch = [] then ⟨stdMapAssign s.clients c none, pend⟩
           else ⟨stdMapAssign s.clients c
              (some ⟨ci.clientId, ci.pReverseChannel, ci.channels.erase ch, ci.appId⟩),
              pend⟩),
          msgs.map (ServerEvent.requestReceived c ch) ++
            (if ci.channels.erase ch = [] then [ServerEvent.clientDisconnected c]
             else [])) := by
  rcases hTrig with hH | ⟨hH, hI, hR, hne, hcl⟩
  · refine ⟨s.pending, [], ?_⟩
    have hcc := closeChannel_eq s c ci ch hC hId
    unfold HandleReceivedMessage
    simp only [hC, hH, if_true, hcc]
    by_cases h : ci.channels.erase ch = []
    · simp [h]
    · simp [h]
  · obtain ⟨pend, msgs, hrun⟩ := readLoop_normal_prefix FindNext hFN c c ch (closing :: tail)
      pre s hne
    refine ⟨pend, msgs, ?_⟩
    have hC2 : stdMapFind (⟨s.clients, pend⟩ : IpcServer).clients c = some (some ci) := hC
    have hcc := closeChannel_eq ⟨s.clients, pend⟩ c ci ch hC2 hId
    have hlast : readLoop FindNext c c ch ⟨s.clients, pend⟩ (closing :: tail) =
        match closeChannel ⟨s.clients, pend⟩ c ch with
        | none => none
        | some (s2, ev) => some (false, s2, ev) := by
      rcases hcl with h | h
      · rw [h]; simp only [readLoop]
      · rw [h]; simp only [readLoop]
    unfold HandleReceivedMessage
    simp only [hC, hH, hI, if_true, hId, hR]
    rw [hrun, hlast, hcc]
    by_cases h : ci.channels.erase ch = []
    · simp [h]
    · simp [h, hId]

theorem sampleFindNext_advances (r : List Nat) (n : Nat) (h : sampleFindNext r = some n) :
    0 < n ∧ n ≤ r.length := by
  cases r with
  | nil => simp [sampleFindNext] at h
  | cons a rest =>
    simp only [sampleFindNext] at h
    split at h
    · rename_i hle
      have hn : a + 1 = n := Option.some.inj h
      simp only [List.length_cons]
      omega
    · exact absurd h (by simp)

theorem disconnections_requests_nil (cid : Int) (ch : Nat) (msgs : List (List Nat)) :
    disconnections (msgs.map (ServerEvent.requestReceived cid ch)) = [] := by
  have h := disconnections_requests cid ch msgs []
  simpa [disconnections] using h

theorem client_of_assign_self (m : List (Int × Option ClientInfo)) (pend : List Nat)
    (c : Int) (v : Option ClientInfo) :
    IpcServer.client ⟨stdMapAssign m c v, pend⟩ c = v := by
  unfold IpcServer.client
  simp only [stdMapFind_assign_self]
  cases v <;> rfl

/-! ## Closing a request channel -/

/-- C24: for every server state, every client `c` with a record and every request
channel `ch` of it, a hang-up on `ch`, or an end-of-file or error reported by a read
on `ch` (after any successful reads of the same call), makes the handler return
FALSE; one entry `ch` leaves the channel set of `c` (none stays if the set had no
duplicate) and the entry of every other client is untouched; if that empties the
set, `OnIpcClientDisconnected(c)` is called exactly once and the map holds no record
for `c`; otherwise it is not called and the record of `c` is the old one with the
remaining channels.  `FindNext` is assumed to advance inside the range it is
given. -/
theorem channel_close_cases (FindNext : List Nat → Option Nat)
    (hFN : ∀ r n, FindNext r = some n → 0 < n ∧ n ≤ r.length) (s : IpcServer) (c : Int)
    (ci : ClientInfo) (ch : Nat) (condition : IOCondition) (reads : List ReadResult)
    (pre : List (List Nat)) (closing : ReadResult) (tail : List ReadResult)
    (hC : stdMapFind s.clients c = some (some ci)) (hId : ci.clientId = c)
    (hCh : ch ∈ ci.channels)
    (hTrig : condition.hup = true ∨
      (condition.hup = false ∧ condition.input = true ∧
        reads = pre.map ReadResult.normal ++ closing :: tail ∧ (∀ b ∈ pre, b ≠ []) ∧
        (closing = ReadResult.eof ∨ closing = ReadResult.error))) :
    ∃ s2 ev, HandleReceivedMessage FindNext s c ch condition reads = some (false, s2, ev) ∧
      (∀ k, k ≠ c → stdMapFind s2.clients k = stdMapFind s.clients k) ∧
      (ci.channels.erase ch = [] → disconnections ev = [c] ∧ s2.client c = none) ∧
      (ci.channels.erase ch ≠ [] → disconnections ev = [] ∧
        s2.client c =
          some ⟨ci.clientId, ci.pReverseChannel, ci.channels.erase ch, ci.appId⟩) ∧
      (ci.channels.erase ch).length + 1 = ci.channels.length ∧
      (ci.channels.Nodup → ch ∉ ci.channels.erase ch) := by
  obtain ⟨pend, msgs, hrun⟩ := handle_close FindNext hFN s c ci ch condition reads pre
    closing tail hC hId hTrig
  refine ⟨_, _, hrun, ?_, ?_, ?_, ?_, ?_⟩
  · intro k hk
    by_cases h : ci.channels.erase ch = []
    · simp only [h, if_true]
      exact stdMapFind_assign_ne _ _ _ _ hk
    · simp only [h, if_false]
      exact stdMapFind_assign_ne _ _ _ _ hk
  · intro h
    simp only [h, if_true, disconnections_requests]
    exact ⟨rfl, client_of_assign_self _ _ _ _⟩
  · intro h
    simp only [h, if_false, disconnections_requests]
    exact ⟨rfl, client_of_assign_self _ _ _ _⟩
  · rw [List.length_erase_of_mem hCh]
    have hpos : 0 < ci.channels.length := List.length_pos_of_mem hCh
    omega
  · intro hn
    exact hn.not_mem_erase

theorem channel_close_cases_witness :
    ∃ s2 ev, HandleReceivedMessage sampleFindNext sampleServer 100 1 ⟨true, false⟩ [] =
        some (false, s2, ev) ∧
      (∀ k, k ≠ 100 → stdMapFind s2.clients k = stdMapFind sampleServer.clients k) ∧
      ([1].erase 1 = [] → disconnections ev = [100] ∧ s2.client 100 = none) ∧
      ([1].erase 1 ≠ [] → disconnections ev = [] ∧
        s2.client 100 = some ⟨100, some 11, [1].erase 1, "A"⟩) ∧
      ([1].erase 1).length + 1 = [1].length ∧
      ([1].Nodup → 1 ∉ [1].erase 1) :=
  channel_close_cases sampleFindNext sampleFindNext_advances sampleServer 100
    ⟨100, some 11, [1], "A"⟩ 1 ⟨true, false⟩ [] [] ReadResult.eof [] (by decide) (by decide)
    (by decide) (Or.inl (by decide))

/-! ## The end of a client -/

/-- C25 (the code differs): client 100 holds the request channel 1 and the reverse
channel 11.  A hang-up on channel 1 calls `OnIpcClientDisconnected(100)` and replaces
the record by NULL, although the client still holds its reverse channel. -/
theorem client_with_reverse_channel_is_destroyed :
    sampleServer.client 100 = some ⟨100, some 11, [1], "A"⟩ ∧
    HandleReceivedMessage sampleFindNext sampleServer 100 1 ⟨true, false⟩ [] =
      some (false, ⟨[(100, none), (200, some ⟨200, some 12, [2], "B"⟩)], []⟩,
        [ServerEvent.clientDisconnected 100]) ∧
    IpcServer.client ⟨[(100, none), (200, some ⟨200, some 12, [2], "B"⟩)], []⟩ 100 = none := by
  refine ⟨by decide, by decide, by decide⟩

/-- C25 (amended): for every server state, every client `c` with a record, whatever
reverse channel the record holds, and every request channel `ch` of it, a hang-up on
`ch`, or an end-of-file or error reported by a read on `ch`, calls
`OnIpcClientDisconnected(c)` if and only if `ch` was the last request channel of
`c`, and leaves no record for `c` if and only if it was; the call is made for no
other client. -/
theorem client_gone_iff_last_request_channel (FindNext : List Nat → Option Nat)
    (hFN : ∀ r n, FindNext r = some n → 0 < n ∧ n ≤ r.length) (s : IpcServer) (c : Int)
    (ci : ClientInfo) (ch : Nat) (condition : IOCondition) (reads : List ReadResult)
    (pre : List (List Nat)) (closing : ReadResult) (tail : List ReadResult)
    (hC : stdMapFind s.clients c = some (some ci)) (hId : ci.clientId = c)
    (hTrig : condition.hup = true ∨
      (condition.hup = false ∧ condition.input = true ∧
        reads = pre.map ReadResult.normal ++ closing :: tail ∧ (∀ b ∈ pre, b ≠ []) ∧
        (closing = ReadResult.eof ∨ closing = ReadResult.error))) :
    ∃ s2 ev, HandleReceivedMessage FindNext s c ch condition reads = some (false, s2, ev) ∧
      (c ∈ disconnections ev ↔ ci.channels.erase ch = []) ∧
      (s2.client c = none ↔ ci.channels.erase ch = []) ∧
      (∀ k, k ∈ disconnections ev → k = c) := by
  obtain ⟨pend, msgs, hrun⟩ := handle_close FindNext hFN s c ci ch condition reads pre
    closing tail hC hId hTrig
  refine ⟨_, _, hrun, ?_, ?_, ?_⟩
  · by_cases h : ci.channels.erase ch = []
    · simp [h, disconnections_requests, disconnections_requests_nil, disconnections]
    · simp [h, disconnections_requests, disconnections_requests_nil, disconnections]
  · by_cases h : ci.channels.erase ch = []
    · simp only [h, if_true, client_of_assign_self]
    · simp only [h, if_false, client_of_assign_self]
      simp
  · intro k hk
    by_cases h : ci.channels.erase ch = []
    · simpa [h, disconnections_requests, disconnections_requests_nil, disconnections] using hk
    · simp [h, disconnections_requests, disconnections_requests_nil, disconnections] at hk

theorem client_gone_iff_last_request_channel_witness :
    ∃ s2 ev, HandleReceivedMessage sampleFindNext sampleServer 200 2 ⟨false, true⟩
        [ReadResult.normal [1, 20], ReadResult.error] = some (false, s2, ev) ∧
      (200 ∈ disconnections ev ↔ [2].erase 2 = []) ∧
      (s2.client 200 = none ↔ [2].erase 2 = []) ∧
      (∀ k, k ∈ disconnections ev → k = 200) :=
  client_gone_iff_last_request_channel sampleFindNext sampleFindNext_advances sampleServer
    200 ⟨200, some 12, [2], "B"⟩ 2 ⟨false, true⟩
    [ReadResult.normal [1, 20], ReadResult.error] [[1, 20]] ReadResult.error []
    (by decide) (by decide)
    (Or.inr ⟨by decide, by decide, by decide, by decide, Or.inr (by decide)⟩)

theorem client_of_assign_ne (m : List (Int × Option ClientInfo)) (pend pend2 : List Nat)
    (c k : Int) (v : Option ClientInfo) (h : k ≠ c) :
    IpcServer.client ⟨stdMapAssign m c v, pend⟩ k = IpcServer.client ⟨m, pend2⟩ k := by
  unfold IpcServer.client
  simp only [stdMapFind_assign_ne _ _ _ _ h]

/-- The outcome of `OnConnectionRequest` in terms of the record found for the
process: the map afterwards holds, for the process, the found or the new record
with the channel added, and for every other process what it held. -/
theorem onConnectionRequest_eq (aul : Int → Option String) (s : IpcServer)
    (pid reverse : Int) (pChannel : Nat) (appId : String)
    (hRes : s.client pid = none → aul pid = some appId) :
    ∃ m2, (∀ k, k ≠ pid → stdMapFind m2 k = stdMapFind s.clients k) ∧
      OnConnectionRequest aul s pid reverse pChannel =
        (⟨stdMapAssign m2 pid (some
            (if reverse ≠ 0 then
              ⟨(match s.client pid with | some ci => ci.clientId | none => pid),
                some pChannel, s.channelsOf pid,
                (match s.client pid with | some ci => ci.appId | none => appId)⟩
            else
              ⟨(match s.client pid with | some ci => ci.clientId | none => pid),
                s.reverseOf pid, s.channelsOf pid ++ [pChannel],
                (match s.client pid with | some ci => ci.appId | none => appId)⟩)),
          s.pending⟩,
          if s.client pid = none then [ServerEvent.clientConnected pid] else []) := by
  cases hf : stdMapFind s.clients pid with
  | none =>
    have hc : s.client pid = none := by simp [IpcServer.client, hf]
    have ha := hRes hc
    refine ⟨s.clients ++ [(pid, none)], fun k hk => stdMapFind_append_ne _ _ _ _ hk, ?_⟩
    by_cases hr : reverse = 0
    · simp [OnConnectionRequest, stdMapIndex, hf, ha, hc, hr, IpcServer.channelsOf,
        IpcServer.reverseOf]
    · simp [OnConnectionRequest, stdMapIndex, hf, ha, hc, hr, IpcServer.channelsOf,
        IpcServer.reverseOf]
  | some v =>
    cases v with
    | none =>
      have hc : s.client pid = none := by simp [IpcServer.client, hf]
      have ha := hRes hc
      refine ⟨s.clients, fun k _ => rfl, ?_⟩
      by_cases hr : reverse = 0
      · simp [OnConnectionRequest, stdMapIndex, hf, ha, hc, hr, IpcServer.channelsOf,
          IpcServer.reverseOf]
      · simp [OnConnectionRequest, stdMapIndex, hf, ha, hc, hr, IpcServer.channelsOf,
          IpcServer.reverseOf]
    | some ci =>
      have hc : s.client pid = some ci := by simp [IpcServer.client, hf]
      refine ⟨s.clients, fun k _ => rfl, ?_⟩
      by_cases hr : reverse = 0
      · simp [OnConnectionRequest, stdMapIndex, hf, hc, hr, IpcServer.channelsOf,
          IpcServer.reverseOf]
      · simp [OnConnectionRequest, stdMapIndex, hf, hc, hr, IpcServer.channelsOf,
          IpcServer.reverseOf]

/-! ## Accepting a connection -/

/-- C26: for every server state and every accepted connection of a process `pid`
that has a record or whose application identifier resolves: afterwards the map
holds a record for `pid`; `OnIpcClientConnected(pid)` is called exactly when there
was no record before (and nothing else is called); with a non-zero hello flag the
new channel is the reverse channel of `pid` and its request channels are as before;
with a zero flag the new channel is appended to its request channels and its
reverse channel is as before; the record of every other process and the pending
bytes are as before. -/
theorem connection_request_cases (aul : Int → Option String) (s : IpcServer)
    (pid reverse : Int) (pChannel : Nat) (appId : String)
    (hRes : s.client pid = none → aul pid = some appId) :
    (OnConnectionRequest aul s pid reverse pChannel).1.client pid ≠ none ∧
    (s.client pid = none →
      (OnConnectionRequest aul s pid reverse pChannel).2 =
        [ServerEvent.clientConnected pid]) ∧
    (s.client pid ≠ none → (OnConnectionRequest aul s pid reverse pChannel).2 = []) ∧
    (reverse ≠ 0 →
      (OnConnectionRequest aul s pid reverse pChannel).1.reverseOf pid = some pChannel ∧
      (OnConnectionRequest aul s pid reverse pChannel).1.channelsOf pid =
        s.channelsOf pid) ∧
    (reverse = 0 →
      (OnConnectionRequest aul s pid reverse pChannel).1.channelsOf pid =
        s.channelsOf pid ++ [pChannel] ∧
      (OnConnectionRequest aul s pid reverse pChannel).1.reverseOf pid =
        s.reverseOf pid) ∧
    (∀ k, k ≠ pid →
      (OnConnectionRequest aul s pid reverse pChannel).1.client k = s.client k) ∧
    (OnConnectionRequest aul s pid reverse pChannel).1.pending = s.pending := by
  obtain ⟨m2, hm2, hrun⟩ := onConnectionRequest_eq aul s pid reverse pChannel appId hRes
  rw [hrun]
  refine ⟨?_, ?_, ?_, ?_, ?_, ?_, rfl⟩
  · simp only [client_of_assign_self]
    simp
  · intro h
    simp [h]
  · intro h
    simp [h]
  · intro hr
    simp [IpcServer.reverseOf, IpcServer.channelsOf, client_of_assign_self, hr]
  · intro hr
    simp [IpcServer.reverseOf, IpcServer.channelsOf, client_of_assign_self, hr]
  · intro k hk
    rw [client_of_assign_ne m2 s.pending s.pending pid k _ hk]
    unfold IpcServer.client
    simp only [hm2 k hk]

theorem connection_request_cases_witness :
    (OnConnectionRequest (fun _ => some "C") sampleServer 300 0 3).1.client 300 ≠ none ∧
    (sampleServer.client 300 = none →
      (OnConnectionRequest (fun _ => some "C") sampleServer 300 0 3).2 =
        [ServerEvent.clientConnected 300]) ∧
    (sampleServer.client 300 ≠ none →
      (OnConnectionRequest (fun _ => some "C") sampleServer 300 0 3).2 = []) ∧
    ((0 : Int) ≠ 0 →
      (OnConnectionRequest (fun _ => some "C") sampleServer 300 0 3).1.reverseOf 300 =
        some 3 ∧
      (OnConnectionRequest (fun _ => some "C") sampleServer 300 0 3).1.channelsOf 300 =
        sampleServer.channelsOf 300) ∧
    ((0 : Int) = 0 →
      (OnConnectionRequest (fun _ => some "C") sampleServer 300 0 3).1.channelsOf 300 =
        sampleServer.channelsOf 300 ++ [3] ∧
      (OnConnectionRequest (fun _ => some "C") sampleServer 300 0 3).1.reverseOf 300 =
        sampleServer.reverseOf 300) ∧
    (∀ k, k ≠ 300 →
      (OnConnectionRequest (fun _ => some "C") sampleServer 300 0 3).1.client k =
        sampleServer.client k) ∧
    (OnConnectionRequest (fun _ => some "C") sampleServer 300 0 3).1.pending =
      sampleServer.pending :=
  connection_request_cases (fun _ => some "C") sampleServer 300 0 3 "C" (fun _ => rfl)

/-! ## Lemmas on framing -/

/-- The inner loop on a range that is a prefix of the bytes of a list of frames:
it dispatches the frames the range holds completely and leaves the rest, a proper
prefix of the next frame. -/
theorem scan_frames (FindNext : List Nat → Option Nat) (hEmpty : FindNext [] = none) :
    ∀ (rest : List (List Nat)),
      (∀ f ∈ rest, f ≠ []) →
      (∀ f ∈ rest, ∀ t, FindNext (f ++ t) = some f.length) →
      (∀ f ∈ rest, ∀ p, p <+: f → p ≠ f → FindNext p = none) →
      ∀ (fuel : Nat) (range : List Nat), range <+: rest.flatten → range.length < fuel →
        ∃ (fs1 fs2 : List (List Nat)) (p2 : List Nat),
          rest = fs1 ++ fs2 ∧ range = fs1.flatten ++ p2 ∧ (fs2 = [] → p2 = []) ∧
          (∀ f ∈ fs2.head?, p2 <+: f ∧ p2 ≠ f) ∧
          scanMessages FindNext fuel range = some (fs1, p2) := by
  intro rest
  induction rest with
  | nil =>
    intro _ _ _ fuel range hp hl
    have hr : range = [] := by simpa using hp
    subst hr
    cases fuel with
    | zero => exact absurd hl (Nat.not_lt_zero _)
    | succ k =>
      refine ⟨[], [], [], rfl, rfl, fun _ => rfl, by simp, ?_⟩
      simp [scanMessages, hEmpty]
  | cons f rest ih =>
    intro h0 h1 h2 fuel range hp hl
    have hf0 : f ≠ [] := h0 f (List.mem_cons_self _ _)
    have ih2 := ih (fun g hg => h0 g (List.mem_cons_of_mem _ hg))
      (fun g hg => h1 g (List.mem_cons_of_mem _ hg))
      (fun g hg => h2 g (List.mem_cons_of_mem _ hg))
    cases fuel with
    | zero => exact absurd hl (Nat.not_lt_zero _)
    | succ k =>
      rw [List.flatten_cons] at hp
      by_cases hlt : range.length < f.length
      · have hpf : range <+: f :=
          List.prefix_of_prefix_length_le hp (List.prefix_append f _) (Nat.le_of_lt hlt)
        have hne : range ≠ f := by
          intro e
          rw [e] at hlt
          exact Nat.lt_irrefl _ hlt
        have hn := h2 f (List.mem_cons_self _ _) range hpf hne
        refine ⟨[], f :: rest, range, rfl, by simp, by simp, ?_, ?_⟩
        · intro g hg
          simp only [List.head?_cons, Option.mem_def, Option.some.injEq] at hg
          rw [← hg]
          exact ⟨hpf, hne⟩
        · simp [scanMessages, hn]
      · have hfp : f <+: range :=
          List.prefix_of_prefix_length_le (List.prefix_append f _) hp (by omega)
        obtain ⟨r2, hr2⟩ := hfp
        subst hr2
        have hp2 : r2 <+: rest.flatten := (List.prefix_append_right_inj f).mp hp
        have hlen2 : r2.length < k := by
          have hfl : 0 < f.length := List.length_pos.mpr hf0
          simp only [List.length_append] at hl hlt
          omega
        obtain ⟨fs1, fs2, p2, e1, e2, e3, e4, e5⟩ := ih2 k r2 hp2 hlen2
        have hfn := h1 f (List.mem_cons_self _ _) r2
        have hpos : ¬ f.length = 0 := fun h => hf0 (List.length_eq_zero.mp h)
        refine ⟨f :: fs1, fs2, p2, by rw [e1]; rfl, by rw [e2]; simp, e3, e4, ?_⟩
        simp [scanMessages, hfn, hpos, e5]

/-- One call of the read loop over non-empty chunks that continue the bytes of a
list of frames: the frames completed by the chunks are dispatched, in order, and
the pending bytes are again a proper prefix of the next frame. -/
theorem readLoop_frames (FindNext : List Nat → Option Nat) (hEmpty : FindNext [] = none)
    (c cid : Int) (ch : Nat) :
    ∀ (chunks : List (List Nat)) (s : IpcServer) (rest : List (List Nat)),
      (∀ b ∈ chunks, b ≠ []) →
      (∀ f ∈ rest, f ≠ []) →
      (∀ f ∈ rest, ∀ t, FindNext (f ++ t) = some f.length) →
      (∀ f ∈ rest, ∀ p, p <+: f → p ≠ f → FindNext p = none) →
      s.pending ++ chunks.flatten <+: rest.flatten →
        ∃ (fs1 fs2 : List (List Nat)) (p2 : List Nat),
          rest = fs1 ++ fs2 ∧ s.pending ++ chunks.flatten = fs1.flatten ++ p2 ∧
          (chunks ≠ [] → (fs2 = [] → p2 = []) ∧ (∀ f ∈ fs2.head?, p2 <+: f ∧ p2 ≠ f)) ∧
          (chunks = [] → fs1 = [] ∧ p2 = s.pending) ∧
          readLoop FindNext c cid ch s (chunks.map ReadResult.normal) =
            some (true, ⟨s.clients, p2⟩,
              fs1.map (ServerEvent.requestReceived cid ch)) := by
  intro chunks
  induction chunks with
  | nil =>
    intro s rest _ _ _ _ _
    refine ⟨[], rest, s.pending, rfl, by simp, fun h => absurd rfl h, fun _ => ⟨rfl, rfl⟩, ?_⟩
    simp [readLoop]
  | cons b chunks ih =>
    intro s rest hb h0 h1 h2 hp
    have hbne : b ≠ [] := hb b (List.mem_cons_self _ _)
    have hb2 : ¬ b.length = 0 := fun h => hbne (List.length_eq_zero.mp h)
    have hrange : (if s.pending.isEmpty then b else s.pending ++ b) = s.pending ++ b := by
      by_cases he : s.pending.isEmpty
      · have : s.pending = [] := List.isEmpty_iff.mp he
        simp [this]
      · simp [he]
    have hp1 : s.pending ++ b <+: rest.flatten := by
      refine List.IsPrefix.trans ?_ hp
      rw [List.flatten_cons, ← List.append_assoc]
      exact List.prefix_append _ _
    obtain ⟨fa, fb, pa, e1, e2, e3, e4, e5⟩ := scan_frames FindNext hEmpty rest h0 h1 h2
      ((s.pending ++ b).length + 1) (s.pending ++ b) hp1 (Nat.lt_succ_self _)
    have hmem : ∀ g ∈ fb, g ∈ rest := by
      intro g hg
      rw [e1]
      exact List.mem_append_right _ hg
    have hp3 : (⟨s.clients, pa⟩ : IpcServer).pending ++ chunks.flatten <+: fb.flatten := by
      have h3 : fa.flatten ++ (pa ++ chunks.flatten) <+: fa.flatten ++ fb.flatten := by
        rw [← List.append_assoc, ← e2, List.append_assoc, ← List.flatten_cons,
          ← List.flatten_append, ← e1]
        exact hp
      exact (List.prefix_append_right_inj _).mp h3
    obtain ⟨fc, fd, pc, g1, g2, g3, g4, g5⟩ := ih ⟨s.clients, pa⟩ fb
      (fun x hx => hb x (List.mem_cons_of_mem _ hx))
      (fun g hg => h0 g (hmem g hg)) (fun g hg => h1 g (hmem g hg))
      (fun g hg => h2 g (hmem g hg)) hp3
    refine ⟨fa ++ fc, fd, pc, ?_, ?_, ?_, ?_, ?_⟩
    · rw [e1, g1, List.append_assoc]
    · have g2b : pa ++ chunks.flatten = fc.flatten ++ pc := g2
      rw [List.flatten_cons, ← List.append_assoc, e2, List.append_assoc, g2b,
        List.flatten_append, List.append_assoc]
    · intro _
      by_cases hc : chunks = []
      · obtain ⟨hfc, hpc⟩ := g4 hc
        have hpc2 : pc = pa := hpc
        have hfd : fd = fb := by rw [g1, hfc]; rfl
        rw [hfd, hpc2]
        exact ⟨e3, e4⟩
      · exact g3 hc
    · intro h
      exact absurd h (List.cons_ne_nil _ _)
    · simp only [List.map_cons, readLoop, hb2, if_false, hrange, e5, g5, List.map_append]

/-- Successive calls of the handler for readable data on one channel, whose chunks
continue the bytes of a list of frames. -/
theorem runCalls_frames (FindNext : List Nat → Option Nat) (hEmpty : FindNext [] = none)
    (c : Int) (ci : ClientInfo) (ch : Nat) (hId : ci.clientId = c) :
    ∀ (calls : List (List (List Nat))) (s : IpcServer) (rest : List (List Nat)),
      stdMapFind s.clients c = some (some ci) →
      (∀ call ∈ calls, ∀ b ∈ call, b ≠ []) →
      (∀ f ∈ rest, f ≠ []) →
      (∀ f ∈ rest, ∀ t, FindNext (f ++ t) = some f.length) →
      (∀ f ∈ rest, ∀ p, p <+: f → p ≠ f → FindNext p = none) →
      (rest = [] → s.pending = []) →
      (∀ f ∈ rest.head?, s.pending <+: f ∧ s.pending ≠ f) →
      s.pending ++ calls.flatten.flatten <+: rest.flatten →
        ∃ (fs1 fs2 : List (List Nat)) (p2 : List Nat),
          rest = fs1 ++ fs2 ∧ s.pending ++ calls.flatten.flatten = fs1.flatten ++ p2 ∧
          (fs2 = [] → p2 = []) ∧ (∀ f ∈ fs2.head?, p2 <+: f ∧ p2 ≠ f) ∧
          runCalls FindNext s (calls.map (readableCall c ch)) =
            some (⟨s.clients, p2⟩, fs1.map (ServerEvent.requestReceived c ch)) := by
  intro calls
  induction calls with
  | nil =>
    intro s rest _ _ _ _ _ hi1 hi2 _
    refine ⟨[], rest, s.pending, rfl, by simp, hi1, hi2, ?_⟩
    simp [runCalls]
  | cons call calls ih =>
    intro s rest hC hb h0 h1 h2 hi1 hi2 hp
    have hp1 : s.pending ++ call.flatten <+: rest.flatten := by
      refine List.IsPrefix.trans ?_ hp
      rw [List.flatten_cons, List.flatten_append, ← List.append_assoc]
      exact List.prefix_append _ _
    obtain ⟨fa, fb, pa, e1, e2, e3, e4, e5⟩ := readLoop_frames FindNext hEmpty c c ch call s
      rest (hb call (List.mem_cons_self _ _)) h0 h1 h2 hp1
    have hinv : (fb = [] → pa = []) ∧ (∀ f ∈ fb.head?, pa <+: f ∧ pa ≠ f) := by
      by_cases hc : call = []
      · obtain ⟨hfa, hpa⟩ := e4 hc
        have hfb : fb = rest := by rw [e1, hfa]; rfl
        rw [hfb, hpa]
        exact ⟨hi1, hi2⟩
      · exact e3 hc
    have hmem : ∀ g ∈ fb, g ∈ rest := by
      intro g hg
      rw [e1]
      exact List.mem_append_right _ hg
    have hp3 : (⟨s.clients, pa⟩ : IpcServer).pending ++ calls.flatten.flatten
        <+: fb.flatten := by
      have h3 : fa.flatten ++ (pa ++ calls.flatten.flatten) <+: fa.flatten ++ fb.flatten := by
        rw [← List.append_assoc, ← e2, List.append_assoc, ← List.flatten_append,
          ← List.flatten_cons, ← List.flatten_append, ← e1]
        exact hp
      exact (List.prefix_append_right_inj _).mp h3
    obtain ⟨fc, fd, pc, g1, g2, g3, g4, g5⟩ := ih ⟨s.clients, pa⟩ fb hC
      (fun x hx => hb x (List.mem_cons_of_mem _ hx))
      (fun g hg => h0 g (hmem g hg)) (fun g hg => h1 g (hmem g hg))
      (fun g hg => h2 g (hmem g hg)) hinv.1 hinv.2 hp3
    refine ⟨fa ++ fc, fd, pc, ?_, ?_, g3, g4, ?_⟩
    · rw [e1, g1, List.append_assoc]
    · have g2b : pa ++ calls.flatten.flatten = fc.flatten ++ pc := g2
      rw [List.flatten_cons, List.flatten_append, ← List.append_assoc, e2,
        List.append_assoc, g2b, List.flatten_append, List.append_assoc]
    · have hh : HandleReceivedMessage FindNext s c ch ⟨false, true⟩
          (call.map ReadResult.normal) =
          some (true, ⟨s.clients, pa⟩, fa.map (ServerEvent.requestReceived c ch)) := by
        unfold HandleReceivedMessage
        simp only [hC, hId]
        exact e5
      have g5b : runCalls FindNext ⟨s.clients, pa⟩ (calls.map (readableCall c ch)) =
          some (⟨s.clients, pc⟩, fc.map (ServerEvent.requestReceived c ch)) := g5
      show (match HandleReceivedMessage FindNext s c ch ⟨false, true⟩
            (call.map ReadResult.normal) with
          | none => none
          | some (_, s2, ev) =>
            match runCalls FindNext s2 (calls.map (readableCall c ch)) with
            | none => none
            | some (s3, ev2) => some (s3, ev ++ ev2)) = _
      rw [hh]
      simp only [g5b, List.map_append]

/-- Calls of the handler that find nothing to read change nothing. -/
theorem runCalls_empty (FindNext : List Nat → Option Nat) (c : Int) (ci : ClientInfo)
    (ch : Nat) :
    ∀ (calls : List (List (List Nat))) (s : IpcServer),
      stdMapFind s.clients c = some (some ci) → (∀ call ∈ calls, call = []) →
        runCalls FindNext s (calls.map (readableCall c ch)) = some (s, []) := by
  intro calls
  induction calls with
  | nil => intro s _ _; rfl
  | cons call calls ih =>
    intro s hC hall
    have hc : call = [] := hall call (List.mem_cons_self _ _)
    have hrest := ih s hC (fun x hx => hall x (List.mem_cons_of_mem _ hx))
    have hh : HandleReceivedMessage FindNext s c ch ⟨false, true⟩
        (call.map ReadResult.normal) = some (true, s, []) := by
      rw [hc]
      unfold HandleReceivedMessage
      simp [hC, readLoop]
    show (match HandleReceivedMessage FindNext s c ch ⟨false, true⟩
          (call.map ReadResult.normal) with
        | none => none
        | some (_, s2, ev) =>
          match runCalls FindNext s2 (calls.map (readableCall c ch)) with
          | none => none
          | some (s3, ev2) => some (s3, ev ++ ev2)) = _
    rw [hh]
    simp only [hrest, List.nil_append]


/-! ## Framing on one channel -/

/-- C22: for every list of frames, each non-empty, such that `FindNext` answers the
length of the frame for a range that starts with it and NULL for a range that is a
proper prefix of it, and every way of cutting the bytes of the frames into chunks of
1 to 1024 bytes, read in any number of calls of the handler on one request channel
of a client, starting with nothing pending: the server hands the listener exactly
the frames, in order, each once, for that client and channel, and ends with nothing
pending and the same clients. -/
theorem read_loop_reassembles_frames (FindNext : List Nat → Option Nat) (s : IpcServer)
    (c : Int) (ci : ClientInfo) (ch : Nat) (frames : List (List Nat))
    (calls : List (List (List Nat)))
    (hC : stdMapFind s.clients c = some (some ci)) (hId : ci.clientId = c)
    (hP : s.pending = [])
    (hF0 : ∀ f ∈ frames, f ≠ [])
    (hF1 : ∀ f ∈ frames, ∀ t, FindNext (f ++ t) = some f.length)
    (hF2 : ∀ f ∈ frames, ∀ p, p <+: f → p ≠ f → FindNext p = none)
    (hChunk : ∀ call ∈ calls, ∀ b ∈ call, 1 ≤ b.length ∧ b.length ≤ 1024)
    (hCat : calls.flatten.flatten = frames.flatten) :
    runCalls FindNext s (calls.map (readableCall c ch)) =
      some (⟨s.clients, []⟩, frames.map (ServerEvent.requestReceived c ch)) := by
  have hne : ∀ call ∈ calls, ∀ b ∈ call, b ≠ [] := by
    intro call hc b hb e
    have h1 := (hChunk call hc b hb).1
    rw [e] at h1
    exact absurd h1 (by decide)
  have hs : s = ⟨s.clients, []⟩ := by
    cases s with
    | mk cl pe =>
      have hpe : pe = [] := hP
      rw [hpe]
  cases frames with
  | nil =>
    have hall : ∀ call ∈ calls, call = [] := by
      intro call hc
      cases call with
      | nil => rfl
      | cons b bs =>
        exfalso
        have hbne : b ≠ [] := hne _ hc b (List.mem_cons_self _ _)
        obtain ⟨x, hx⟩ := List.exists_mem_of_ne_nil b hbne
        have hmem : x ∈ calls.flatten.flatten :=
          List.mem_flatten.mpr ⟨b, List.mem_flatten.mpr ⟨_, hc, List.mem_cons_self _ _⟩, hx⟩
        rw [hCat] at hmem
        simp at hmem
    rw [runCalls_empty FindNext c ci ch calls s hC hall]
    rw [← hs]
    rfl
  | cons f frames =>
    have hf0 : f ≠ [] := hF0 f (List.mem_cons_self _ _)
    have hEmpty : FindNext [] = none :=
      hF2 f (List.mem_cons_self _ _) [] (List.nil_prefix) (Ne.symm hf0)
    have hp : s.pending ++ calls.flatten.flatten <+: (f :: frames).flatten := by
      rw [hP, hCat]
      exact List.prefix_refl _
    obtain ⟨fs1, fs2, p2, e1, e2, e3, e4, e5⟩ := runCalls_frames FindNext hEmpty c ci ch hId
      calls s (f :: frames) hC hne hF0 hF1 hF2 (fun h => absurd h (List.cons_ne_nil _ _))
      (by
        intro g hg
        simp only [List.head?_cons, Option.mem_def, Option.some.injEq] at hg
        rw [← hg, hP]
        exact ⟨List.nil_prefix, Ne.symm hf0⟩) hp
    have hp2 : p2 = fs2.flatten := by
      rw [hP, hCat, e1, List.flatten_append, List.nil_append] at e2
      exact (List.append_cancel_left e2).symm
    have hfs2 : fs2 = [] := by
      cases fs2 with
      | nil => rfl
      | cons g tl =>
        exfalso
        obtain ⟨hpre, hneq⟩ := e4 g (by simp)
        rw [hp2, List.flatten_cons] at hpre hneq
        have hlen := hpre.length_le
        simp only [List.length_append] at hlen
        have htl : tl.flatten = [] := List.length_eq_zero.mp (by omega)
        rw [htl, List.append_nil] at hneq
        exact hneq rfl
    have hp3 : p2 = [] := e3 hfs2
    rw [e5, hp3, e1, hfs2, List.append_nil]

theorem sampleFindNext_frame (n : Nat) (payload t : List Nat) (h : payload.length = n) :
    sampleFindNext ((n :: payload) ++ t) = some (n :: payload).length := by
  simp [sampleFindNext, h]

theorem sampleFindNext_prefix (n : Nat) (payload p : List Nat) (h : payload.length = n)
    (hp : p <+: n :: payload) (hne : p ≠ n :: payload) : sampleFindNext p = none := by
  cases p with
  | nil => rfl
  | cons a q =>
    obtain ⟨t, ht⟩ := hp
    simp only [List.cons_append, List.cons.injEq] at ht
    obtain ⟨ha, hq⟩ := ht
    subst ha
    have hlen : q.length + t.length = payload.length := by
      rw [← hq, List.length_append]
    have ht0 : t ≠ [] := by
      intro e
      rw [e, List.append_nil] at hq
      exact hne (by rw [hq])
    have htl : 0 < t.length := List.length_pos.mpr ht0
    have hlt : ¬ a ≤ q.length := by omega
    simp [sampleFindNext, hlt]

theorem read_loop_reassembles_frames_witness :
    runCalls sampleFindNext sampleServer
        ([[[3, 10], [11, 12, 1]], [[20]]].map (readableCall 100 1)) =
      some (⟨sampleServer.clients, []⟩,
        [[3, 10, 11, 12], [1, 20]].map (ServerEvent.requestReceived 100 1)) :=
  read_loop_reassembles_frames sampleFindNext sampleServer 100 ⟨100, some 11, [1], "A"⟩ 1
    [[3, 10, 11, 12], [1, 20]] [[[3, 10], [11, 12, 1]], [[20]]] (by decide) (by decide)
    (by decide) (by decide)
    (by
      intro f hf t
      simp only [List.mem_cons, List.mem_singleton, List.not_mem_nil, or_false] at hf
      rcases hf with rfl | rfl
      · exact sampleFindNext_frame 3 [10, 11, 12] t rfl
      · exact sampleFindNext_frame 1 [20] t rfl)
    (by
      intro f hf p hp hne
      simp only [List.mem_cons, List.mem_singleton, List.not_mem_nil, or_false] at hf
      rcases hf with rfl | rfl
      · exact sampleFindNext_prefix 3 [10, 11, 12] p rfl hp hne
      · exact sampleFindNext_prefix 1 [20] p rfl hp hne)
    (by decide) (by decide)

/-! ## Framing on two channels -/

/-- C23 (defect in the code): `__pending` is one string of the server, not one per
channel.  Client 100 sends the frame `3 10 11 12` on channel 1 and client 200 the
frame `1 20` on channel 2.  Read alone, each channel dispatches its own frame.  When
the read of `1 20` on channel 2 comes between the reads `3 10` and `11 12` on channel
1, the bytes kept from channel 1 are prepended to those of channel 2: the listener
gets the message `3 10 1 20` for client 200, no message for client 100, and `11 12`
stays pending.  When channel 1 hangs up after its first read, its bytes stay pending
and are joined to the next read of channel 2 in the same way. -/
theorem pending_bytes_are_shared_between_channels :
    (runCalls sampleFindNext sampleServer
        [readableCall 100 1 [[3, 10]], readableCall 100 1 [[11, 12]]]).map
      (fun r => (r.1.pending, requests r.2)) = some ([], [(100, 1, [3, 10, 11, 12])]) ∧
    (runCalls sampleFindNext sampleServer [readableCall 200 2 [[1, 20]]]).map
      (fun r => (r.1.pending, requests r.2)) = some ([], [(200, 2, [1, 20])]) ∧
    (runCalls sampleFindNext sampleServer [readableCall 100 1 [[3, 10]]]).map
      (fun r => (r.1.pending, requests r.2)) = some ([3, 10], []) ∧
    (runCalls sampleFindNext sampleServer
        [readableCall 100 1 [[3, 10]], readableCall 200 2 [[1, 20]],
          readableCall 100 1 [[11, 12]]]).map
      (fun r => (r.1.pending, requests r.2)) =
        some ([11, 12], [(200, 2, [3, 10, 1, 20])]) ∧
    (runCalls sampleFindNext sampleServer
        [readableCall 100 1 [[3, 10]], ⟨100, 1, ⟨true, false⟩, []⟩]).map
      (fun r => (r.1.pending, r.1.client 100, disconnections r.2)) =
        some ([3, 10], none, [100]) ∧
    (runCalls sampleFindNext sampleServer
        [readableCall 100 1 [[3, 10]], ⟨100, 1, ⟨true, false⟩, []⟩,
          readableCall 200 2 [[1, 20]]]).map
      (fun r => (r.1.pending, requests r.2)) = some ([], [(200, 2, [3, 10, 1, 20])]) := by
  refine ⟨by decide, by decide, by decide, by decide, by decide, by decide⟩

end MessagePort
